import Mathlib

/-!
# SharpExt4: the session layer over the ext4 engine

A shallow embedding of `ExtFileSystem.cpp`, `ExtFileSystem.h`, `ExtDisk.cpp` and
`DateTimeUtils.h`.

* A managed string (`String^`) is the list of its characters; a reference that may be
  `nullptr` is an `Option`.
* The ext4 engine (lwext4) is an external collaborator: it is a transition function
  `σ → Call → Reply × σ` over an arbitrary engine state `σ`.  Every engine primitive the
  session layer invokes is recorded, with its arguments, in the log of the `World`.
* A managed exception is a value of `Exn`; an operation returns `Except Exn α` together
  with the world it leaves behind.

Definitions come first, theorems second.
-/

namespace SharpExt4

/-! ## Managed strings -/

/-- A managed string as the list of its characters. -/
abbrev Str := List Char

instance : Coe String Str := ⟨String.toList⟩

/-- `String::IsNullOrEmpty`. -/
def IsNullOrEmpty : Option Str → Bool
  | none => true
  | some s => s.isEmpty

/-- `String::TrimEnd(c)`: every trailing occurrence of `c` is removed. -/
def TrimEnd (c : Char) (s : Str) : Str := s.rdropWhile (· == c)

/-- `String::TrimStart(c)`: every leading occurrence of `c` is removed. -/
def TrimStart (c : Char) (s : Str) : Str := s.dropWhile (· == c)

/-- `String::StartsWith` (ordinal). -/
def StartsWith (s p : Str) : Bool := p.isPrefixOf s

/-- `String::EndsWith` (ordinal). -/
def EndsWith (s p : Str) : Bool := p.isSuffixOf s

/-- `String::Contains`. -/
def Contains (s p : Str) : Bool := decide (p <:+: s)

/-- `String::Replace(old, new)` for a two-character `old = [a, b]`: left to right,
non-overlapping. -/
def Replace2 (a b : Char) (new : Str) : Str → Str
  | x :: y :: s => if x = a ∧ y = b then new ++ Replace2 a b new s else x :: Replace2 a b new (y :: s)
  | s => s

/-- The operator `+` on managed strings, where a null operand counts as empty. -/
def nstr (s : Option Str) : Str := s.getD []

/-- `CombinePaths` (ExtFileSystem.cpp 322-336). -/
def CombinePaths (a b : Option Str) : Option Str :=
  if IsNullOrEmpty a then b
  else if IsNullOrEmpty b then a
  else some (TrimEnd '/' (nstr a) ++ "/" ++ TrimStart '/' (nstr b))

/-! ## Managed exceptions -/

/-- The exception classes the layer raises or can meet. -/
inductive ExnKind
  | ArgumentNullException
  | ArgumentException
  | ArgumentOutOfRangeException
  | NullReferenceException
  | ObjectDisposedException
  | IOException
  | FileNotFoundException
  | DirectoryNotFoundException
  deriving DecidableEq, Repr

/-- A managed exception: its class, its message and, for `wrap`, its inner exception. -/
inductive Exn
  | mk (kind : ExnKind) (message : Str)
  | wrap (kind : ExnKind) (message : Str) (inner : Exn)
  deriving DecidableEq, Repr

deriving instance DecidableEq for Except

/-- The class of an exception. -/
def Exn.kind : Exn → ExnKind
  | .mk k _ => k
  | .wrap k _ _ => k

/-- The message of an exception. -/
def Exn.message : Exn → Str
  | .mk _ m => m
  | .wrap _ m _ => m

/-- `String::Substring(startIndex)`. -/
def Substring (s : Str) (startIndex : Int) : Except Exn Str :=
  if startIndex < 0 ∨ (s.length : Int) < startIndex then
    .error (.mk .ArgumentOutOfRangeException "startIndex")
  else .ok (s.drop startIndex.toNat)

/-! ## The pattern matcher (`System.Text.RegularExpressions`)

Only the fragment of the regular-expression language that `ConvertWildcardsToRegEx` can
emit is interpreted: escaped literals, plain literals, `.`, a `*` after one of them, and
the anchors `^` (first) and `$` (last). -/

/-- The characters `Regex::Escape` escapes. -/
def isMetachar (c : Char) : Bool :=
  c ∈ ['\t', '\n', '\x0c', '\r', ' ', '#', '$', '(', ')', '*', '+', '.', '?', '[', '\\', '^',
    '{', '|']

/-- `Regex::Escape`. -/
def RegexEscape : Str → Str
  | [] => []
  | c :: s =>
    (if c = '\n' then ['\\', 'n']
     else if c = '\r' then ['\\', 'r']
     else if c = '\t' then ['\\', 't']
     else if c = '\x0c' then ['\\', 'f']
     else if isMetachar c then ['\\', c]
     else [c]) ++ RegexEscape s

/-- One atom of a pattern with its quantifier: a literal character or `.`, starred or
not. -/
inductive RegexItem
  | lit (c : Char) (star : Bool)
  | any (star : Bool)
  deriving DecidableEq, Repr

/-- The character an escape sequence `\c` denotes, within the fragment. -/
def unescape (c : Char) : Option Char :=
  if c = 'n' then some '\n'
  else if c = 'r' then some '\r'
  else if c = 't' then some '\t'
  else if c = 'f' then some '\x0c'
  else if isMetachar c then some c
  else none

/-- The body of a pattern (between `^` and `$`) read into items; `none` when the pattern
is rejected (a quantifier with nothing to repeat, a nested quantifier) or falls outside
the fragment. -/
def parseItems : Str → Option (List RegexItem)
  | [] => some []
  | '\\' :: c :: '*' :: s =>
    if s.head? = some '*' then none
    else (unescape c).bind fun d => (parseItems s).map (RegexItem.lit d true :: ·)
  | '\\' :: c :: s => (unescape c).bind fun d => (parseItems s).map (RegexItem.lit d false :: ·)
  | '.' :: '*' :: s =>
    if s.head? = some '*' then none else (parseItems s).map (RegexItem.any true :: ·)
  | '.' :: s => (parseItems s).map (RegexItem.any false :: ·)
  | c :: '*' :: s =>
    if isMetachar c ∨ s.head? = some '*' then none
    else (parseItems s).map (RegexItem.lit c true :: ·)
  | c :: s => if isMetachar c then none else (parseItems s).map (RegexItem.lit c false :: ·)

/-- A compiled `Regex` with `RegexOptions::IgnoreCase | RegexOptions::CultureInvariant`:
the items between the anchors, and the invariant lower-casing `fold` of the runtime that
the case-insensitive comparison goes through. -/
structure Regex where
  fold : Char → Char
  items : List RegexItem

/-- The constructor `Regex(query, IgnoreCase | CultureInvariant)` for an anchored
query. -/
def Regex.create (fold : Char → Char) (query : Str) : Except Exn Regex :=
  match query with
  | '^' :: body =>
    match body.getLast? with
    | some '$' =>
      match parseItems body.dropLast with
      | some items => .ok ⟨fold, items⟩
      | none => .error (.mk .ArgumentException "parsing pattern")
    | _ => .error (.mk .ArgumentException "parsing pattern")
  | _ => .error (.mk .ArgumentException "parsing pattern")

/-- Whether an atom accepts a character: `.` accepts all but the line feed, a literal
accepts the characters with the same lower-casing. -/
def RegexItem.accepts (fold : Char → Char) : RegexItem → Char → Bool
  | .lit c _, x => fold x == fold c
  | .any _, x => x != '\n'

/-- Whether an item is starred. -/
def RegexItem.starred : RegexItem → Bool
  | .lit _ b => b
  | .any b => b

/-- Backtracking over a starred atom `ok`: the continuation `k` is tried after every
run of accepted characters. -/
def matchStar (ok : Char → Bool) (k : Str → Bool) : Str → Bool
  | [] => k []
  | x :: s => k (x :: s) || (ok x && matchStar ok k s)

/-- The items against the whole rest of the input; `$` accepts the end of the input and
the position before a final line feed. -/
def matchItems (fold : Char → Char) : List RegexItem → Str → Bool
  | [], s => s == [] || s == ['\n']
  | it :: its, s =>
    if it.starred then matchStar (it.accepts fold) (matchItems fold its) s
    else
      match s with
      | [] => false
      | x :: t => it.accepts fold x && matchItems fold its t

/-- `Regex::IsMatch`. -/
def Regex.IsMatch (r : Regex) (input : Str) : Bool := matchItems r.fold r.items input

/-- `ConvertWildcardsToRegEx` (ExtFileSystem.cpp 311-320). -/
def ConvertWildcardsToRegEx (fold : Char → Char) (pattern : Option Str) : Except Exn Regex :=
  match pattern with
  | none => .error (.mk .NullReferenceException "")
  | some pattern =>
    let pattern := if !Contains pattern "." then pattern ++ "." else pattern
    let query : Str :=
      "^" ++ Replace2 '\\' '.' ".*" (Replace2 '\\' '*' ".*" (RegexEscape pattern)) ++ "$"
    Regex.create fold query

/-! ## The ext4 engine -/

/-- The status every engine primitive returns on success. -/
def EOK : Nat := 0

/-- What `ext4_dir_entry_next` hands out: the fields of `ext4_direntry` the layer reads. -/
structure ext4_direntry where
  name_length : Nat
  name : Str
  inode_type : Nat
  entry_length : Nat
  deriving DecidableEq, Repr

/-- The engine primitives the layer invokes, with the arguments it passes.  A path is a
native string converted from a managed one, so it can be null. -/
inductive Call
  | ext4_device_register (name : Str)
  | ext4_device_unregister (name : Option Str)
  | ext4_mount (name : Str) (mountPoint : Option Str) (readOnly : Bool)
  | ext4_umount (mountPoint : Option Str)
  | ext4_block_init
  | ext4_block_fini
  | ext4_mount_point_stats (mountPoint : Option Str)
  | ext4_dir_open (path : Option Str)
  | ext4_dir_close
  | ext4_dir_mk (path : Option Str)
  | ext4_dir_rm (path : Option Str)
  | ext4_dir_mv (path newPath : Option Str)
  | ext4_fopen (path : Option Str) (flags : Str)
  | ext4_fclose (file : Nat)
  | ext4_fsize (file : Nat)
  | ext4_ftruncate (file : Nat) (size : Nat)
  | ext4_fremove (path : Option Str)
  | ext4_frename (path newPath : Option Str)
  | ext4_fsymlink (target path : Option Str)
  | ext4_flink (target path : Option Str)
  | ext4_readlink (path : Option Str)
  | ext4_mode_get (path : Option Str)
  | ext4_mode_set (path : Option Str) (mode : Nat)
  | ext4_owner_get (path : Option Str)
  | ext4_owner_set (path : Option Str) (uid gid : Nat)
  | ext4_ctime_get (path : Option Str)
  | ext4_ctime_set (path : Option Str) (ctime : Nat)
  | ext4_atime_get (path : Option Str)
  | ext4_atime_set (path : Option Str) (atime : Nat)
  | ext4_mtime_get (path : Option Str)
  | ext4_mtime_set (path : Option Str) (mtime : Nat)
  | stream_open (path : Option Str) (mode access : Nat)
  | stream_read (stream : Nat) (count : Nat)
  | stream_write (stream : Nat) (data : List Nat)
  | stream_close (stream : Nat)
  deriving DecidableEq, Repr

/-- What a primitive answers: its status and its out-parameters.  `file` is the handle
`ext4_fopen` fills in, `val1` and `val2` the 32-bit values of the getters, `entries` the
entries `ext4_dir_entry_next` yields, in order, before it returns null, `data` the bytes a
stream read delivers. -/
structure Reply where
  status : Nat := 0
  file : Nat := 0
  val1 : Nat := 0
  val2 : Nat := 0
  entries : List ext4_direntry := []
  data : List Nat := []
  deriving DecidableEq, Repr

/-- The engine: a transition function over its own state. -/
abbrev Engine (σ : Type) := σ → Call → Reply × σ

/-- The engine state together with the primitives invoked so far, oldest first. -/
structure World (σ : Type) where
  st : σ
  log : List Call

/-- Invoke one primitive. -/
def call {σ : Type} (E : Engine σ) (c : Call) (w : World σ) : Reply × World σ :=
  ((E w.st c).1, ⟨(E w.st c).2, w.log ++ [c]⟩)

/-- The outcome of an operation: a value or an exception, and the world left behind. -/
abbrev Res (σ α : Type) := Except Exn α × World σ

/-! ## Disk data -/

/-- The fields of `ext4_blockdev` (with those of its `bdif`) the layer reads. -/
structure ext4_blockdev where
  part_offset : Nat
  part_size : Nat
  ph_tcnt : Nat
  ph_scnt : Nat
  ph_bsize : Nat
  deriving DecidableEq, Repr

/-- `Partition`. -/
structure Partition where
  Offset : Nat
  Size : Nat
  deriving DecidableEq, Repr

/-- `Geometry`, as the arguments of its constructor. -/
structure Geometry where
  totalSize : Nat
  tracks : Nat
  sectorsPerTrack : Nat
  blockSize : Nat
  deriving DecidableEq, Repr

/-- The fields of `ExtDisk`. -/
structure ExtDisk where
  bdevs : Option (List ext4_blockdev)
  bd : Option ext4_blockdev
  capacity : Nat
  geometry : Option Geometry
  diskPath : Option Str
  _isRawMode : Bool
  partitions : Option (List Partition)
  deriving DecidableEq, Repr

/-! ## The session -/

/-- `EntryType`, the class of a directory entry. -/
inductive EntryType
  | REG_FILE
  | DIR
  deriving DecidableEq, Repr

/-- The numeric value of `EntryType::DIR`, which `GetDirectory` compares the engine's
`inode_type` with (the engine's code for a directory). -/
def EntryType.DIR_value : Nat := 2

/-- `ExtDirEntry`; `Typ` is its property `Type`. -/
structure ExtDirEntry where
  Name : Str
  Length : Nat
  Typ : EntryType
  deriving DecidableEq, Repr

/-- `SearchOption`. -/
inductive SearchOption
  | TopDirectoryOnly
  | AllDirectories
  deriving DecidableEq, Repr

/-- The fields of `ExtFileSystem` (ExtFileSystem.h 51-57). -/
structure ExtFileSystem where
  mountPoint : Str := "/"
  devName : Option Str := none
  disk : Option ExtDisk := none
  disposed : Bool := false
  deriving DecidableEq, Repr

/-- `gcnew String(sss)` after `memcpy(sss, de->name, de->name_length)` and
`sss[de->name_length] = 0`: the characters up to the first NUL. -/
def entryName (de : ext4_direntry) : Str :=
  (de.name.take de.name_length).takeWhile (· != '\x00')

/-- The body of the loop of `GetDirectory` for one entry. -/
def readEntry (de : ext4_direntry) : Option ExtDirEntry :=
  if de.name_length > 0 then
    let name := entryName de
    if name ≠ "." ∧ name ≠ ".." then
      let isDir := de.inode_type == EntryType.DIR_value
      some ⟨name, de.entry_length, if isDir then .DIR else .REG_FILE⟩
    else none
  else none

/-- `ExtFileSystem::GetDirectory` (ExtFileSystem.cpp 338-389). -/
def GetDirectory {σ : Type} (E : Engine σ) (fs : ExtFileSystem) (path : Option Str)
    (w : World σ) : Res σ (List ExtDirEntry) :=
  let fullPath := CombinePaths (some fs.mountPoint) path
  let r := call E (.ext4_dir_open fullPath) w
  if r.1.status ≠ EOK then
    (.error (.mk .IOException "Failed to open directory"), r.2)
  else
    let result := r.1.entries.filterMap readEntry
    (.ok result, (call E .ext4_dir_close r.2).2)

/-- The result prefix of `DoSearch` (ExtFileSystem.cpp 404-413). -/
def resultPrefix (mountPoint path : Str) : Except Exn Str :=
  if mountPoint.length ≤ path.length then Substring path ((mountPoint.length : Int) - 1)
  else .ok "/"

/-- The path `DoSearch` emits for a matching entry (ExtFileSystem.cpp 427-430). -/
def emitted (resultPrefixPath name : Str) : Option Str :=
  if resultPrefixPath = "/" then some (resultPrefixPath ++ name)
  else CombinePaths (some resultPrefixPath) (some name)

/-- The `for each` loop of `DoSearch` (ExtFileSystem.cpp 415-447); `recurse` is the
recursive call of `DoSearch`, whose exceptions the loop swallows.  `none` only when the
recursion ran out of fuel. -/
def searchLoop {σ : Type}
    (recurse : List (Option Str) → Option Str → World σ →
      Option (Except Exn Unit × List (Option Str) × World σ))
    (regex : Regex) (subFolders dirs files : Bool) (path : Option Str)
    (resultPrefixPath : Str) :
    List ExtDirEntry → List (Option Str) → World σ → Option (List (Option Str) × World σ)
  | [], results, w => some (results, w)
  | de :: rest, results, w =>
    if EndsWith de.Name "." then
      searchLoop recurse regex subFolders dirs files path resultPrefixPath rest results w
    else
      let isDir := de.Typ == EntryType.DIR
      let results :=
        if ((isDir && dirs) || (!isDir && files)) && regex.IsMatch de.Name then
          results ++ [emitted resultPrefixPath de.Name]
        else results
      if subFolders && isDir then
        match recurse results (CombinePaths path (some de.Name)) w with
        | none => none
        | some (_, results, w) =>
          searchLoop recurse regex subFolders dirs files path resultPrefixPath rest results w
      else
        searchLoop recurse regex subFolders dirs files path resultPrefixPath rest results w

/-- `ExtFileSystem::DoSearch` (ExtFileSystem.cpp 391-453).  The recursion follows what
the engine answers, so it is bounded by `fuel`; `none` is "out of fuel".  The result list
is the mutable `results` of the source: it is returned also when an exception leaves. -/
def DoSearch {σ : Type} (E : Engine σ) (fs : ExtFileSystem) (regex : Regex)
    (subFolders dirs files : Bool) :
    Nat → List (Option Str) → Option Str → World σ →
      Option (Except Exn Unit × List (Option Str) × World σ)
  | 0, _, _, _ => none
  | fuel + 1, results, path, w =>
    if fs.disposed then
      some (.error (.mk .ObjectDisposedException "ExtFileSystem"), results, w)
    else
      match GetDirectory E fs path w with
      | (.error ex, w) =>
        some (.error (.wrap .IOException "Failed to search directory" ex), results, w)
      | (.ok parentDir, w) =>
        match path with
        | none =>
          some (.error (.wrap .IOException "Failed to search directory"
            (.mk .NullReferenceException "")), results, w)
        | some p =>
          match resultPrefix fs.mountPoint p with
          | .error ex =>
            some (.error (.wrap .IOException "Failed to search directory" ex), results, w)
          | .ok resultPrefixPath =>
            match searchLoop (DoSearch E fs regex subFolders dirs files fuel) regex subFolders
                dirs files path resultPrefixPath parentDir results w with
            | none => none
            | some (results, w) => some (.ok (), results, w)

/-- The common body of `GetDirectories` and `GetFiles` inside their `try`
(ExtFileSystem.cpp 615-625, 640-650). -/
def searchBody {σ : Type} (E : Engine σ) (fold : Char → Char) (fs : ExtFileSystem)
    (fuel : Nat) (path searchPattern : Option Str) (searchOption : SearchOption)
    (dirs files : Bool) (w : World σ) : Option (Res σ (List (Option Str))) :=
  match ConvertWildcardsToRegEx fold searchPattern with
  | .error ex => some (.error ex, w)
  | .ok regex =>
    match path with
    | none => some (.error (.mk .NullReferenceException ""), w)
    | some p =>
      let path : Str := if !StartsWith p "/" then "/" ++ p else p
      match DoSearch E fs regex (searchOption == .AllDirectories) dirs files fuel [] (some path)
          w with
      | none => none
      | some (.error ex, _, w) => some (.error ex, w)
      | some (.ok (), results, w) => some (.ok results, w)

/-- `ExtFileSystem::GetDirectories` (ExtFileSystem.cpp 608-631). -/
def GetDirectories {σ : Type} (E : Engine σ) (fold : Char → Char) (fs : ExtFileSystem)
    (fuel : Nat) (path searchPattern : Option Str) (searchOption : SearchOption)
    (w : World σ) : Option (Res σ (List (Option Str))) :=
  if fs.disposed then some (.error (.mk .ObjectDisposedException "ExtFileSystem"), w)
  else
    match searchBody E fold fs fuel path searchPattern searchOption true false w with
    | none => none
    | some (.error ex, w) => some (.error (.wrap .IOException "Failed to get directories" ex), w)
    | some (.ok results, w) => some (.ok results, w)

/-- `ExtFileSystem::GetFiles` (ExtFileSystem.cpp 633-656). -/
def GetFiles {σ : Type} (E : Engine σ) (fold : Char → Char) (fs : ExtFileSystem)
    (fuel : Nat) (path searchPattern : Option Str) (searchOption : SearchOption)
    (w : World σ) : Option (Res σ (List (Option Str))) :=
  if fs.disposed then some (.error (.mk .ObjectDisposedException "ExtFileSystem"), w)
  else
    match searchBody E fold fs fuel path searchPattern searchOption false true w with
    | none => none
    | some (.error ex, w) => some (.error (.wrap .IOException "Failed to get files" ex), w)
    | some (.ok results, w) => some (.ok results, w)

/-! ## Path-taking operations -/

/-- The exception an operation raises for a null or empty argument. -/
def argNull (msg : Str) : Exn := .mk .ArgumentNullException msg

/-- `IOException(before + path + after)`. -/
def ioError (before : Str) (path : Option Str) (after : Str) : Exn :=
  .mk .IOException (before ++ nstr path ++ after)

/-- The value of a `uint32_t` variable. -/
def u32 (n : Nat) : Nat := n % 2 ^ 32

/-- `ExtFileSystem::CreateSymLink` (ExtFileSystem.cpp 103-112). -/
def CreateSymLink {σ : Type} (E : Engine σ) (fs : ExtFileSystem) (target path : Option Str)
    (w : World σ) : Res σ Unit :=
  let newTarget := target
  let newPath := CombinePaths (some fs.mountPoint) path
  let r := call E (.ext4_fsymlink newTarget newPath) w
  if r.1.status ≠ EOK then
    (.error (ioError "Could not create symbolic link for '" path "'."), r.2)
  else (.ok (), r.2)

/-- `ExtFileSystem::CreateHardLink` (ExtFileSystem.cpp 119-128). -/
def CreateHardLink {σ : Type} (E : Engine σ) (fs : ExtFileSystem) (target path : Option Str)
    (w : World σ) : Res σ Unit :=
  let newTarget := CombinePaths (some fs.mountPoint) target
  let newPath := CombinePaths (some fs.mountPoint) path
  let r := call E (.ext4_flink newTarget newPath) w
  if r.1.status ≠ EOK then
    (.error (ioError "Could not create hard lik for '" path "'."), r.2)
  else (.ok (), r.2)

/-- `ExtFileSystem::GetMode` (ExtFileSystem.cpp 134-144). -/
def GetMode {σ : Type} (E : Engine σ) (fs : ExtFileSystem) (path : Option Str)
    (w : World σ) : Res σ Nat :=
  let internalPath := CombinePaths (some fs.mountPoint) path
  let r := call E (.ext4_mode_get internalPath) w
  if r.1.status ≠ EOK then (.error (ioError "Could not get mode '" path "'."), r.2)
  else (.ok (u32 r.1.val1), r.2)

/-- `ExtFileSystem::SetMode` (ExtFileSystem.cpp 150-158). -/
def SetMode {σ : Type} (E : Engine σ) (fs : ExtFileSystem) (path : Option Str) (mode : Nat)
    (w : World σ) : Res σ Unit :=
  let internalPath := CombinePaths (some fs.mountPoint) path
  let r := call E (.ext4_mode_set internalPath mode) w
  if r.1.status ≠ EOK then (.error (ioError "Could not change mode '" path "'."), r.2)
  else (.ok (), r.2)

/-- `ExtFileSystem::GetOwner` (ExtFileSystem.cpp 164-176). -/
def GetOwner {σ : Type} (E : Engine σ) (fs : ExtFileSystem) (path : Option Str)
    (w : World σ) : Res σ (Nat × Nat) :=
  let internalPath := CombinePaths (some fs.mountPoint) path
  let r := call E (.ext4_owner_get internalPath) w
  if r.1.status ≠ EOK then (.error (ioError "Could not get owner '" path "'."), r.2)
  else (.ok (u32 r.1.val1, u32 r.1.val2), r.2)

/-- `ExtFileSystem::SetOwner` (ExtFileSystem.cpp 182-190). -/
def SetOwner {σ : Type} (E : Engine σ) (fs : ExtFileSystem) (path : Option Str)
    (uid gid : Nat) (w : World σ) : Res σ Unit :=
  let internalPath := CombinePaths (some fs.mountPoint) path
  let r := call E (.ext4_owner_set internalPath uid gid) w
  if r.1.status ≠ EOK then (.error (ioError "Could not change mode '" path "'."), r.2)
  else (.ok (), r.2)

/-- `ExtFileSystem::FileExists` (ExtFileSystem.cpp 575-590). -/
def FileExists {σ : Type} (E : Engine σ) (fs : ExtFileSystem) (path : Option Str)
    (w : World σ) : Res σ Bool :=
  if IsNullOrEmpty path then (.error (argNull "path is null."), w)
  else
    let internalPath := CombinePaths (some fs.mountPoint) path
    let r := call E (.ext4_fopen internalPath "rb") w
    if r.1.status = EOK then (.ok true, (call E (.ext4_fclose r.1.file) r.2).2)
    else (.ok false, r.2)

/-- `ExtFileSystem::DirectoryExists` (ExtFileSystem.cpp 558-573). -/
def DirectoryExists {σ : Type} (E : Engine σ) (fs : ExtFileSystem) (path : Option Str)
    (w : World σ) : Res σ Bool :=
  if IsNullOrEmpty path then (.error (argNull "path is null."), w)
  else
    let internalPath := CombinePaths (some fs.mountPoint) path
    let r := call E (.ext4_dir_open internalPath) w
    if r.1.status = EOK then (.ok true, (call E .ext4_dir_close r.2).2)
    else (.ok false, r.2)

/-- `ExtFileSystem::Truncate` (ExtFileSystem.cpp 196-228).  The engine primitives are C
functions and raise nothing, so the inner `catch` is never entered; the status of
`ext4_ftruncate` is not read. -/
def Truncate {σ : Type} (E : Engine σ) (fs : ExtFileSystem) (path : Option Str) (size : Nat)
    (w : World σ) : Res σ Unit :=
  match FileExists E fs path w with
  | (.error ex, w) => (.error ex, w)
  | (.ok false, w) => (.error (.mk .FileNotFoundException
      ("Could not find file '" ++ nstr path ++ "'.")), w)
  | (.ok true, w) =>
    let newPath := CombinePaths (some fs.mountPoint) path
    let r := call E (.ext4_fopen newPath "") w
    if r.1.status = EOK then
      let w := (call E (.ext4_ftruncate r.1.file size) r.2).2
      let w := (call E (.ext4_fclose r.1.file) w).2
      (.ok (), w)
    else (.error (ioError "Could not open file '" path "'."), r.2)

/-- `ExtFileSystem::CreateDirectory` (ExtFileSystem.cpp 455-463). -/
def CreateDirectory {σ : Type} (E : Engine σ) (fs : ExtFileSystem) (path : Option Str)
    (w : World σ) : Res σ Unit :=
  let newPath := CombinePaths (some fs.mountPoint) path
  let r := call E (.ext4_dir_mk newPath) w
  if r.1.status ≠ EOK then (.error (ioError "Could not create directory '" path "'."), r.2)
  else (.ok (), r.2)

/-- `ExtFileSystem::DeleteDirectory` (ExtFileSystem.cpp 527-540). -/
def DeleteDirectory {σ : Type} (E : Engine σ) (fs : ExtFileSystem) (path : Option Str)
    (w : World σ) : Res σ Unit :=
  if IsNullOrEmpty path then (.error (argNull "path is null."), w)
  else
    let internalPath := CombinePaths (some fs.mountPoint) path
    let r := call E (.ext4_dir_rm internalPath) w
    if r.1.status ≠ EOK then (.error (ioError "Could not delete directory '" path "'."), r.2)
    else (.ok (), r.2)

/-- `ExtFileSystem::DeleteFile` (ExtFileSystem.cpp 543-556). -/
def DeleteFile {σ : Type} (E : Engine σ) (fs : ExtFileSystem) (path : Option Str)
    (w : World σ) : Res σ Unit :=
  if IsNullOrEmpty path then (.error (argNull "path is null."), w)
  else
    let internalPath := CombinePaths (some fs.mountPoint) path
    let r := call E (.ext4_fremove internalPath) w
    if r.1.status ≠ EOK then (.error (ioError "Could not delete file '" path "'."), r.2)
    else (.ok (), r.2)

/-- `ExtFileSystem::RenameFile` (ExtFileSystem.cpp 502-525). -/
def RenameFile {σ : Type} (E : Engine σ) (fs : ExtFileSystem)
    (sourceFileName destFileName : Option Str) (w : World σ) : Res σ Unit :=
  if IsNullOrEmpty sourceFileName || IsNullOrEmpty destFileName then
    (.error (argNull "sourceFileName or destFileName is null."), w)
  else
    match FileExists E fs sourceFileName w with
    | (.error ex, w) => (.error ex, w)
    | (.ok false, w) => (.error (.mk .FileNotFoundException
        ("Could not find file '" ++ nstr sourceFileName ++ "'.")), w)
    | (.ok true, w) =>
      match FileExists E fs destFileName w with
      | (.error ex, w) => (.error ex, w)
      | (.ok true, w) => (.error (ioError "'" destFileName " already exists."), w)
      | (.ok false, w) =>
        let newSourcePath := CombinePaths (some fs.mountPoint) sourceFileName
        let newDestPath := CombinePaths (some fs.mountPoint) destFileName
        let r := call E (.ext4_frename newSourcePath newDestPath) w
        if r.1.status ≠ EOK then
          (.error (ioError "Could not move file '" sourceFileName "'."), r.2)
        else (.ok (), r.2)

/-! ### Timestamps -/

/-- `TimeSpan::TicksPerSecond`: a tick is 100 ns. -/
def TicksPerSecond : Nat := 10000000

/-- `DateTimeUtils::UnixEpoch` (DateTimeUtils.h 9-15): the ticks of
1970-01-01T00:00:00 UTC, counted from 0001-01-01T00:00:00. -/
def UnixEpoch : Nat := 621355968000000000

/-- A `DateTime` as its tick count. -/
abbrev DateTime := Nat

/-- `epochTime.AddSeconds(seconds)` for an unsigned 32-bit `seconds`. -/
def AddSeconds (epochTime : DateTime) (seconds : Nat) : DateTime :=
  epochTime + seconds * TicksPerSecond

/-- The value of `static_cast<uint32_t>((newTime - epochTime).TotalSeconds)`.
`TotalSeconds` is a `double` and the conversion of a `double` outside the range of
`uint32_t` is unspecified, so the conversion of a tick difference is the parameter
`castSeconds` of the runtime; the result is a `uint32_t` whatever it does. -/
def secondsSince (castSeconds : Int → Nat) (newTime epochTime : DateTime) : Nat :=
  u32 (castSeconds ((newTime : Int) - (epochTime : Int)))

/-- `ExtFileSystem::GetCreationTime` (ExtFileSystem.cpp 689-704). -/
def GetCreationTime {σ : Type} (E : Engine σ) (fs : ExtFileSystem) (path : Option Str)
    (w : World σ) : Res σ DateTime :=
  if IsNullOrEmpty path then (.error (argNull "path is null."), w)
  else
    let internalPath := CombinePaths (some fs.mountPoint) path
    let r := call E (.ext4_ctime_get internalPath) w
    if r.1.status ≠ EOK then
      (.error (.mk .IOException "Could not get last access time."), r.2)
    else (.ok (AddSeconds UnixEpoch (u32 r.1.val1)), r.2)

/-- `ExtFileSystem::SetCreationTime` (ExtFileSystem.cpp 706-717). -/
def SetCreationTime {σ : Type} (E : Engine σ) (castSeconds : Int → Nat) (fs : ExtFileSystem)
    (path : Option Str) (newTime : DateTime) (w : World σ) : Res σ Unit :=
  if IsNullOrEmpty path then (.error (argNull "path is null."), w)
  else
    let internalPath := CombinePaths (some fs.mountPoint) path
    let seconds := secondsSince castSeconds newTime UnixEpoch
    let r := call E (.ext4_ctime_set internalPath seconds) w
    if r.1.status ≠ EOK then (.error (.mk .IOException "Could not set creation time."), r.2)
    else (.ok (), r.2)

/-- `ExtFileSystem::GetLastAccessTime` (ExtFileSystem.cpp 719-734). -/
def GetLastAccessTime {σ : Type} (E : Engine σ) (fs : ExtFileSystem) (path : Option Str)
    (w : World σ) : Res σ DateTime :=
  if IsNullOrEmpty path then (.error (argNull "path is null."), w)
  else
    let internalPath := CombinePaths (some fs.mountPoint) path
    let r := call E (.ext4_atime_get internalPath) w
    if r.1.status ≠ EOK then
      (.error (.mk .IOException "Could not get last access time."), r.2)
    else (.ok (AddSeconds UnixEpoch (u32 r.1.val1)), r.2)

/-- `ExtFileSystem::SetLastAccessTime` (ExtFileSystem.cpp 736-747). -/
def SetLastAccessTime {σ : Type} (E : Engine σ) (castSeconds : Int → Nat)
    (fs : ExtFileSystem) (path : Option Str) (newTime : DateTime) (w : World σ) :
    Res σ Unit :=
  if IsNullOrEmpty path then (.error (argNull "path is null."), w)
  else
    let internalPath := CombinePaths (some fs.mountPoint) path
    let seconds := secondsSince castSeconds newTime UnixEpoch
    let r := call E (.ext4_atime_set internalPath seconds) w
    if r.1.status ≠ EOK then
      (.error (.mk .IOException "Could not set last access time."), r.2)
    else (.ok (), r.2)

/-- `ExtFileSystem::GetLastWriteTime` (ExtFileSystem.cpp 749-764). -/
def GetLastWriteTime {σ : Type} (E : Engine σ) (fs : ExtFileSystem) (path : Option Str)
    (w : World σ) : Res σ DateTime :=
  if IsNullOrEmpty path then (.error (argNull "path is null."), w)
  else
    let internalPath := CombinePaths (some fs.mountPoint) path
    let r := call E (.ext4_mtime_get internalPath) w
    if r.1.status ≠ EOK then
      (.error (.mk .IOException "Could not get last access time."), r.2)
    else (.ok (AddSeconds UnixEpoch (u32 r.1.val1)), r.2)

/-- `ExtFileSystem::SetLastWriteTime` (ExtFileSystem.cpp 766-777). -/
def SetLastWriteTime {σ : Type} (E : Engine σ) (castSeconds : Int → Nat)
    (fs : ExtFileSystem) (path : Option Str) (newTime : DateTime) (w : World σ) :
    Res σ Unit :=
  if IsNullOrEmpty path then (.error (argNull "path is null."), w)
  else
    let internalPath := CombinePaths (some fs.mountPoint) path
    let seconds := secondsSince castSeconds newTime UnixEpoch
    let r := call E (.ext4_mtime_set internalPath seconds) w
    if r.1.status ≠ EOK then
      (.error (.mk .IOException "Could not set last write time."), r.2)
    else (.ok (), r.2)

/-! ### Copying a file -/

/-- `FileMode::CreateNew`. -/
def FileMode.CreateNew : Nat := 1

/-- `FileMode::Open`. -/
def FileMode.Open : Nat := 3

/-- `FileAccess::Read`. -/
def FileAccess.Read : Nat := 1

/-- `FileAccess::Write`. -/
def FileAccess.Write : Nat := 2

/-- Modelled from the spec: `ExtFileStream`, the stream collaborator of section 6, is not
among the sources.  `OpenFile` (ExtFileSystem.cpp 684-687) constructs one: a
path-addressable byte stream opened with a mode and an access flag; a non-success status
stands for the exception the constructor raises. -/
def OpenFile {σ : Type} (E : Engine σ) (path : Option Str) (mode access : Nat) (w : World σ) :
    Res σ Nat :=
  let r := call E (.stream_open path mode access) w
  if r.1.status ≠ EOK then (.error (ioError "Could not open file '" path "'."), r.2)
  else (.ok r.1.file, r.2)

/-- The copy loop of `CopyFile` (ExtFileSystem.cpp 492-496): a bounded read delivers at
most `bufferSize` bytes, and the loop ends at the first read that delivers none.  The
stream decides how long that takes, so the loop is bounded by `fuel`; `none` is "out of
fuel". -/
def copyLoop {σ : Type} (E : Engine σ) (sour dest bufferSize : Nat) :
    Nat → World σ → Option (World σ)
  | 0, _ => none
  | fuel + 1, w =>
    let r := call E (.stream_read sour bufferSize) w
    let buf := r.1.data.take bufferSize
    if buf.length > 0 then copyLoop E sour dest bufferSize fuel (call E (.stream_write dest buf) r.2).2
    else some r.2

/-- `ExtFileSystem::CopyFile` (ExtFileSystem.cpp 465-500). -/
def CopyFile {σ : Type} (E : Engine σ) (fs : ExtFileSystem) (fuel : Nat)
    (sourceFile destinationFile : Option Str) (overwrite : Bool) (w : World σ) :
    Option (Res σ Unit) :=
  if IsNullOrEmpty sourceFile || IsNullOrEmpty destinationFile then
    some (.error (argNull "sourceFileName or destFileName is null."), w)
  else
    match FileExists E fs sourceFile w with
    | (.error ex, w) => some (.error ex, w)
    | (.ok false, w) => some (.error (ioError "Could not open file '" sourceFile "'."), w)
    | (.ok true, w) =>
      let copy (w : World σ) : Option (Res σ Unit) :=
        let bufferSize := 64 * 1024
        match OpenFile E sourceFile FileMode.Open FileAccess.Read w with
        | (.error ex, w) => some (.error ex, w)
        | (.ok sour, w) =>
          match OpenFile E destinationFile FileMode.CreateNew FileAccess.Write w with
          | (.error ex, w) => some (.error ex, w)
          | (.ok dest, w) =>
            match copyLoop E sour dest bufferSize fuel w with
            | none => none
            | some w =>
              let w := (call E (.stream_close sour) w).2
              let w := (call E (.stream_close dest) w).2
              some (.ok (), w)
      match FileExists E fs destinationFile w with
      | (.error ex, w) => some (.error ex, w)
      | (.ok true, w) =>
        if !overwrite then some (.error (ioError "File exists '" destinationFile "'."), w)
        else
          match DeleteFile E fs destinationFile w with
          | (.error ex, w) => some (.error ex, w)
          | (.ok (), w) => copy w
      | (.ok false, w) => copy w

/-! ## Disks (`ExtDisk.cpp`) -/

/-- What the host and the engine answer to the disk controller:
`ext4_io_raw_dev_get` binds a path to a block device (null on failure),
`FileLength` is `FileInfo(path).Length` (`none` when it raises), and `ext4_mbr_scan`
returns its status, the block device as the scan leaves it, and the partition table
`bdevs->partitions`, in table order. -/
structure Host where
  ext4_io_raw_dev_get : Str → Option ext4_blockdev
  FileLength : Str → Option Nat
  ext4_mbr_scan : ext4_blockdev → Nat × ext4_blockdev × List ext4_blockdev

/-- The constructor `ExtDisk(String^ diskPath)` (ExtDisk.cpp 39-52). -/
def ExtDisk.create (H : Host) (diskPath : Str) : ExtDisk :=
  { bdevs := none, bd := H.ext4_io_raw_dev_get diskPath, capacity := 0, geometry := none,
    diskPath := some diskPath, _isRawMode := false, partitions := none }

/-- `ExtDisk::OpenRawExt4` (ExtDisk.cpp 201-237); `none` is `nullptr`. -/
def ExtDisk.OpenRawExt4 (H : Host) (path : Option Str) : Option ExtDisk :=
  if IsNullOrEmpty path then none
  else
    let disk := ExtDisk.create H (nstr path)
    let disk := { disk with _isRawMode := true }
    let disk := { disk with bd := H.ext4_io_raw_dev_get (nstr path) }
    if disk.bd.isNone then none
    else
      match H.FileLength (nstr path) with
      | none => none
      | some length => some { disk with partitions := some [⟨0, length⟩] }

/-- The MBR scan both `Open` overloads share (ExtDisk.cpp 73-96, 150-169): on a
non-success status and on a null block device an exception leaves. -/
def ExtDisk.scan (H : Host) (disk : ExtDisk) : Except Exn ExtDisk :=
  let disk := { disk with bdevs := some [] }
  match disk.bd with
  | none => .error (.mk .NullReferenceException "")
  | some bd =>
    match H.ext4_mbr_scan bd with
    | (r, bd, table) =>
      if r = EOK then
        .ok { disk with
          bd := some bd
          bdevs := some table
          capacity := bd.part_offset
          geometry := some ⟨bd.part_size, bd.ph_tcnt, bd.ph_scnt, bd.ph_bsize⟩
          partitions := some (table.map fun par => ⟨par.part_offset, par.part_size⟩) }
      else .error (.mk .IOException "Could not read disk MBR.")

/-- `ExtDisk::Open(String^ imagePath)` (ExtDisk.cpp 59-102); `none` is `nullptr`. -/
def ExtDisk.Open (H : Host) (imagePath : Option Str) : Option ExtDisk :=
  if IsNullOrEmpty imagePath then none
  else
    match ExtDisk.OpenRawExt4 H imagePath with
    | some disk => some disk
    | none =>
      match ExtDisk.scan H (ExtDisk.create H (nstr imagePath)) with
      | .ok disk => some disk
      | .error _ => none

/-- `String::Format("PhysicalDrive{0}", DiskNumber)`. -/
def physicalDrive (DiskNumber : Int) : Str := "PhysicalDrive" ++ (toString DiskNumber).toList

/-- `ExtDisk::Open(int DiskNumber)` (ExtDisk.cpp 147-170). -/
def ExtDisk.OpenNumber (H : Host) (DiskNumber : Int) : Except Exn ExtDisk :=
  ExtDisk.scan H (ExtDisk.create H (physicalDrive DiskNumber))

/-! ## Specification-side definitions -/

/-- The wildcard relation as the specification words it: the whole `name` is the pattern
after each `*` and each `.` is replaced by an arbitrary, possibly empty, run of characters,
the other characters being compared through the lower-casing `fold`. -/
def WildMatch (fold : Char → Char) : Str → Str → Prop
  | [], n => n = []
  | c :: p, n =>
    if c = '*' ∨ c = '.' then ∃ run rest, n = run ++ rest ∧ WildMatch fold p rest
    else ∃ x rest, n = x :: rest ∧ fold x = fold c ∧ WildMatch fold p rest

/-- The item a pattern character turns into. -/
def wildItem (c : Char) : RegexItem := if c = '*' ∨ c = '.' then .any true else .lit c false

/-- The pattern body a wildcard pattern turns into. -/
def wildBody : Str → Str
  | [] => []
  | c :: p => (if c = '*' ∨ c = '.' then ['.', '*'] else [c]) ++ wildBody p

/-! ## The search scenario -/

/-- The entry the engine reports for `name` with the entry type `type`. -/
def rawEntry (name : Str) (type : Nat) : ext4_direntry :=
  { name_length := name.length, name := name, inode_type := type, entry_length := 12 + name.length }

/-- The engine's status "no such file or directory". -/
def ENOENT : Nat := 2

/-- The engine of the search scenario, for the session mounted at `/<devName>/`: the
directory `data` of the volume holds the files `a.txt` and `b.log` and the subdirectory
`sub`, which holds the file `c.txt`.  A directory listing starts with `.` and `..`. -/
def searchScenario (devName : Str) : Engine Unit
  | _, .ext4_dir_open (some p) =>
    if p = "/" ++ devName ++ "/data" then
      ({ entries := [rawEntry "." 2, rawEntry ".." 2, rawEntry "a.txt" 1, rawEntry "b.log" 1,
          rawEntry "sub" 2] }, ())
    else if p = "/" ++ devName ++ "/data/sub" then
      ({ entries := [rawEntry "." 2, rawEntry ".." 2, rawEntry "c.txt" 1] }, ())
    else ({ status := ENOENT }, ())
  | _, _ => ({}, ())

/-- The session `ExtFileSystem::Open` builds around the device name `devName`
(ExtFileSystem.cpp 247-254), as far as the operations on paths read it: the mount point is
`/<devName>/`; the reference to the disk is left out. -/
def sessionOf (devName : Str) : ExtFileSystem :=
  { mountPoint := "/" ++ devName ++ "/", devName := some devName, disposed := false }

/-- The matcher of `*.txt`. -/
def txtRegex : Regex :=
  ⟨Char.toLower, [.any true, .any true, .lit 't' false, .lit 'x' false, .lit 't' false]⟩

/-- The result prefix `DoSearch` computes in the session mounted at `/<devName>/` for the
traversal path `p`. -/
def scenarioPrefix (devName p : Str) : Str :=
  if devName.length + 2 ≤ p.length then p.drop (devName.length + 1) else "/"

/-! ## A reference engine for the creation time -/

/-- An engine that keeps the creation time of the paths it knows: `ext4_ctime_set`
stores the value for a known path, `ext4_ctime_get` returns the stored value, and both
answer `ENOENT` for an unknown path.  The state lists the known paths with their creation
times, the latest first. -/
def ctimeEngine : Engine (List (Option Str × Nat))
  | s, .ext4_ctime_set p v =>
    if (s.lookup p).isSome then ({}, (p, v) :: s) else ({ status := ENOENT }, s)
  | s, .ext4_ctime_get p =>
    match s.lookup p with
    | some v => ({ val1 := v }, s)
    | none => ({ status := ENOENT }, s)
  | s, _ => ({}, s)

/-- The conversion of a tick difference to whole seconds without rounding error. -/
def exactSeconds (d : Int) : Nat := (d / 10000000).toNat

/-! ## A disk image with a partition table -/

/-- The block device of a 1 GiB image with 512-byte sectors, as the raw backend binds it:
the whole device, starting at offset 0. -/
def imageDevice : ext4_blockdev :=
  { part_offset := 0, part_size := 1073741824, ph_tcnt := 0, ph_scnt := 2097152, ph_bsize := 512 }

/-- The partition table of the image: two partitions, two unused entries. -/
def imageTable : List ext4_blockdev :=
  [{ imageDevice with part_offset := 1048576, part_size := 536870912 },
   { imageDevice with part_offset := 537919488, part_size := 535822336 },
   { imageDevice with part_offset := 0, part_size := 0 },
   { imageDevice with part_offset := 0, part_size := 0 }]

/-- A host on which every path is a readable 1 GiB image that starts with a valid MBR:
the raw backend binds the path, `FileInfo` reports the length, and the MBR scan succeeds
with the table above, leaving the block device as it was bound. -/
def mbrImageHost : Host :=
  { ext4_io_raw_dev_get := fun _ => some imageDevice
    FileLength := fun _ => some 1073741824
    ext4_mbr_scan := fun bd => (EOK, bd, imageTable) }

/-- A host with the same disk behind a device path, which `FileInfo` cannot measure. -/
def mbrDeviceHost : Host :=
  { mbrImageHost with FileLength := fun _ => none }

/-- The sizes of the partitions of a disk, summed. -/
def ExtDisk.totalSize (disk : ExtDisk) : Nat :=
  ((disk.partitions.getD []).map (·.Size)).sum

/-- The disk `OpenRawExt4` returns for the path `path` bound to the block device `bd`,
when the file is `length` bytes long. -/
def ExtDisk.raw (path : Str) (bd : ext4_blockdev) (length : Nat) : ExtDisk :=
  { bdevs := none, bd := some bd, capacity := 0, geometry := none, diskPath := some path,
    _isRawMode := true, partitions := some [⟨0, length⟩] }

/-! ## Reference engines for the path-taking operations -/

/-- The engine's status "input/output error". -/
def EIO : Nat := 5

/-- An engine on which files open and close, and on which truncation and the reading and
writing of timestamps fail with `EIO`. -/
def failingEngine : Engine Unit
  | _, .ext4_ftruncate _ _ => ({ status := EIO }, ())
  | _, .ext4_ctime_get _ => ({ status := EIO }, ())
  | _, .ext4_ctime_set _ _ => ({ status := EIO }, ())
  | _, .ext4_atime_get _ => ({ status := EIO }, ())
  | _, .ext4_atime_set _ _ => ({ status := EIO }, ())
  | _, .ext4_mtime_get _ => ({ status := EIO }, ())
  | _, .ext4_mtime_set _ _ => ({ status := EIO }, ())
  | _, .ext4_fopen _ _ => ({ file := 1 }, ())
  | _, _ => ({}, ())

/-- An engine over a volume of files with their contents: a file opens when it is
there, opening and closing change nothing, and `ext4_fremove` deletes. -/
def fileEngine : Engine (List (Option Str × List Nat))
  | s, .ext4_fopen p _ =>
    if (s.lookup p).isSome then ({ file := 1 }, s) else ({ status := ENOENT }, s)
  | s, .ext4_fremove p =>
    if (s.lookup p).isSome then ({}, s.filter (fun e => e.1 != p)) else ({ status := ENOENT }, s)
  | s, _ => ({}, s)

/-! ## The lifecycle of a session -/

/-- The format `%x` of `sprintf_s`: lower-case hexadecimal digits. -/
def hex (n : Nat) : Str := Nat.toDigits 16 n

/-- `ExtDisk::~ExtDisk` (ExtDisk.cpp 123-140), which `delete disk` runs; `_rawStream` is
never assigned and stays null. -/
def ExtDisk.destroy {σ : Type} (E : Engine σ) (disk : ExtDisk) (w : World σ) :
    ExtDisk × World σ :=
  match disk.bd with
  | some _ => ({ disk with bd := none, bdevs := none }, (call E .ext4_block_fini w).2)
  | none => ({ disk with bdevs := none }, w)

/-- The finalizer `!ExtFileSystem` (ExtFileSystem.h 61-73). -/
def ExtFileSystem.finalizer (fs : ExtFileSystem) : ExtFileSystem :=
  if !fs.disposed then { fs with devName := none, disposed := true } else fs

/-- `ExtFileSystem::CleanUp` (ExtFileSystem.h 83-100). -/
def ExtFileSystem.CleanUp {σ : Type} (E : Engine σ) (fs : ExtFileSystem) (disposing : Bool)
    (w : World σ) : ExtFileSystem × World σ :=
  if !fs.disposed then
    let r : ExtFileSystem × World σ :=
      if disposing then
        match fs.disk with
        | some disk => ({ fs with disk := none }, (ExtDisk.destroy E disk w).2)
        | none => (fs, w)
      else (fs, w)
    ({ r.1.finalizer with disposed := true }, r.2)
  else (fs, w)

/-- `ExtFileSystem::Close` (ExtFileSystem.h 103-107); `GC::SuppressFinalize` only keeps the
collector from running the finalizer later. -/
def ExtFileSystem.Close {σ : Type} (E : Engine σ) (fs : ExtFileSystem) (w : World σ) :
    ExtFileSystem × World σ :=
  ExtFileSystem.CleanUp E fs true w

/-- The destructor `ExtFileSystem::~ExtFileSystem` (ExtFileSystem.cpp 290-298), which is
what disposal (`IDisposable::Dispose`, `delete`) runs.  It changes no field of the
session. -/
def ExtFileSystem.Dispose {σ : Type} (E : Engine σ) (fs : ExtFileSystem) (w : World σ) :
    Res σ Unit :=
  let w := (call E (.ext4_umount (some fs.mountPoint)) w).2
  let w := (call E (.ext4_device_unregister fs.devName) w).2
  match fs.disk with
  | none => (.error (.mk .NullReferenceException ""), w)
  | some _ => (.ok (), (call E .ext4_block_fini w).2)

/-- `ExtFileSystem::Open` (ExtFileSystem.cpp 234-277); `rand` is what `rand()` returns,
`.ok none` is the `nullptr` returned for a null argument.  The constructor
(ExtFileSystem.cpp 303-309) makes the call `ext4_block_init`. -/
def ExtFileSystem.Open {σ : Type} (E : Engine σ) (rand : Nat) (disk : Option ExtDisk)
    (partition : Option Partition) (w : World σ) : Res σ (Option ExtFileSystem) :=
  match disk, partition with
  | some disk, some partition =>
    let w := (call E .ext4_block_init w).2
    match disk.bd with
    | none =>
      (.error (.wrap .IOException "Could not open filesystem." (.mk .NullReferenceException "")),
        w)
    | some bd =>
      let disk := { disk with
        bd := some { bd with part_offset := partition.Offset, part_size := partition.Size } }
      let devName := hex rand
      let fs : ExtFileSystem :=
        { mountPoint := "/" ++ devName ++ "/", devName := some devName, disk := some disk,
          disposed := false }
      let r := call E (.ext4_device_register devName) w
      if r.1.status = EOK then
        let r := call E (.ext4_mount devName (some fs.mountPoint) false) r.2
        if r.1.status = EOK then (.ok (some fs), r.2)
        else
          (.error (.wrap .IOException "Could not open filesystem."
            (.mk .IOException "Could not mount partition.")),
            (call E (.ext4_device_unregister fs.devName) r.2).2)
      else
        (.error (.wrap .IOException "Could not open filesystem."
          (.mk .IOException "Could not mount partition.")), r.2)
  | _, _ => (.ok none, w)

/-- The engine's status "file exists". -/
def EEXIST : Nat := 17

/-- An engine that keeps the registry of device names: `ext4_device_register` fails with
`EEXIST` for a registered name and registers any other, `ext4_device_unregister` removes
the name, and `ext4_mount` answers the status `mountStatus`.  The state lists the
registered names. -/
def registryEngine (mountStatus : Nat) : Engine (List Str)
  | s, .ext4_device_register n => if n ∈ s then ({ status := EEXIST }, s) else ({}, n :: s)
  | s, .ext4_device_unregister (some n) => ({}, s.filter (· != n))
  | s, .ext4_mount _ _ _ => ({ status := mountStatus }, s)
  | s, _ => ({}, s)

/-- The 1 GiB disk `Open(0)` returns on the host with the partitioned disk. -/
def scannedDisk : ExtDisk :=
  { bdevs := some imageTable, bd := some imageDevice, capacity := 0,
    geometry := some ⟨1073741824, 0, 2097152, 512⟩, diskPath := some "PhysicalDrive0",
    _isRawMode := false,
    partitions := some [⟨1048576, 536870912⟩, ⟨537919488, 535822336⟩, ⟨0, 0⟩, ⟨0, 0⟩] }

/-- The session `Open` returns for `scannedDisk`, its first partition and
`rand() = 0x1a2b`. -/
def openedSession : ExtFileSystem :=
  { mountPoint := "/1a2b/", devName := some "1a2b",
    disk := some { scannedDisk with
      bd := some { imageDevice with part_offset := 1048576, part_size := 536870912 } },
    disposed := false }

/-! ## The scratch buffer of `GetDirectory` -/

/-- The size of the scratch buffer `char sss[255]` of `GetDirectory`
(ExtFileSystem.cpp 341): its valid indices are 0 to 254. -/
def sssSize : Nat := 255

/-- The indices of `sss` that `GetDirectory` writes for one entry
(ExtFileSystem.cpp 361-364): `memcpy` fills the indices below `name_length`, and the
terminator goes to the index `name_length`. -/
def sssWrites (de : ext4_direntry) : List Nat :=
  if de.name_length > 0 then List.range de.name_length ++ [de.name_length] else []

/-! ## The result paths of a search, as amended -/

/-- Whether the search emits a result for an entry of the directory it lists: the entry
does not end in `.`, it is of the requested class, and its name matches. -/
def selected (regex : Regex) (dirs files : Bool) (de : ExtDirEntry) : Bool :=
  !EndsWith de.Name "." &&
    ((((de.Typ == EntryType.DIR) && dirs) || (!(de.Typ == EntryType.DIR) && files)) &&
      regex.IsMatch de.Name)

/-- The rule of the result paths in words: when the mount point is at most as long as the
traversal path, the traversal path loses its first `mountPoint.Length - 1` characters and
is joined with the entry name (a remainder that is exactly `/` is followed by the name at
once); when the mount point is longer, the result is `/` followed by the entry name. -/
def emittedRule (mountPoint path name : Str) : Option Str :=
  if mountPoint.length ≤ path.length then
    if path.drop (mountPoint.length - 1) = "/" then some ("/" ++ name)
    else CombinePaths (some (path.drop (mountPoint.length - 1))) (some name)
  else some ("/" ++ name)

/-! ## Directory listings with unlistable subdirectories -/

/-- The engine over a table of directory listings: `ext4_dir_open` succeeds on the paths
the table lists, with the entries of the table, and fails with `EIO` on the others. -/
def listingEngine (L : Option Str → Option (List ext4_direntry)) : Engine Unit
  | _, .ext4_dir_open p =>
    match L p with
    | some entries => ({ entries := entries }, ())
    | none => ({ status := EIO }, ())
  | _, _ => ({}, ())

/-- The listings `L` in which the directories of `blocked` cannot be listed. -/
def blockedListing (L : Option Str → Option (List ext4_direntry)) (blocked : Option Str → Bool) :
    Option Str → Option (List ext4_direntry) :=
  fun p => if blocked p then none else L p

/-- The listings `L` in which the directories of `blocked` are empty. -/
def emptiedListing (L : Option Str → Option (List ext4_direntry)) (blocked : Option Str → Bool) :
    Option Str → Option (List ext4_direntry) :=
  fun p => if blocked p then some [] else L p

/-- The search root `GetFiles` and `GetDirectories` start from: the path made to start
with `/` (ExtFileSystem.cpp 619-620, 644-645). -/
def searchRoot (path : Str) : Str := if !StartsWith path "/" then "/" ++ path else path

/-- The listings of the scenario volume mounted at `/1a2b/`. -/
def scenarioListing : Option Str → Option (List ext4_direntry) := fun p =>
  if p = some ("/1a2b/data" : Str) then
    some [rawEntry "." 2, rawEntry ".." 2, rawEntry "a.txt" 1, rawEntry "sub" 2,
      rawEntry "z.txt" 1]
  else if p = some ("/1a2b/data/sub" : Str) then
    some [rawEntry "." 2, rawEntry ".." 2, rawEntry "c.txt" 1]
  else none

/-- The set of unlistable directories of the scenario: `sub`. -/
def scenarioBlocked : Option Str → Bool := fun p => decide (p = some ("/1a2b/data/sub" : Str))

/-- The height of a traversal path in the scenario volume: 1 for the directory `data`,
0 elsewhere. -/
def scenarioRank : Option Str → Nat := fun p =>
  if CombinePaths (some ("/1a2b/" : Str)) p = some ("/1a2b/data" : Str) then 1 else 0

/-! # Theorems -/

/-! ## Strings and paths -/

theorem TrimStart_decomp (c : Char) (s : Str) :
    ∃ j, s = List.replicate j c ++ TrimStart c s ∧ (TrimStart c s).head? ≠ some c := by
  induction s with
  | nil => exact ⟨0, by simp [TrimStart]⟩
  | cons x s ih =>
    obtain ⟨j, h1, h2⟩ := ih
    by_cases hx : x = c
    · subst hx
      refine ⟨j + 1, ?_, ?_⟩
      · simp only [TrimStart, List.dropWhile_cons, beq_self_eq_true, if_true, List.replicate_succ,
          List.cons_append, List.cons.injEq, true_and]
        exact h1
      · simpa [TrimStart] using h2
    · refine ⟨0, ?_, ?_⟩
      · simp [TrimStart, hx]
      · simp [TrimStart, hx]

theorem TrimEnd_decomp (c : Char) (s : Str) :
    ∃ i, s = TrimEnd c s ++ List.replicate i c ∧ (TrimEnd c s).getLast? ≠ some c := by
  obtain ⟨i, h1, h2⟩ := TrimStart_decomp c s.reverse
  refine ⟨i, ?_, ?_⟩
  · have := congrArg List.reverse h1
    simpa [TrimEnd, TrimStart, List.rdropWhile] using this
  · simpa [TrimEnd, TrimStart, List.rdropWhile, List.getLast?_reverse] using h2

theorem CombinePaths_some_some (a b : Str) (ha : a ≠ []) (hb : b ≠ []) :
    CombinePaths (some a) (some b) = some (TrimEnd '/' a ++ '/' :: TrimStart '/' b) := by
  cases a with
  | nil => exact absurd rfl ha
  | cons x a =>
    cases b with
    | nil => exact absurd rfl hb
    | cons y b => simp [CombinePaths, IsNullOrEmpty, nstr]

/-- C2: `CombinePaths(a, b)` returns `b` when `a` is empty and `a` when `b` is empty;
otherwise it is `a` without its trailing separators (`a = a0 ++ "/"^i`, `a0` not ending in
`/`), one `/`, and `b` without its leading separators (`b = "/"^j ++ b0`, `b0` not starting
with `/`).  In particular `CombinePaths("/a/", "/b") = "/a/b"`, `CombinePaths("", "b") = "b"`
and `CombinePaths("a", "") = "a"`. -/
theorem CombinePaths_spec (a b : Str) :
    (a = [] → CombinePaths (some a) (some b) = some b) ∧
    (b = [] → CombinePaths (some a) (some b) = some a) ∧
    (a ≠ [] → b ≠ [] → ∃ (a0 b0 : Str) (i j : Nat),
      a = a0 ++ List.replicate i '/' ∧ a0.getLast? ≠ some '/' ∧
      b = List.replicate j '/' ++ b0 ∧ b0.head? ≠ some '/' ∧
      CombinePaths (some a) (some b) = some (a0 ++ '/' :: b0)) ∧
    CombinePaths (some "/a/") (some "/b") = some ("/a/b" : Str) ∧
    CombinePaths (some "") (some "b") = some ("b" : Str) ∧
    CombinePaths (some "a") (some "") = some ("a" : Str) := by
  refine ⟨?_, ?_, ?_, by decide, by decide, by decide⟩
  · rintro rfl
    simp [CombinePaths, IsNullOrEmpty]
  · rintro rfl
    cases a <;> simp [CombinePaths, IsNullOrEmpty]
  · intro ha hb
    obtain ⟨i, hi1, hi2⟩ := TrimEnd_decomp '/' a
    obtain ⟨j, hj1, hj2⟩ := TrimStart_decomp '/' b
    exact ⟨TrimEnd '/' a, TrimStart '/' b, i, j, hi1, hi2, hj1, hj2,
      CombinePaths_some_some a b ha hb⟩

/-! ## The pattern matcher -/

theorem Replace2_cons_ne (a b : Char) (new : Str) (x : Char) (s : Str) (h : x ≠ a) :
    Replace2 a b new (x :: s) = x :: Replace2 a b new s := by
  cases s with
  | nil => simp [Replace2]
  | cons y s => simp [Replace2, h]

theorem Replace2_cons_cons_ne (a b : Char) (new : Str) (x y : Char) (s : Str) (h : y ≠ b) :
    Replace2 a b new (x :: y :: s) = x :: Replace2 a b new (y :: s) := by
  simp [Replace2, h]

theorem Replace2_hit (a b : Char) (new : Str) (s : Str) :
    Replace2 a b new (a :: b :: s) = new ++ Replace2 a b new s := by
  simp [Replace2]

theorem isMetachar_false_ne (c : Char) (h : isMetachar c = false) :
    c ≠ '\\' ∧ c ≠ '*' ∧ c ≠ '.' ∧ c ≠ '\n' ∧ c ≠ '\r' ∧ c ≠ '\t' ∧ c ≠ '\x0c' ∧ c ≠ '$' := by
  simp [isMetachar] at h
  tauto

theorem wild_replace (p : Str) (hp : ∀ c ∈ p, c = '*' ∨ c = '.' ∨ isMetachar c = false) :
    Replace2 '\\' '.' ".*" (Replace2 '\\' '*' ".*" (RegexEscape p)) = wildBody p := by
  induction p with
  | nil => rfl
  | cons c p ih =>
    have ih := ih (fun d hd => hp d (List.mem_cons_of_mem _ hd))
    rcases hp c (List.mem_cons_self _ _) with rfl | rfl | hc
    · show Replace2 '\\' '.' _ (Replace2 '\\' '*' _ ('\\' :: '*' :: RegexEscape p)) = _
      rw [Replace2_hit]
      show Replace2 '\\' '.' _ ('.' :: '*' :: Replace2 '\\' '*' _ (RegexEscape p)) = _
      rw [Replace2_cons_ne _ _ _ _ _ (by decide), Replace2_cons_ne _ _ _ _ _ (by decide), ih]
      rfl
    · show Replace2 '\\' '.' _ (Replace2 '\\' '*' _ ('\\' :: '.' :: RegexEscape p)) = _
      rw [Replace2_cons_cons_ne '\\' '*' _ _ _ _ (by decide),
        Replace2_cons_ne '\\' '*' _ '.' _ (by decide), Replace2_hit, ih]
      rfl
    · obtain ⟨h1, h2, h3, h4, h5, h6, h7, -⟩ := isMetachar_false_ne c hc
      have e : RegexEscape (c :: p) = c :: RegexEscape p := by
        simp [RegexEscape, h4, h5, h6, h7, hc]
      rw [e, Replace2_cons_ne _ _ _ _ _ h1, Replace2_cons_ne _ _ _ _ _ h1, ih]
      simp [wildBody, h2, h3]


theorem wildBody_head (p : Str) (hp : ∀ c ∈ p, c = '*' ∨ c = '.' ∨ isMetachar c = false) :
    (wildBody p).head? ≠ some '*' := by
  cases p with
  | nil => simp [wildBody]
  | cons c p =>
    rcases hp c (List.mem_cons_self _ _) with rfl | rfl | hc
    · simp [wildBody]
    · simp [wildBody]
    · obtain ⟨h1, h2, h3, -⟩ := isMetachar_false_ne c hc
      simp [wildBody, h2, h3]

theorem parseItems_any_star (s : Str) (h : s.head? ≠ some '*') :
    parseItems ('.' :: '*' :: s) = (parseItems s).map (RegexItem.any true :: ·) := by
  rw [parseItems]
  simp [h]

theorem parseItems_lit (c : Char) (s : Str) (hc : isMetachar c = false)
    (h : s.head? ≠ some '*') :
    parseItems (c :: s) = (parseItems s).map (RegexItem.lit c false :: ·) := by
  obtain ⟨h1, h2, h3, -⟩ := isMetachar_false_ne c hc
  cases s with
  | nil => 
    rw [parseItems]
    · simp [hc, parseItems]
  | cons y s =>
    have hy : y ≠ '*' := by simpa using h
    rw [parseItems]
    · simp [hc]
    all_goals simp_all

theorem parseItems_wildBody (p : Str) (hp : ∀ c ∈ p, c = '*' ∨ c = '.' ∨ isMetachar c = false) :
    parseItems (wildBody p) = some (p.map wildItem) := by
  induction p with
  | nil => simp [wildBody, parseItems]
  | cons c p ih =>
    have hp2 : ∀ d ∈ p, d = '*' ∨ d = '.' ∨ isMetachar d = false :=
      fun d hd => hp d (List.mem_cons_of_mem _ hd)
    have ih := ih hp2
    have hh := wildBody_head p hp2
    rcases hp c (List.mem_cons_self _ _) with rfl | rfl | hc
    · show parseItems ('.' :: '*' :: wildBody p) = _
      rw [parseItems_any_star _ hh, ih]; simp [wildItem]
    · show parseItems ('.' :: '*' :: wildBody p) = _
      rw [parseItems_any_star _ hh, ih]; simp [wildItem]
    · obtain ⟨h1, h2, h3, -⟩ := isMetachar_false_ne c hc
      have e : wildBody (c :: p) = c :: wildBody p := by simp [wildBody, h2, h3]
      rw [e, parseItems_lit c _ hc hh, ih]; simp [wildItem, h2, h3]


theorem Regex_create_anchored (fold : Char → Char) (body : Str) (items : List RegexItem)
    (h : parseItems body = some items) :
    Regex.create fold ("^" ++ body ++ "$") = .ok ⟨fold, items⟩ := by
  have e : (("^" : Str) ++ body ++ ("$" : Str)) = '^' :: (body ++ ['$']) := by
    simp [String.toList]
  rw [e]
  simp [Regex.create, List.getLast?_append, h]

theorem matchStar_iff (ok : Char → Bool) (k : Str → Bool) (s : Str) :
    matchStar ok k s = true ↔
      ∃ run rest, s = run ++ rest ∧ (∀ x ∈ run, ok x = true) ∧ k rest = true := by
  induction s with
  | nil =>
    simp only [matchStar]
    constructor
    · intro h; exact ⟨[], [], rfl, by simp, h⟩
    · rintro ⟨run, rest, h, -, hk⟩
      have : rest = [] := by
        have := congrArg List.length h; simp at this; exact List.length_eq_zero.mp (by omega)
      simpa [this] using hk
  | cons x s ih =>
    simp only [matchStar, Bool.or_eq_true, Bool.and_eq_true, ih]
    constructor
    · rintro (h | ⟨hx, run, rest, rfl, hr, hk⟩)
      · exact ⟨[], _, rfl, by simp, h⟩
      · exact ⟨x :: run, rest, rfl, by simpa [hx] using hr, hk⟩
    · rintro ⟨run, rest, h, hr, hk⟩
      cases run with
      | nil =>
        left
        have e : rest = x :: s := by simpa using h.symm
        rw [← e]; exact hk
      | cons y run =>
        simp only [List.cons_append, List.cons.injEq] at h
        obtain ⟨rfl, rfl⟩ := h
        right
        exact ⟨hr x (List.mem_cons_self _ _), run, rest, rfl,
          fun z hz => hr z (List.mem_cons_of_mem _ hz), hk⟩

theorem matchItems_lit_cons (fold : Char → Char) (c x : Char) (its : List RegexItem) (t : Str) :
    matchItems fold (.lit c false :: its) (x :: t) = true ↔
      fold x = fold c ∧ matchItems fold its t = true := by
  by_cases h : fold x = fold c <;> simp [matchItems, RegexItem.starred, RegexItem.accepts, h]

theorem matchItems_wild (fold : Char → Char) (p : Str) :
    ∀ name : Str, '\n' ∉ name →
      (matchItems fold (p.map wildItem) name = true ↔ WildMatch fold p name) := by
  induction p with
  | nil =>
    intro name hn
    cases name with
    | nil => simp [matchItems, WildMatch]
    | cons x t =>
      have hx : x ≠ '\n' := fun h => hn (h ▸ List.mem_cons_self _ _)
      simp [matchItems, WildMatch, hx]
  | cons c p ih =>
    intro name hn
    by_cases hc : c = '*' ∨ c = '.'
    · simp only [List.map_cons, wildItem, hc, if_true, matchItems, RegexItem.starred, WildMatch,
        matchStar_iff]
      constructor
      · rintro ⟨run, rest, rfl, -, hk⟩
        exact ⟨run, rest, rfl, (ih rest (fun h => hn (List.mem_append_right _ h))).mp hk⟩
      · rintro ⟨run, rest, rfl, hk⟩
        refine ⟨run, rest, rfl, ?_, (ih rest (fun h => hn (List.mem_append_right _ h))).mpr hk⟩
        intro x hx
        have : x ≠ '\n' := fun h => hn (h ▸ List.mem_append_left _ hx)
        simp [RegexItem.accepts, this]
    · have e : wildItem c = .lit c false := by simp [wildItem, hc]
      cases name with
      | nil => simp [e, matchItems, RegexItem.starred, WildMatch, hc]
      | cons x t =>
        have ht : '\n' ∉ t := fun h => hn (List.mem_cons_of_mem _ h)
        have := ih t ht
        simp only [List.map_cons, e, matchItems_lit_cons, WildMatch, hc, if_false, this,
          List.cons.injEq]
        constructor
        · rintro ⟨h1, h2⟩; exact ⟨x, t, ⟨rfl, rfl⟩, h1, h2⟩
        · rintro ⟨y, r, ⟨rfl, rfl⟩, h1, h2⟩; exact ⟨h1, h2⟩


theorem Contains_dot (s : Str) : Contains s "." = decide ('.' ∈ s) := by
  have h : ['.'] <:+: s ↔ '.' ∈ s := by
    constructor
    · rintro ⟨a, b, rfl⟩; simp
    · intro h
      obtain ⟨a, b, rfl⟩ := List.append_of_mem h
      exact ⟨a, b, by simp⟩
  show decide (['.'] <:+: s) = _
  simp only [h]

theorem ConvertWildcardsToRegEx_WildMatch (fold : Char → Char) (pattern name : Str)
    (hp : ∀ c ∈ pattern, c = '*' ∨ c = '.' ∨ isMetachar c = false) (hn : '\n' ∉ name) :
    ∃ r, ConvertWildcardsToRegEx fold (some pattern) = .ok r ∧
      (r.IsMatch name = true ↔
        WildMatch fold (if '.' ∈ pattern then pattern else pattern ++ ['.']) name) := by
  have key : ∀ q : Str, (∀ c ∈ q, c = '*' ∨ c = '.' ∨ isMetachar c = false) →
      Regex.create fold ("^" ++ Replace2 '\\' '.' ".*" (Replace2 '\\' '*' ".*" (RegexEscape q))
        ++ "$") = .ok ⟨fold, q.map wildItem⟩ := by
    intro q hq
    rw [wild_replace q hq]
    exact Regex_create_anchored fold _ _ (parseItems_wildBody q hq)
  by_cases hd : '.' ∈ pattern
  · refine ⟨⟨fold, pattern.map wildItem⟩, ?_, ?_⟩
    · simp only [ConvertWildcardsToRegEx, Contains_dot, hd, decide_True, Bool.not_true,
        Bool.false_eq_true, if_false]
      exact key pattern hp
    · simp only [hd, if_true]
      exact matchItems_wild fold pattern name hn
  · have hq : ∀ c ∈ pattern ++ ['.'], c = '*' ∨ c = '.' ∨ isMetachar c = false := by
      intro c hc
      rcases List.mem_append.mp hc with h | h
      · exact hp c h
      · right; left; simpa using h
    refine ⟨⟨fold, (pattern ++ ['.']).map wildItem⟩, ?_, ?_⟩
    · simp only [ConvertWildcardsToRegEx, Contains_dot, hd, decide_False, Bool.not_false, if_true]
      exact key _ hq
    · simp only [hd, if_false]
      exact matchItems_wild fold _ name hn


theorem isMetachar_of_isAlphanum (c : Char) (h : c.isAlphanum = true) : isMetachar c = false := by
  by_contra hm
  have hm : isMetachar c = true := by simpa using hm
  simp only [isMetachar, List.elem_eq_mem, decide_eq_true_eq, List.mem_cons, List.mem_singleton,
    List.not_mem_nil, or_false] at hm
  rcases hm with rfl | rfl | rfl | rfl | rfl | rfl | rfl | rfl | rfl | rfl | rfl | rfl | rfl | rfl | rfl | rfl | rfl | rfl <;>
    exact absurd h (by decide)

theorem WildMatch_star_txt (fold : Char → Char) (name : Str) :
    WildMatch fold "*.txt" name ↔
      ∃ pre suf, name = pre ++ suf ∧ suf.map fold = ("txt" : Str).map fold := by
  show WildMatch fold ['*', '.', 't', 'x', 't'] name ↔
      ∃ pre suf, name = pre ++ suf ∧ suf.map fold = [fold 't', fold 'x', fold 't']
  simp only [WildMatch, true_or, or_true, if_true, Char.reduceEq, or_self, if_false]
  constructor
  · rintro ⟨run, rest, rfl, run2, rest2, rfl, x, r3, rfl, hx, y, r4, rfl, hy, z, r5, rfl, hz, rfl⟩
    exact ⟨run ++ run2, [x, y, z], by simp, by simp [hx, hy, hz]⟩
  · rintro ⟨pre, suf, rfl, hs⟩
    have hl : suf.length = 3 := by simpa using congrArg List.length hs
    obtain ⟨x, y, z, rfl⟩ := List.length_eq_three.mp hl
    · simp only [List.map_cons, List.map_nil, List.cons.injEq, and_true] at hs
      exact ⟨pre, _, rfl, [], _, rfl, x, _, rfl, hs.1, y, _, rfl, hs.2.1, z, _, rfl, hs.2.2, rfl⟩

theorem WildMatch_star_dot (fold : Char → Char) (name : Str) : WildMatch fold "*." name := by
  show WildMatch fold ['*', '.'] name
  simp only [WildMatch, true_or, or_true, if_true]
  exact ⟨name, [], by simp, [], [], rfl, rfl⟩

/-- C3: for every pattern made of `*`, `.` and characters that `Regex::Escape` leaves
alone (all letters and digits are such, `isMetachar_of_isAlphanum`), and every name without
a line feed, `ConvertWildcardsToRegEx` returns a matcher, and it accepts the name exactly
when the whole name, compared through the case folding, is the pattern (with a `.`
appended when it has none) after each `*` and each `.` is replaced by an arbitrary run of
characters.  So `*.txt` accepts exactly the names that end in `txt` in any letter case, and
`*` accepts every name. -/
theorem ConvertWildcardsToRegEx_accepts (fold : Char → Char) (pattern name : Str)
    (hp : ∀ c ∈ pattern, c = '*' ∨ c = '.' ∨ isMetachar c = false) (hn : '\n' ∉ name) :
    (∃ r, ConvertWildcardsToRegEx fold (some pattern) = .ok r ∧
      (r.IsMatch name = true ↔
        WildMatch fold (if '.' ∈ pattern then pattern else pattern ++ ['.']) name)) ∧
    (∃ r, ConvertWildcardsToRegEx fold (some "*.txt") = .ok r ∧
      (r.IsMatch name = true ↔
        ∃ pre suf, name = pre ++ suf ∧ suf.map fold = ("txt" : Str).map fold)) ∧
    (∃ r, ConvertWildcardsToRegEx fold (some "*") = .ok r ∧ r.IsMatch name = true) := by
  refine ⟨ConvertWildcardsToRegEx_WildMatch fold pattern name hp hn, ?_, ?_⟩
  · obtain ⟨r, h1, h2⟩ := ConvertWildcardsToRegEx_WildMatch fold "*.txt" name (by decide) hn
    refine ⟨r, h1, h2.trans ?_⟩
    exact WildMatch_star_txt fold name
  · obtain ⟨r, h1, h2⟩ := ConvertWildcardsToRegEx_WildMatch fold "*" name (by decide) hn
    exact ⟨r, h1, h2.mpr (WildMatch_star_dot fold name)⟩

/-- C3 at the pattern `Read*.m` and the name `README.md`, with the ASCII lower-casing. -/
theorem ConvertWildcardsToRegEx_accepts_witness :
    (∀ c ∈ ("Read*.m" : Str), c = '*' ∨ c = '.' ∨ isMetachar c = false) ∧
    '\n' ∉ ("README.md" : Str) ∧
    ((∃ r, ConvertWildcardsToRegEx Char.toLower (some "Read*.m") = .ok r ∧
      (r.IsMatch "README.md" = true ↔
        WildMatch Char.toLower
          (if '.' ∈ ("Read*.m" : Str) then ("Read*.m" : Str) else ("Read*.m" : Str) ++ ['.'])
          "README.md")) ∧
    (∃ r, ConvertWildcardsToRegEx Char.toLower (some "*.txt") = .ok r ∧
      (r.IsMatch "README.md" = true ↔
        ∃ pre suf, ("README.md" : Str) = pre ++ suf ∧
          suf.map Char.toLower = ("txt" : Str).map Char.toLower)) ∧
    (∃ r, ConvertWildcardsToRegEx Char.toLower (some "*") = .ok r ∧
      r.IsMatch "README.md" = true)) :=
  ⟨by decide, by decide,
    ConvertWildcardsToRegEx_accepts Char.toLower "Read*.m" "README.md" (by decide) (by decide)⟩

/-! ## The search scenario -/

theorem TrimEnd_mountPoint (dev : Str) (h1 : dev ≠ []) (h2 : '/' ∉ dev) :
    TrimEnd '/' ('/' :: (dev ++ ['/'])) = '/' :: dev := by
  have e : '/' :: (dev ++ ['/']) = ('/' :: dev) ++ ['/'] := rfl
  rw [TrimEnd, e, List.rdropWhile_concat_pos _ _ _ (by simp), List.rdropWhile_eq_self_iff]
  intro _
  have h3 : ('/' :: dev).getLast (by simp) = dev.getLast h1 := List.getLast_cons h1
  rw [h3]
  have : dev.getLast h1 ≠ '/' := fun h => h2 (h ▸ List.getLast_mem h1)
  simpa using this

theorem CombinePaths_mountPoint (dev rest : Str) (h1 : dev ≠ []) (h2 : '/' ∉ dev)
    (hr : rest ≠ []) :
    CombinePaths (some ('/' :: (dev ++ ['/']))) (some rest) =
      some ('/' :: (dev ++ '/' :: TrimStart '/' rest)) := by
  rw [CombinePaths_some_some _ _ (by simp) hr, TrimEnd_mountPoint dev h1 h2]
  simp

theorem resultPrefix_mountPoint (dev p : Str) :
    resultPrefix ('/' :: (dev ++ ['/'])) p =
      .ok (if dev.length + 2 ≤ p.length then p.drop (dev.length + 1) else "/") := by
  unfold resultPrefix Substring
  by_cases h : dev.length + 2 ≤ p.length
  · have h' : (dev.length + 1 + 1 : Nat) ≤ p.length := h
    simp only [List.length_cons, List.length_append, List.length_singleton, List.length_nil,
      Nat.zero_add, h, h', if_true]
    have e : ((dev.length + 1 + 1 : Nat) : Int) - 1 = ((dev.length + 1 : Nat) : Int) := by
      push_cast; ring
    rw [e]
    have : ¬ (((dev.length + 1 : Nat) : Int) < 0 ∨ (p.length : Int) < ((dev.length + 1 : Nat) : Int)) := by
      omega
    rw [if_neg this]
    simp
  · have h' : ¬ (dev.length + 1 + 1 : Nat) ≤ p.length := h
    simp only [List.length_cons, List.length_append, List.length_singleton, List.length_nil,
      Nat.zero_add, h, h', if_false]


theorem sessionOf_mountPoint (dev : Str) : (sessionOf dev).mountPoint = '/' :: (dev ++ ['/']) := rfl

theorem sessionOf_disposed (dev : Str) : (sessionOf dev).disposed = false := rfl

theorem searchScenario_data (dev : Str) (s : Unit) :
    searchScenario dev s (.ext4_dir_open (some ('/' :: (dev ++ ("/data" : Str))))) =
      ({ entries := [rawEntry "." 2, rawEntry ".." 2, rawEntry "a.txt" 1, rawEntry "b.log" 1,
          rawEntry "sub" 2] }, ()) := by
  have e : (("/" : Str) ++ dev ++ ("/data" : Str)) = '/' :: (dev ++ ("/data" : Str)) := rfl
  simp only [searchScenario, e, if_true]

theorem searchScenario_sub (dev : Str) (s : Unit) :
    searchScenario dev s (.ext4_dir_open (some ('/' :: (dev ++ ("/data/sub" : Str))))) =
      ({ entries := [rawEntry "." 2, rawEntry ".." 2, rawEntry "c.txt" 1] }, ()) := by
  have e : (("/" : Str) ++ dev ++ ("/data" : Str)) = '/' :: (dev ++ ("/data" : Str)) := rfl
  have e2 : (("/" : Str) ++ dev ++ ("/data/sub" : Str)) = '/' :: (dev ++ ("/data/sub" : Str)) := rfl
  have ne : ¬ ('/' :: (dev ++ ("/data/sub" : Str)) = '/' :: (dev ++ ("/data" : Str))) := by
    intro h
    have := List.append_cancel_left (List.cons.inj h).2
    exact absurd this (by decide)
  simp only [searchScenario, e, e2, ne, if_true, if_false]

theorem GetDirectory_data (dev : Str) (h1 : dev ≠ []) (h2 : '/' ∉ dev) (w : World Unit) :
    GetDirectory (searchScenario dev) (sessionOf dev) (some "/data") w =
      (.ok [⟨"a.txt", 17, .REG_FILE⟩, ⟨"b.log", 17, .REG_FILE⟩, ⟨"sub", 15, .DIR⟩],
        ⟨(), w.log ++ [.ext4_dir_open (some ('/' :: (dev ++ ("/data" : Str)))), .ext4_dir_close]⟩) := by
  have c := CombinePaths_mountPoint dev "/data" h1 h2 (by decide)
  have t : TrimStart '/' ("/data" : Str) = ("data" : Str) := by decide
  rw [t] at c
  have c' : CombinePaths (some (sessionOf dev).mountPoint) (some ("/data" : Str)) =
      some ('/' :: (dev ++ ("/data" : Str))) := by rw [sessionOf_mountPoint, c]; rfl
  unfold GetDirectory
  simp only [c', call, searchScenario_data]
  simp [EOK]
  decide


theorem GetDirectory_sub (dev : Str) (h1 : dev ≠ []) (h2 : '/' ∉ dev) (w : World Unit) :
    GetDirectory (searchScenario dev) (sessionOf dev) (some "/data/sub") w =
      (.ok [⟨"c.txt", 17, .REG_FILE⟩],
        ⟨(), w.log ++ [.ext4_dir_open (some ('/' :: (dev ++ ("/data/sub" : Str)))),
          .ext4_dir_close]⟩) := by
  have c := CombinePaths_mountPoint dev "/data/sub" h1 h2 (by decide)
  have t : TrimStart '/' ("/data/sub" : Str) = ("data/sub" : Str) := by decide
  rw [t] at c
  have c' : CombinePaths (some (sessionOf dev).mountPoint) (some ("/data/sub" : Str)) =
      some ('/' :: (dev ++ ("/data/sub" : Str))) := by rw [sessionOf_mountPoint, c]; rfl
  unfold GetDirectory
  simp only [c', call, searchScenario_sub]
  simp [EOK]
  decide

theorem ConvertWildcardsToRegEx_txt :
    ConvertWildcardsToRegEx Char.toLower (some "*.txt") = .ok txtRegex := by
  rfl

theorem DoSearch_sub (dev : Str) (h1 : dev ≠ []) (h2 : '/' ∉ dev) (subFolders : Bool)
    (fuel : Nat) (results : List (Option Str)) (w : World Unit) :
    DoSearch (searchScenario dev) (sessionOf dev) txtRegex subFolders false true (fuel + 1)
        results (some "/data/sub") w =
      some (.ok (), results ++ [emitted (scenarioPrefix dev "/data/sub") "c.txt"],
        ⟨(), w.log ++ [.ext4_dir_open (some ('/' :: (dev ++ ("/data/sub" : Str)))),
          .ext4_dir_close]⟩) := by
  have m : txtRegex.IsMatch ("c.txt" : Str) = true := by decide
  have e : EndsWith ("c.txt" : Str) "." = false := by decide
  rw [DoSearch]
  simp only [sessionOf_disposed, GetDirectory_sub dev h1 h2, sessionOf_mountPoint,
    resultPrefix_mountPoint, searchLoop, e, m]
  simp [scenarioPrefix]


theorem DoSearch_data_top (dev : Str) (h1 : dev ≠ []) (h2 : '/' ∉ dev)
    (fuel : Nat) (w : World Unit) :
    DoSearch (searchScenario dev) (sessionOf dev) txtRegex false false true (fuel + 1)
        [] (some "/data") w =
      some (.ok (), [emitted (scenarioPrefix dev "/data") "a.txt"],
        ⟨(), w.log ++ [.ext4_dir_open (some ('/' :: (dev ++ ("/data" : Str)))),
          .ext4_dir_close]⟩) := by
  have m1 : txtRegex.IsMatch ("a.txt" : Str) = true := by decide
  have m2 : txtRegex.IsMatch ("b.log" : Str) = false := by decide
  have e1 : EndsWith ("a.txt" : Str) "." = false := by decide
  have e2 : EndsWith ("b.log" : Str) "." = false := by decide
  have e3 : EndsWith ("sub" : Str) "." = false := by decide
  rw [DoSearch]
  simp only [sessionOf_disposed, GetDirectory_data dev h1 h2, sessionOf_mountPoint,
    resultPrefix_mountPoint, searchLoop, e1, e2, e3, m1, m2]
  simp [scenarioPrefix]

theorem searchLoop_data_all {σ : Type}
    (recurse : List (Option Str) → Option Str → World σ →
      Option (Except Exn Unit × List (Option Str) × World σ))
    (pre : Str) (x : Option Str) (next : World σ → World σ)
    (h : ∀ results w, recurse results (some ("/data/sub" : Str)) w =
      some (.ok (), results ++ [x], next w)) (w : World σ) :
    searchLoop recurse txtRegex true false true (some ("/data" : Str)) pre
      [⟨"a.txt", 17, .REG_FILE⟩, ⟨"b.log", 17, .REG_FILE⟩, ⟨"sub", 15, .DIR⟩] [] w =
      some ([emitted pre "a.txt", x], next w) := by
  have m1 : txtRegex.IsMatch ("a.txt" : Str) = true := by decide
  have m2 : txtRegex.IsMatch ("b.log" : Str) = false := by decide
  have e1 : EndsWith ("a.txt" : Str) "." = false := by decide
  have e2 : EndsWith ("b.log" : Str) "." = false := by decide
  have e3 : EndsWith ("sub" : Str) "." = false := by decide
  have c : CombinePaths (some ("/data" : Str)) (some ("sub" : Str)) = some ("/data/sub" : Str) := by
    decide
  simp only [searchLoop, e1, e2, e3, m1, m2, c, h]
  simp

theorem DoSearch_data_all (dev : Str) (h1 : dev ≠ []) (h2 : '/' ∉ dev)
    (fuel : Nat) (w : World Unit) :
    DoSearch (searchScenario dev) (sessionOf dev) txtRegex true false true (fuel + 2)
        [] (some "/data") w =
      some (.ok (), [emitted (scenarioPrefix dev "/data") "a.txt",
          emitted (scenarioPrefix dev "/data/sub") "c.txt"],
        ⟨(), w.log ++ [.ext4_dir_open (some ('/' :: (dev ++ ("/data" : Str)))),
          .ext4_dir_close, .ext4_dir_open (some ('/' :: (dev ++ ("/data/sub" : Str)))),
          .ext4_dir_close]⟩) := by
  rw [DoSearch]
  simp only [sessionOf_disposed, GetDirectory_data dev h1 h2, sessionOf_mountPoint,
    resultPrefix_mountPoint]
  rw [searchLoop_data_all _ _ (emitted (scenarioPrefix dev "/data/sub") "c.txt")
    (fun w => ⟨(), w.log ++ [.ext4_dir_open (some ('/' :: (dev ++ ("/data/sub" : Str)))),
          .ext4_dir_close]⟩) (fun results w => DoSearch_sub dev h1 h2 true fuel results w)]
  simp [scenarioPrefix]


theorem GetFiles_scenario_top (dev : Str) (h1 : dev ≠ []) (h2 : '/' ∉ dev)
    (fuel : Nat) (w : World Unit) :
    (GetFiles (searchScenario dev) Char.toLower (sessionOf dev) (fuel + 2) (some "/data")
        (some "*.txt") .TopDirectoryOnly w).map (·.1) =
      some (.ok [emitted (scenarioPrefix dev "/data") "a.txt"]) := by
  have s : StartsWith ("/data" : Str) "/" = true := by decide
  have o : (SearchOption.TopDirectoryOnly == SearchOption.AllDirectories) = false := by decide
  have d := DoSearch_data_top dev h1 h2 (fuel + 1) w
  unfold GetFiles searchBody
  rw [ConvertWildcardsToRegEx_txt]
  simp only [sessionOf_disposed, s, o, Bool.false_eq_true, if_false, Bool.not_true, d]
  rfl

theorem GetFiles_scenario_all (dev : Str) (h1 : dev ≠ []) (h2 : '/' ∉ dev)
    (fuel : Nat) (w : World Unit) :
    (GetFiles (searchScenario dev) Char.toLower (sessionOf dev) (fuel + 2) (some "/data")
        (some "*.txt") .AllDirectories w).map (·.1) =
      some (.ok [emitted (scenarioPrefix dev "/data") "a.txt",
        emitted (scenarioPrefix dev "/data/sub") "c.txt"]) := by
  have s : StartsWith ("/data" : Str) "/" = true := by decide
  have o : (SearchOption.AllDirectories == SearchOption.AllDirectories) = true := by decide
  have d := DoSearch_data_all dev h1 h2 fuel w
  unfold GetFiles searchBody
  rw [ConvertWildcardsToRegEx_txt]
  simp only [sessionOf_disposed, s, o, Bool.false_eq_true, if_false, Bool.not_true, d]
  rfl

theorem emitted_data_ne (dev : Str) (h1 : dev ≠ []) :
    emitted (scenarioPrefix dev "/data") "a.txt" ≠ some ("/data/a.txt" : Str) := by
  have hl : 0 < dev.length := List.length_pos.mpr h1
  by_cases h : dev.length ≤ 3
  · have : dev.length = 1 ∨ dev.length = 2 ∨ dev.length = 3 := by omega
    rcases this with e | e | e <;> simp only [scenarioPrefix, e] <;> decide
  · have e : ¬ (dev.length + 2 ≤ ("/data" : Str).length) := by
      show ¬ (dev.length + 2 ≤ 5); omega
    simp only [scenarioPrefix, e, if_false]
    decide


/-- C1 (the code diverges from the claim): in the session mounted at `/<devName>/`, for
every non-empty device name without `/`, over the scenario directory (`/data` holds
`a.txt`, `b.log` and `sub`, which holds `c.txt`), `GetFiles("/data", "*.txt", ...)` returns,
but never the lists the claim states: the result prefix is the search path with the
mount-point length stripped, although the search path carries no mount point.  With a
four-character device name the results are `/a.txt` and `/sub/c.txt`, with a
three-character one `a/a.txt` and `a/sub/c.txt`. -/
theorem GetFiles_search_scenario (devName : Str) (h1 : devName ≠ []) (h2 : '/' ∉ devName)
    (fuel : Nat) (w : World Unit) :
    (GetFiles (searchScenario devName) Char.toLower (sessionOf devName) (fuel + 2)
        (some "/data") (some "*.txt") .TopDirectoryOnly w).map (·.1) ≠
      some (.ok [some ("/data/a.txt" : Str)]) ∧
    (GetFiles (searchScenario devName) Char.toLower (sessionOf devName) (fuel + 2)
        (some "/data") (some "*.txt") .AllDirectories w).map (·.1) ≠
      some (.ok [some ("/data/a.txt" : Str), some ("/data/sub/c.txt" : Str)]) ∧
    (4 ≤ devName.length →
      (GetFiles (searchScenario devName) Char.toLower (sessionOf devName) (fuel + 2)
        (some "/data") (some "*.txt") .TopDirectoryOnly w).map (·.1) =
      some (.ok [some ("/a.txt" : Str)])) ∧
    (devName.length = 4 →
      (GetFiles (searchScenario devName) Char.toLower (sessionOf devName) (fuel + 2)
        (some "/data") (some "*.txt") .AllDirectories w).map (·.1) =
      some (.ok [some ("/a.txt" : Str), some ("/sub/c.txt" : Str)])) ∧
    (devName.length = 3 →
      (GetFiles (searchScenario devName) Char.toLower (sessionOf devName) (fuel + 2)
        (some "/data") (some "*.txt") .TopDirectoryOnly w).map (·.1) =
      some (.ok [some ("a/a.txt" : Str)]) ∧
      (GetFiles (searchScenario devName) Char.toLower (sessionOf devName) (fuel + 2)
        (some "/data") (some "*.txt") .AllDirectories w).map (·.1) =
      some (.ok [some ("a/a.txt" : Str), some ("a/sub/c.txt" : Str)])) := by
  rw [GetFiles_scenario_top devName h1 h2, GetFiles_scenario_all devName h1 h2]
  have ne := emitted_data_ne devName h1
  refine ⟨?_, ?_, ?_, ?_, ?_⟩
  · intro h
    simp only [Option.some.injEq, Except.ok.injEq, List.cons.injEq, and_true] at h
    exact ne h
  · intro h
    simp only [Option.some.injEq, Except.ok.injEq, List.cons.injEq, and_true] at h
    exact ne h.1
  · intro h
    have e : ¬ (devName.length + 2 ≤ ("/data" : Str).length) := by
      show ¬ (devName.length + 2 ≤ 5); omega
    simp only [scenarioPrefix, e, if_false]
    decide
  · intro h
    simp only [scenarioPrefix, h]
    decide
  · intro h
    simp only [scenarioPrefix, h]
    decide

/-- C1 at the device name `1a2b` (`rand()` returned 0x1a2b). -/
theorem GetFiles_search_scenario_witness :
    ("1a2b" : Str) ≠ [] ∧ '/' ∉ ("1a2b" : Str) ∧
    ((GetFiles (searchScenario "1a2b") Char.toLower (sessionOf "1a2b") 2
        (some "/data") (some "*.txt") .TopDirectoryOnly ⟨(), []⟩).map (·.1) ≠
      some (.ok [some ("/data/a.txt" : Str)]) ∧
    (GetFiles (searchScenario "1a2b") Char.toLower (sessionOf "1a2b") 2
        (some "/data") (some "*.txt") .AllDirectories ⟨(), []⟩).map (·.1) ≠
      some (.ok [some ("/data/a.txt" : Str), some ("/data/sub/c.txt" : Str)]) ∧
    (4 ≤ ("1a2b" : Str).length →
      (GetFiles (searchScenario "1a2b") Char.toLower (sessionOf "1a2b") 2
        (some "/data") (some "*.txt") .TopDirectoryOnly ⟨(), []⟩).map (·.1) =
      some (.ok [some ("/a.txt" : Str)])) ∧
    (("1a2b" : Str).length = 4 →
      (GetFiles (searchScenario "1a2b") Char.toLower (sessionOf "1a2b") 2
        (some "/data") (some "*.txt") .AllDirectories ⟨(), []⟩).map (·.1) =
      some (.ok [some ("/a.txt" : Str), some ("/sub/c.txt" : Str)])) ∧
    (("1a2b" : Str).length = 3 →
      (GetFiles (searchScenario "1a2b") Char.toLower (sessionOf "1a2b") 2
        (some "/data") (some "*.txt") .TopDirectoryOnly ⟨(), []⟩).map (·.1) =
      some (.ok [some ("a/a.txt" : Str)]) ∧
      (GetFiles (searchScenario "1a2b") Char.toLower (sessionOf "1a2b") 2
        (some "/data") (some "*.txt") .AllDirectories ⟨(), []⟩).map (·.1) =
      some (.ok [some ("a/a.txt" : Str), some ("a/sub/c.txt" : Str)]))) :=
  ⟨by decide, by decide,
    GetFiles_search_scenario "1a2b" (by decide) (by decide) 0 ⟨(), []⟩⟩

/-! ## Timestamps -/

theorem u32_lt (n : Nat) : u32 n < 2 ^ 32 := Nat.mod_lt _ (by norm_num)

theorem u32_of_lt (n : Nat) (h : n < 2 ^ 32) : u32 n = n := Nat.mod_eq_of_lt h

theorem ctimeEngine_roundtrip (castSeconds : Int → Nat) (t : DateTime) :
    (GetCreationTime ctimeEngine (sessionOf "1a2b") (some "/f")
      (SetCreationTime ctimeEngine castSeconds (sessionOf "1a2b") (some "/f") t
        ⟨[(some ("/1a2b/f" : Str), 0)], []⟩).2).1 =
    .ok (AddSeconds UnixEpoch (secondsSince castSeconds t UnixEpoch)) := by
  have c : CombinePaths (some (sessionOf "1a2b").mountPoint) (some ("/f" : Str)) =
      some ("/1a2b/f" : Str) := by decide
  have n : IsNullOrEmpty (some ("/f" : Str)) = false := by decide
  have e : u32 (secondsSince castSeconds t UnixEpoch) = secondsSince castSeconds t UnixEpoch :=
    u32_of_lt _ (u32_lt _)
  simp only [SetCreationTime, GetCreationTime, n, c, call, ctimeEngine, List.lookup,
    beq_self_eq_true, Option.isSome, EOK, e, if_true, Bool.false_eq_true, if_false, ne_eq,
    not_true_eq_false]

/-- C4 as stated fails: for the existing path `/f` and the timestamp 2^32 seconds after
the epoch (2106-02-07T06:28:16 UTC, a whole second), no conversion of `TotalSeconds` to
`uint32_t` makes `SetCreationTime` followed by `GetCreationTime` return the timestamp:
what comes back is less than 2^32 seconds after the epoch. -/
theorem SetCreationTime_GetCreationTime_overflow :
    ¬ ∃ castSeconds : Int → Nat,
      (GetCreationTime ctimeEngine (sessionOf "1a2b") (some "/f")
        (SetCreationTime ctimeEngine castSeconds (sessionOf "1a2b") (some "/f")
          (UnixEpoch + 2 ^ 32 * TicksPerSecond)
          ⟨[(some ("/1a2b/f" : Str), 0)], []⟩).2).1 =
      .ok (UnixEpoch + 2 ^ 32 * TicksPerSecond
        - (UnixEpoch + 2 ^ 32 * TicksPerSecond) % TicksPerSecond) := by
  rintro ⟨castSeconds, h⟩
  rw [ctimeEngine_roundtrip] at h
  have hlt : secondsSince castSeconds (UnixEpoch + 2 ^ 32 * TicksPerSecond) UnixEpoch < 2 ^ 32 :=
    u32_lt _
  generalize secondsSince castSeconds (UnixEpoch + 2 ^ 32 * TicksPerSecond) UnixEpoch = s at h hlt
  have h' := Except.ok.inj h
  simp only [AddSeconds, UnixEpoch, TicksPerSecond] at h'
  norm_num at h' hlt
  have h'' : (621355968000000000 + s * 10000000 : Nat) = 664305640960000000 := h'
  omega

/-- C4 as amended: when the engine resolves the path (`ext4_ctime_set` succeeds) and
answers `ext4_ctime_get` with what `ext4_ctime_set` stored, when the timestamp `t` lies at
or after the epoch and less than 2^32 seconds after it, and when the runtime converts the
`TotalSeconds` of `t - epoch` to its whole number of seconds, `SetCreationTime(p, t)`
succeeds and `GetCreationTime(p)` after it returns `t` truncated to whole seconds. -/
theorem SetCreationTime_GetCreationTime {σ : Type} (E : Engine σ) (castSeconds : Int → Nat)
    (fs : ExtFileSystem) (p : Str) (t : DateTime) (w : World σ)
    (hp : p ≠ [])
    (hset : (E w.st (.ext4_ctime_set (CombinePaths (some fs.mountPoint) (some p))
      (secondsSince castSeconds t UnixEpoch))).1.status = EOK)
    (hget : (E (E w.st (.ext4_ctime_set (CombinePaths (some fs.mountPoint) (some p))
        (secondsSince castSeconds t UnixEpoch))).2
      (.ext4_ctime_get (CombinePaths (some fs.mountPoint) (some p)))).1.status = EOK ∧
      (E (E w.st (.ext4_ctime_set (CombinePaths (some fs.mountPoint) (some p))
        (secondsSince castSeconds t UnixEpoch))).2
      (.ext4_ctime_get (CombinePaths (some fs.mountPoint) (some p)))).1.val1 =
        secondsSince castSeconds t UnixEpoch)
    (ht1 : UnixEpoch ≤ t) (ht2 : t < UnixEpoch + 2 ^ 32 * TicksPerSecond)
    (hcast : castSeconds ((t : Int) - (UnixEpoch : Int)) = (t - UnixEpoch) / TicksPerSecond) :
    (SetCreationTime E castSeconds fs (some p) t w).1 = .ok () ∧
    (GetCreationTime E fs (some p) (SetCreationTime E castSeconds fs (some p) t w).2).1 =
      .ok (t - t % TicksPerSecond) := by
  have n : IsNullOrEmpty (some p) = false := by
    cases p with
    | nil => exact absurd rfl hp
    | cons x p => rfl
  have key : ∀ n : Nat, 621355968000000000 ≤ n → n < 621355968000000000 + 4294967296 * 10000000 →
      (n - 621355968000000000) / 10000000 < 4294967296 ∧
      621355968000000000 + (n - 621355968000000000) / 10000000 * 10000000 = n - n % 10000000 := by
    intro n h1 h2
    omega
  have ht2' : t < 621355968000000000 + 4294967296 * 10000000 := by
    have := ht2
    simp only [UnixEpoch, TicksPerSecond] at this
    norm_num at this
    exact this
  obtain ⟨hq, hr⟩ := key t ht1 ht2'
  have hq' : (t - UnixEpoch) / TicksPerSecond < 2 ^ 32 := by
    norm_num
    exact hq
  have hs : secondsSince castSeconds t UnixEpoch = (t - UnixEpoch) / TicksPerSecond := by
    rw [secondsSince, hcast]
    exact u32_of_lt _ hq'
  refine ⟨by simp [SetCreationTime, n, call, hset], ?_⟩
  simp only [SetCreationTime, GetCreationTime, n, call, hset, hget.1, hget.2, Bool.false_eq_true,
    if_false, ne_eq, not_true_eq_false]
  rw [hs, u32_of_lt _ hq']
  exact congrArg Except.ok hr

/-- C4 as amended, at the path `/f` and the timestamp 2024-01-01T00:00:00.5 UTC, over the
reference engine and the exact conversion. -/
theorem SetCreationTime_GetCreationTime_witness :
    (SetCreationTime ctimeEngine exactSeconds (sessionOf "1a2b") (some "/f")
      638396640005000000 ⟨[(some ("/1a2b/f" : Str), 0)], []⟩).1 = .ok () ∧
    (GetCreationTime ctimeEngine (sessionOf "1a2b") (some "/f")
      (SetCreationTime ctimeEngine exactSeconds (sessionOf "1a2b") (some "/f")
        638396640005000000 ⟨[(some ("/1a2b/f" : Str), 0)], []⟩).2).1 =
      .ok (638396640005000000 - 638396640005000000 % TicksPerSecond) :=
  SetCreationTime_GetCreationTime ctimeEngine exactSeconds (sessionOf "1a2b") "/f"
    638396640005000000 ⟨[(some ("/1a2b/f" : Str), 0)], []⟩
    (by decide) (by decide) (by decide) (by decide) (by decide) (by decide)

/-! ## Disks -/

theorem IsNullOrEmpty_some (s : Str) (h : s ≠ []) : IsNullOrEmpty (some s) = false := by
  cases s with
  | nil => exact absurd rfl h
  | cons x s => rfl

theorem OpenRawExt4_eq (H : Host) (path : Str) (bd : ext4_blockdev) (length : Nat)
    (hp : path ≠ []) (hbd : H.ext4_io_raw_dev_get path = some bd)
    (hlen : H.FileLength path = some length) :
    ExtDisk.OpenRawExt4 H (some path) =
      some (ExtDisk.raw path bd length) := by
  simp [ExtDisk.OpenRawExt4, ExtDisk.create, IsNullOrEmpty_some path hp, nstr, hbd, hlen,
    ExtDisk.raw]

theorem scan_ok (H : Host) (disk0 disk : ExtDisk) (h : ExtDisk.scan H disk0 = .ok disk) :
    ∃ bd, disk0.bd = some bd ∧ (H.ext4_mbr_scan bd).1 = EOK ∧
      disk.partitions =
        some ((H.ext4_mbr_scan bd).2.2.map fun par => ⟨par.part_offset, par.part_size⟩) ∧
      disk.capacity = (H.ext4_mbr_scan bd).2.1.part_offset ∧
      disk._isRawMode = disk0._isRawMode := by
  unfold ExtDisk.scan at h
  cases hb : disk0.bd with
  | none => simp [hb] at h
  | some bd =>
    simp only [hb] at h
    by_cases hr : (H.ext4_mbr_scan bd).1 = EOK
    · simp only [hr, if_true] at h
      have h' := Except.ok.inj h
      subst h'
      exact ⟨bd, rfl, hr, rfl, rfl, rfl⟩
    · simp [hr] at h

/-- C5 (the code diverges from the claim): whenever the length of the file behind a
non-empty path can be read and the MBR scan of the path would succeed, so that the source
is an MBR-partitioned disk image, `Open(path)` does not fall back to the scan: the raw
attempt checks nothing but the binding of the path, and `Open` returns a raw-mode disk
whose only partition is the whole image. -/
theorem Open_mbr_image_is_raw (H : Host) (path : Str) (length : Nat) (scanned : ExtDisk)
    (hp : path ≠ []) (hlen : H.FileLength path = some length)
    (hscan : ExtDisk.scan H (ExtDisk.create H path) = .ok scanned) :
    ∃ disk, ExtDisk.Open H (some path) = some disk ∧ disk._isRawMode = true ∧
      disk.partitions = some [⟨0, length⟩] ∧ disk.bdevs = none := by
  obtain ⟨bd, hbd, -⟩ := scan_ok H _ _ hscan
  have hbd' : H.ext4_io_raw_dev_get path = some bd := hbd
  refine ⟨ExtDisk.raw path bd length, ?_, rfl, rfl, rfl⟩
  simp only [ExtDisk.Open, IsNullOrEmpty_some path hp, OpenRawExt4_eq H path bd length hp hbd' hlen]
  rfl

/-- C5 at the image `disk.img`: the scan would deliver the table of two partitions, and
`Open` returns the raw-mode disk with one partition of 1 GiB. -/
theorem Open_mbr_image_is_raw_witness :
    (ExtDisk.scan mbrImageHost (ExtDisk.create mbrImageHost "disk.img")).map (·.partitions) =
      .ok (some [⟨1048576, 536870912⟩, ⟨537919488, 535822336⟩, ⟨0, 0⟩, ⟨0, 0⟩]) ∧
    ∃ disk, ExtDisk.Open mbrImageHost (some "disk.img") = some disk ∧ disk._isRawMode = true ∧
      disk.partitions = some [⟨0, 1073741824⟩] ∧ disk.bdevs = none :=
  ⟨by decide, Open_mbr_image_is_raw mbrImageHost "disk.img" 1073741824
    { bdevs := some imageTable, bd := some imageDevice, capacity := 0,
      geometry := some ⟨1073741824, 0, 2097152, 512⟩, diskPath := some "disk.img",
      _isRawMode := false,
      partitions := some [⟨1048576, 536870912⟩, ⟨537919488, 535822336⟩, ⟨0, 0⟩, ⟨0, 0⟩] }
    (by decide) (by decide) (by decide)⟩

/-- C6: for every readable raw image (the backend binds the non-empty path and the
length of the file can be read), `Open(path)` returns the disk `OpenRawExt4` builds, in raw
mode, and its partition list has exactly one element, with offset 0 and the length of the
image as its size. -/
theorem Open_raw_image (H : Host) (path : Str) (bd : ext4_blockdev) (length : Nat)
    (hp : path ≠ []) (hbd : H.ext4_io_raw_dev_get path = some bd)
    (hlen : H.FileLength path = some length) :
    ∃ disk, ExtDisk.Open H (some path) = some disk ∧
      ExtDisk.OpenRawExt4 H (some path) = some disk ∧
      disk._isRawMode = true ∧
      disk.partitions = some [{ Offset := 0, Size := length }] := by
  refine ⟨ExtDisk.raw path bd length, ?_, OpenRawExt4_eq H path bd length hp hbd hlen, rfl, rfl⟩
  simp only [ExtDisk.Open, IsNullOrEmpty_some path hp, OpenRawExt4_eq H path bd length hp hbd hlen]
  rfl

/-- C6 at the image `rootfs.ext4` of 1 GiB. -/
theorem Open_raw_image_witness :
    ∃ disk, ExtDisk.Open mbrImageHost (some "rootfs.ext4") = some disk ∧
      ExtDisk.OpenRawExt4 mbrImageHost (some "rootfs.ext4") = some disk ∧
      disk._isRawMode = true ∧
      disk.partitions = some [{ Offset := 0, Size := 1073741824 }] :=
  Open_raw_image mbrImageHost "rootfs.ext4" imageDevice 1073741824 (by decide) rfl rfl

/-- C7 as stated fails: the disk that `Open(0)` returns for a 1 GiB disk with two
partitions reports the capacity 0, the `part_offset` of the whole-disk block device, while
its partition sizes sum to 1072693248; and so does the disk `Open(path)` returns for its
device path. -/
theorem Open_capacity_counterexample :
    (∃ disk, ExtDisk.OpenNumber mbrImageHost 0 = .ok disk ∧
      disk.capacity = 0 ∧ disk.totalSize = 1072693248 ∧ ¬ disk.totalSize ≤ disk.capacity) ∧
    (∃ disk, ExtDisk.Open mbrDeviceHost (some "PhysicalDrive0") = some disk ∧
      disk._isRawMode = false ∧
      disk.capacity = 0 ∧ disk.totalSize = 1072693248 ∧ ¬ disk.totalSize ≤ disk.capacity) :=
  ⟨⟨_, rfl, by decide, by decide, by decide⟩, ⟨_, rfl, by decide, by decide, by decide, by decide⟩⟩

/-- C7 as amended: a disk produced by a successful MBR scan (by `Open(DiskNumber)`, or by
`Open(path)` when it is not in raw mode) lists the engine's partition table entry by entry,
in table order, so its partition sizes sum to the sum of the table's `part_size` fields;
its capacity is the `part_offset` the scan leaves in the block device. -/
theorem Open_mbr_partitions (H : Host) (DiskNumber : Int) (path : Str) (disk : ExtDisk)
    (h : ExtDisk.OpenNumber H DiskNumber = .ok disk ∨
      (ExtDisk.Open H (some path) = some disk ∧ disk._isRawMode = false)) :
    ∃ bd, (H.ext4_io_raw_dev_get (physicalDrive DiskNumber) = some bd ∨
        H.ext4_io_raw_dev_get path = some bd) ∧
      (H.ext4_mbr_scan bd).1 = EOK ∧
      disk.partitions =
        some ((H.ext4_mbr_scan bd).2.2.map fun par => ⟨par.part_offset, par.part_size⟩) ∧
      disk.totalSize = ((H.ext4_mbr_scan bd).2.2.map (·.part_size)).sum ∧
      disk.capacity = (H.ext4_mbr_scan bd).2.1.part_offset := by
  have fin : ∀ p, ExtDisk.scan H (ExtDisk.create H p) = .ok disk →
      ∃ bd, H.ext4_io_raw_dev_get p = some bd ∧ (H.ext4_mbr_scan bd).1 = EOK ∧
      disk.partitions =
        some ((H.ext4_mbr_scan bd).2.2.map fun par => ⟨par.part_offset, par.part_size⟩) ∧
      disk.totalSize = ((H.ext4_mbr_scan bd).2.2.map (·.part_size)).sum ∧
      disk.capacity = (H.ext4_mbr_scan bd).2.1.part_offset := by
    intro p hs
    obtain ⟨bd, h1, h2, h3, h4, -⟩ := scan_ok H _ _ hs
    refine ⟨bd, h1, h2, h3, ?_, h4⟩
    simp [ExtDisk.totalSize, h3, Function.comp_def]
  rcases h with h | ⟨h, hraw⟩
  · obtain ⟨bd, h1, rest⟩ := fin _ h
    exact ⟨bd, Or.inl h1, rest⟩
  · unfold ExtDisk.Open at h
    by_cases hn : IsNullOrEmpty (some path) = true
    · simp [hn] at h
    · simp only [hn, Bool.false_eq_true, if_false] at h
      cases hr : ExtDisk.OpenRawExt4 H (some path) with
      | some d =>
        simp only [hr, Option.some.injEq] at h
        subst h
        have : d._isRawMode = true := by
          unfold ExtDisk.OpenRawExt4 at hr
          simp only [hn, Bool.false_eq_true, if_false] at hr
          split at hr
          · simp at hr
          · split at hr
            · simp at hr
            · simp only [Option.some.injEq] at hr
              subst hr
              rfl
        rw [this] at hraw
        exact absurd hraw (by decide)
      | none =>
        simp only [hr] at h
        cases hs : ExtDisk.scan H (ExtDisk.create H (nstr (some path))) with
        | error e => simp [hs] at h
        | ok d =>
          simp only [hs, Option.some.injEq] at h
          subst h
          obtain ⟨bd, h1, rest⟩ := fin _ hs
          exact ⟨bd, Or.inr h1, rest⟩

/-- C7 as amended, at disk number 0 of the host with the 1 GiB disk. -/
theorem Open_mbr_partitions_witness :
    ∃ bd, (mbrImageHost.ext4_io_raw_dev_get (physicalDrive 0) = some bd ∨
        mbrImageHost.ext4_io_raw_dev_get "disk.img" = some bd) ∧
      (mbrImageHost.ext4_mbr_scan bd).1 = EOK ∧
      (ExtDisk.scan mbrImageHost (ExtDisk.create mbrImageHost (physicalDrive 0))).map
          (·.partitions) =
        .ok (some ((mbrImageHost.ext4_mbr_scan bd).2.2.map
          fun par => ⟨par.part_offset, par.part_size⟩)) :=
  match Open_mbr_partitions mbrImageHost 0 "disk.img"
      { bdevs := some imageTable, bd := some imageDevice, capacity := 0,
        geometry := some ⟨1073741824, 0, 2097152, 512⟩, diskPath := some (physicalDrive 0),
        _isRawMode := false,
        partitions := some [⟨1048576, 536870912⟩, ⟨537919488, 535822336⟩, ⟨0, 0⟩, ⟨0, 0⟩] }
      (Or.inl rfl) with
  | ⟨bd, h1, h2, _, _, _⟩ => ⟨bd, h1, h2, rfl⟩

/-! ## Argument validation -/

/-- C8 (the code diverges from the claim): for an empty or absent path, `DeleteDirectory`,
`DeleteFile`, `RenameFile`, `Truncate` and the six timestamp operations raise
`ArgumentNullException` and leave the log of engine calls as it was; `CreateDirectory`,
`CreateSymLink`, `CreateHardLink`, `GetMode`, `SetMode`, `GetOwner` and `SetOwner` check
nothing: each makes its engine call, on what `CombinePaths` makes of the mount point and
the missing path, and raises at most an `IOException`. -/
theorem empty_path_validation {σ : Type} (E : Engine σ) (castSeconds : Int → Nat)
    (fs : ExtFileSystem) (path : Option Str) (w : World σ)
    (h : IsNullOrEmpty path = true) :
    (DeleteDirectory E fs path w = (.error (argNull "path is null."), w) ∧
     DeleteFile E fs path w = (.error (argNull "path is null."), w) ∧
     (∀ other, RenameFile E fs path other w =
        (.error (argNull "sourceFileName or destFileName is null."), w)) ∧
     (∀ other, RenameFile E fs other path w =
        (.error (argNull "sourceFileName or destFileName is null."), w)) ∧
     (∀ size, Truncate E fs path size w = (.error (argNull "path is null."), w)) ∧
     GetCreationTime E fs path w = (.error (argNull "path is null."), w) ∧
     (∀ t, SetCreationTime E castSeconds fs path t w = (.error (argNull "path is null."), w)) ∧
     GetLastAccessTime E fs path w = (.error (argNull "path is null."), w) ∧
     (∀ t, SetLastAccessTime E castSeconds fs path t w =
        (.error (argNull "path is null."), w)) ∧
     GetLastWriteTime E fs path w = (.error (argNull "path is null."), w) ∧
     (∀ t, SetLastWriteTime E castSeconds fs path t w =
        (.error (argNull "path is null."), w))) ∧
    ((CreateDirectory E fs path w).2.log =
        w.log ++ [.ext4_dir_mk (CombinePaths (some fs.mountPoint) path)] ∧
     (∀ e, (CreateDirectory E fs path w).1 = .error e → e.kind = .IOException) ∧
     (∀ target, (CreateSymLink E fs target path w).2.log =
        w.log ++ [.ext4_fsymlink target (CombinePaths (some fs.mountPoint) path)] ∧
       ∀ e, (CreateSymLink E fs target path w).1 = .error e → e.kind = .IOException) ∧
     (∀ target, (CreateHardLink E fs target path w).2.log =
        w.log ++ [.ext4_flink (CombinePaths (some fs.mountPoint) target)
          (CombinePaths (some fs.mountPoint) path)] ∧
       ∀ e, (CreateHardLink E fs target path w).1 = .error e → e.kind = .IOException) ∧
     (GetMode E fs path w).2.log =
        w.log ++ [.ext4_mode_get (CombinePaths (some fs.mountPoint) path)] ∧
     (∀ e, (GetMode E fs path w).1 = .error e → e.kind = .IOException) ∧
     (∀ mode, (SetMode E fs path mode w).2.log =
        w.log ++ [.ext4_mode_set (CombinePaths (some fs.mountPoint) path) mode] ∧
       ∀ e, (SetMode E fs path mode w).1 = .error e → e.kind = .IOException) ∧
     (GetOwner E fs path w).2.log =
        w.log ++ [.ext4_owner_get (CombinePaths (some fs.mountPoint) path)] ∧
     (∀ e, (GetOwner E fs path w).1 = .error e → e.kind = .IOException) ∧
     (∀ uid gid, (SetOwner E fs path uid gid w).2.log =
        w.log ++ [.ext4_owner_set (CombinePaths (some fs.mountPoint) path) uid gid] ∧
       ∀ e, (SetOwner E fs path uid gid w).1 = .error e → e.kind = .IOException)) := by
  refine ⟨⟨?_, ?_, ?_, ?_, ?_, ?_, ?_, ?_, ?_, ?_, ?_⟩, ?_, ?_, ?_, ?_, ?_, ?_, ?_, ?_, ?_, ?_⟩
  · simp [DeleteDirectory, h]
  · simp [DeleteFile, h]
  · intro other; simp [RenameFile, h]
  · intro other; simp [RenameFile, h]
  · intro size; simp [Truncate, FileExists, h]
  · simp [GetCreationTime, h]
  · intro t; simp [SetCreationTime, h]
  · simp [GetLastAccessTime, h]
  · intro t; simp [SetLastAccessTime, h]
  · simp [GetLastWriteTime, h]
  · intro t; simp [SetLastWriteTime, h]
  · unfold CreateDirectory; simp only [call]; split <;> rfl
  · intro e; unfold CreateDirectory; simp only []; split
    · intro he; rw [← Except.error.inj he]; rfl
    · intro he; cases he
  · intro target
    refine ⟨by unfold CreateSymLink; simp only [call]; split <;> rfl, ?_⟩
    intro e; unfold CreateSymLink; simp only []; split
    · intro he; rw [← Except.error.inj he]; rfl
    · intro he; cases he
  · intro target
    refine ⟨by unfold CreateHardLink; simp only [call]; split <;> rfl, ?_⟩
    intro e; unfold CreateHardLink; simp only []; split
    · intro he; rw [← Except.error.inj he]; rfl
    · intro he; cases he
  · unfold GetMode; simp only [call]; split <;> rfl
  · intro e; unfold GetMode; simp only []; split
    · intro he; rw [← Except.error.inj he]; rfl
    · intro he; cases he
  · intro mode
    refine ⟨by unfold SetMode; simp only [call]; split <;> rfl, ?_⟩
    intro e; unfold SetMode; simp only []; split
    · intro he; rw [← Except.error.inj he]; rfl
    · intro he; cases he
  · unfold GetOwner; simp only [call]; split <;> rfl
  · intro e; unfold GetOwner; simp only []; split
    · intro he; rw [← Except.error.inj he]; rfl
    · intro he; cases he
  · intro uid gid
    refine ⟨by unfold SetOwner; simp only [call]; split <;> rfl, ?_⟩
    intro e; unfold SetOwner; simp only []; split
    · intro he; rw [← Except.error.inj he]; rfl
    · intro he; cases he

/-- C8 at the empty path, in the session mounted at `/1a2b/`: `DeleteFile("")` raises the
argument error without an engine call, `CreateDirectory("")` calls `ext4_dir_mk` on the
mount point and returns. -/
theorem empty_path_validation_witness :
    DeleteFile failingEngine (sessionOf "1a2b") (some "") ⟨(), []⟩ =
      (.error (argNull "path is null."), ⟨(), []⟩) ∧
    (CreateDirectory failingEngine (sessionOf "1a2b") (some "") ⟨(), []⟩).2.log =
      [.ext4_dir_mk (some ("/1a2b/" : Str))] ∧
    (CreateDirectory failingEngine (sessionOf "1a2b") (some "") ⟨(), []⟩).1 = .ok () :=
  ⟨(empty_path_validation failingEngine exactSeconds (sessionOf "1a2b") (some "") ⟨(), []⟩
      rfl).1.2.1,
    ((empty_path_validation failingEngine exactSeconds (sessionOf "1a2b") (some "") ⟨(), []⟩
      rfl).2.1).trans (by decide),
    by decide⟩

/-! ## Engine failures -/

theorem infix_message (before after : Str) (path : Str) :
    path <:+: before ++ nstr (some path) ++ after :=
  ⟨before, after, rfl⟩

theorem ioError_spec {α : Type} (before after path : Str) (r : Except Exn α)
    (h : r = .error (ioError before (some path) after)) :
    ∃ e, r = .error e ∧ e.kind = .IOException ∧ path <:+: e.message :=
  ⟨_, h, rfl, infix_message before after path⟩

/-- C9 (the code diverges from the claim): for a non-empty path, when the engine answers
a non-success status, `CreateDirectory`, `DeleteDirectory`, `DeleteFile`, `CreateSymLink`,
`CreateHardLink`, `GetMode`, `SetMode`, `GetOwner` and `SetOwner` raise an `IOException`
whose message contains the path; but each of the six timestamp operations raises an
`IOException` with a fixed message, which does not carry the path, and `Truncate`, once the
file has opened, returns normally whatever status `ext4_ftruncate` answers. -/
theorem engine_failure_translation {σ : Type} (E : Engine σ) (castSeconds : Int → Nat)
    (fs : ExtFileSystem) (path : Str) (w : World σ) (hp : path ≠ []) :
    ((E w.st (.ext4_dir_mk (CombinePaths (some fs.mountPoint) (some path)))).1.status ≠ EOK →
      ∃ e, (CreateDirectory E fs (some path) w).1 = .error e ∧ e.kind = .IOException ∧
        path <:+: e.message) ∧
    ((E w.st (.ext4_dir_rm (CombinePaths (some fs.mountPoint) (some path)))).1.status ≠ EOK →
      ∃ e, (DeleteDirectory E fs (some path) w).1 = .error e ∧ e.kind = .IOException ∧
        path <:+: e.message) ∧
    ((E w.st (.ext4_fremove (CombinePaths (some fs.mountPoint) (some path)))).1.status ≠ EOK →
      ∃ e, (DeleteFile E fs (some path) w).1 = .error e ∧ e.kind = .IOException ∧
        path <:+: e.message) ∧
    (∀ target, (E w.st (.ext4_fsymlink target
        (CombinePaths (some fs.mountPoint) (some path)))).1.status ≠ EOK →
      ∃ e, (CreateSymLink E fs target (some path) w).1 = .error e ∧ e.kind = .IOException ∧
        path <:+: e.message) ∧
    (∀ target, (E w.st (.ext4_flink (CombinePaths (some fs.mountPoint) target)
        (CombinePaths (some fs.mountPoint) (some path)))).1.status ≠ EOK →
      ∃ e, (CreateHardLink E fs target (some path) w).1 = .error e ∧ e.kind = .IOException ∧
        path <:+: e.message) ∧
    ((E w.st (.ext4_mode_get (CombinePaths (some fs.mountPoint) (some path)))).1.status ≠ EOK →
      ∃ e, (GetMode E fs (some path) w).1 = .error e ∧ e.kind = .IOException ∧
        path <:+: e.message) ∧
    (∀ mode, (E w.st (.ext4_mode_set (CombinePaths (some fs.mountPoint) (some path))
        mode)).1.status ≠ EOK →
      ∃ e, (SetMode E fs (some path) mode w).1 = .error e ∧ e.kind = .IOException ∧
        path <:+: e.message) ∧
    ((E w.st (.ext4_owner_get (CombinePaths (some fs.mountPoint) (some path)))).1.status ≠ EOK →
      ∃ e, (GetOwner E fs (some path) w).1 = .error e ∧ e.kind = .IOException ∧
        path <:+: e.message) ∧
    (∀ uid gid, (E w.st (.ext4_owner_set (CombinePaths (some fs.mountPoint) (some path))
        uid gid)).1.status ≠ EOK →
      ∃ e, (SetOwner E fs (some path) uid gid w).1 = .error e ∧ e.kind = .IOException ∧
        path <:+: e.message) ∧
    ((E w.st (.ext4_ctime_get (CombinePaths (some fs.mountPoint) (some path)))).1.status ≠ EOK →
      (GetCreationTime E fs (some path) w).1 =
        .error (.mk .IOException "Could not get last access time.")) ∧
    (∀ t, (E w.st (.ext4_ctime_set (CombinePaths (some fs.mountPoint) (some path))
        (secondsSince castSeconds t UnixEpoch))).1.status ≠ EOK →
      (SetCreationTime E castSeconds fs (some path) t w).1 =
        .error (.mk .IOException "Could not set creation time.")) ∧
    ((E w.st (.ext4_atime_get (CombinePaths (some fs.mountPoint) (some path)))).1.status ≠ EOK →
      (GetLastAccessTime E fs (some path) w).1 =
        .error (.mk .IOException "Could not get last access time.")) ∧
    (∀ t, (E w.st (.ext4_atime_set (CombinePaths (some fs.mountPoint) (some path))
        (secondsSince castSeconds t UnixEpoch))).1.status ≠ EOK →
      (SetLastAccessTime E castSeconds fs (some path) t w).1 =
        .error (.mk .IOException "Could not set last access time.")) ∧
    ((E w.st (.ext4_mtime_get (CombinePaths (some fs.mountPoint) (some path)))).1.status ≠ EOK →
      (GetLastWriteTime E fs (some path) w).1 =
        .error (.mk .IOException "Could not get last access time.")) ∧
    (∀ t, (E w.st (.ext4_mtime_set (CombinePaths (some fs.mountPoint) (some path))
        (secondsSince castSeconds t UnixEpoch))).1.status ≠ EOK →
      (SetLastWriteTime E castSeconds fs (some path) t w).1 =
        .error (.mk .IOException "Could not set last write time.")) ∧
    (∀ size, (FileExists E fs (some path) w).1 = .ok true →
      (E (FileExists E fs (some path) w).2.st
        (.ext4_fopen (CombinePaths (some fs.mountPoint) (some path)) "")).1.status = EOK →
      (Truncate E fs (some path) size w).1 = .ok ()) := by
  have n := IsNullOrEmpty_some path hp
  refine ⟨?_, ?_, ?_, ?_, ?_, ?_, ?_, ?_, ?_, ?_, ?_, ?_, ?_, ?_, ?_, ?_⟩
  · intro h
    exact ioError_spec _ _ _ _ (by simp only [CreateDirectory, call, h, ne_eq, not_false_eq_true, if_true]; rfl)
  · intro h
    exact ioError_spec _ _ _ _ (by simp only [DeleteDirectory, n, call, h, ne_eq, not_false_eq_true, if_true,
      Bool.false_eq_true, if_false]; rfl)
  · intro h
    exact ioError_spec _ _ _ _ (by simp only [DeleteFile, n, call, h, ne_eq, not_false_eq_true, if_true,
      Bool.false_eq_true, if_false]; rfl)
  · intro target h
    exact ioError_spec _ _ _ _ (by simp only [CreateSymLink, call, h, ne_eq, not_false_eq_true, if_true]; rfl)
  · intro target h
    exact ioError_spec _ _ _ _ (by simp only [CreateHardLink, call, h, ne_eq, not_false_eq_true, if_true]; rfl)
  · intro h
    exact ioError_spec _ _ _ _ (by simp only [GetMode, call, h, ne_eq, not_false_eq_true, if_true]; rfl)
  · intro mode h
    exact ioError_spec _ _ _ _ (by simp only [SetMode, call, h, ne_eq, not_false_eq_true, if_true]; rfl)
  · intro h
    exact ioError_spec _ _ _ _ (by simp only [GetOwner, call, h, ne_eq, not_false_eq_true, if_true]; rfl)
  · intro uid gid h
    exact ioError_spec _ _ _ _ (by simp only [SetOwner, call, h, ne_eq, not_false_eq_true, if_true]; rfl)
  · intro h
    simp only [GetCreationTime, n, call, h, ne_eq, not_false_eq_true, if_true,
      Bool.false_eq_true, if_false]
  · intro t h
    simp only [SetCreationTime, n, call, h, ne_eq, not_false_eq_true, if_true,
      Bool.false_eq_true, if_false]
  · intro h
    simp only [GetLastAccessTime, n, call, h, ne_eq, not_false_eq_true, if_true,
      Bool.false_eq_true, if_false]
  · intro t h
    simp only [SetLastAccessTime, n, call, h, ne_eq, not_false_eq_true, if_true,
      Bool.false_eq_true, if_false]
  · intro h
    simp only [GetLastWriteTime, n, call, h, ne_eq, not_false_eq_true, if_true,
      Bool.false_eq_true, if_false]
  · intro t h
    simp only [SetLastWriteTime, n, call, h, ne_eq, not_false_eq_true, if_true,
      Bool.false_eq_true, if_false]
  · intro size h1 h2
    unfold Truncate
    generalize hfe : FileExists E fs (some path) w = fe at h1 h2
    obtain ⟨r, w1⟩ := fe
    simp only at h1 h2
    subst h1
    simp only [call, h2, if_true]

/-- C9 at the path `/f`, over the engine on which truncation and the timestamps fail:
`GetCreationTime` raises a message without the path, and `Truncate` returns normally
although `ext4_ftruncate` answered `EIO`. -/
theorem engine_failure_translation_witness :
    (GetCreationTime failingEngine (sessionOf "1a2b") (some "/f") ⟨(), []⟩).1 =
      .error (.mk .IOException "Could not get last access time.") ∧
    ¬ (("/f" : Str) <:+: ("Could not get last access time." : Str)) ∧
    (failingEngine () (.ext4_ftruncate 1 0)).1.status = EIO ∧
    (Truncate failingEngine (sessionOf "1a2b") (some "/f") 0 ⟨(), []⟩).2.log =
      [.ext4_fopen (some ("/1a2b/f" : Str)) "rb", .ext4_fclose 1,
       .ext4_fopen (some ("/1a2b/f" : Str)) "", .ext4_ftruncate 1 0, .ext4_fclose 1] ∧
    (Truncate failingEngine (sessionOf "1a2b") (some "/f") 0 ⟨(), []⟩).1 = .ok () :=
  ⟨(engine_failure_translation failingEngine exactSeconds (sessionOf "1a2b") "/f" ⟨(), []⟩
      (by decide)).2.2.2.2.2.2.2.2.2.1 (by decide),
    by decide, by decide, by decide,
    (engine_failure_translation failingEngine exactSeconds (sessionOf "1a2b") "/f" ⟨(), []⟩
      (by decide)).2.2.2.2.2.2.2.2.2.2.2.2.2.2.2 0 (by decide) (by decide)⟩

/-! ## Copying onto an existing file -/

theorem FileExists_of_open {σ : Type} (E : Engine σ) (fs : ExtFileSystem) (path : Str)
    (w : World σ) (hp : path ≠ [])
    (h : (E w.st (.ext4_fopen (CombinePaths (some fs.mountPoint) (some path)) "rb")).1.status
      = EOK) :
    FileExists E fs (some path) w =
      (.ok true,
        ⟨(E (E w.st (.ext4_fopen (CombinePaths (some fs.mountPoint) (some path)) "rb")).2
            (.ext4_fclose
              (E w.st (.ext4_fopen (CombinePaths (some fs.mountPoint) (some path))
                "rb")).1.file)).2,
         w.log ++ [.ext4_fopen (CombinePaths (some fs.mountPoint) (some path)) "rb",
           .ext4_fclose (E w.st (.ext4_fopen (CombinePaths (some fs.mountPoint) (some path))
             "rb")).1.file]⟩) := by
  simp only [FileExists, IsNullOrEmpty_some path hp, call, h, Bool.false_eq_true, if_false,
    if_true, List.append_assoc, List.singleton_append]

/-- C10: when the source and the destination both exist (the engine opens each for
reading) and probing a file leaves the engine state as it was, `CopyFile(source,
destination, false)` raises the `IOException` "File exists '<destination>'." and leaves
the engine state unchanged: the only engine calls are the two probes, each an open for
reading followed by its close; nothing is removed, opened for writing or written. -/
theorem CopyFile_existing_destination {σ : Type} (E : Engine σ) (fs : ExtFileSystem)
    (fuel : Nat) (sourceFile destinationFile : Str) (w : World σ)
    (hs : sourceFile ≠ []) (hd : destinationFile ≠ [])
    (hprobe : ∀ s p, (E (E s (.ext4_fopen p "rb")).2
      (.ext4_fclose (E s (.ext4_fopen p "rb")).1.file)).2 = s)
    (hsrc : (E w.st (.ext4_fopen (CombinePaths (some fs.mountPoint) (some sourceFile))
      "rb")).1.status = EOK)
    (hdst : (E w.st (.ext4_fopen (CombinePaths (some fs.mountPoint) (some destinationFile))
      "rb")).1.status = EOK) :
    ∃ w1, CopyFile E fs fuel (some sourceFile) (some destinationFile) false w =
        some (.error (.mk .IOException ("File exists '" ++ destinationFile ++ "'.")), w1) ∧
      w1.st = w.st ∧
      w1.log = w.log ++
        [.ext4_fopen (CombinePaths (some fs.mountPoint) (some sourceFile)) "rb",
         .ext4_fclose (E w.st (.ext4_fopen (CombinePaths (some fs.mountPoint)
           (some sourceFile)) "rb")).1.file,
         .ext4_fopen (CombinePaths (some fs.mountPoint) (some destinationFile)) "rb",
         .ext4_fclose (E w.st (.ext4_fopen (CombinePaths (some fs.mountPoint)
           (some destinationFile)) "rb")).1.file] := by
  have e1 := FileExists_of_open E fs sourceFile w hs hsrc
  rw [hprobe] at e1
  have e2 := FileExists_of_open E fs destinationFile
    ⟨w.st, w.log ++ [.ext4_fopen (CombinePaths (some fs.mountPoint) (some sourceFile)) "rb",
      .ext4_fclose (E w.st (.ext4_fopen (CombinePaths (some fs.mountPoint)
        (some sourceFile)) "rb")).1.file]⟩ hd hdst
  rw [hprobe] at e2
  simp only [List.append_assoc, List.cons_append, List.nil_append] at e2
  refine ⟨⟨w.st, w.log ++
        [.ext4_fopen (CombinePaths (some fs.mountPoint) (some sourceFile)) "rb",
         .ext4_fclose (E w.st (.ext4_fopen (CombinePaths (some fs.mountPoint)
           (some sourceFile)) "rb")).1.file,
         .ext4_fopen (CombinePaths (some fs.mountPoint) (some destinationFile)) "rb",
         .ext4_fclose (E w.st (.ext4_fopen (CombinePaths (some fs.mountPoint)
           (some destinationFile)) "rb")).1.file]⟩, ?_, rfl, rfl⟩
  unfold CopyFile
  simp only [IsNullOrEmpty_some _ hs, IsNullOrEmpty_some _ hd, Bool.or_self,
    Bool.false_eq_true, if_false, e1, e2, Bool.not_false, if_true]
  rfl

/-- C10 over a volume that holds `/a` with the bytes 1, 2 and `/b` with the byte 9,
mounted at `/1a2b/`: `CopyFile("/a", "/b", false)` raises "File exists '/b'." and the
volume is as before. -/
theorem CopyFile_existing_destination_witness :
    ∃ w1, CopyFile fileEngine (sessionOf "1a2b") 1 (some "/a") (some "/b") false
        ⟨[(some ("/1a2b/a" : Str), [1, 2]), (some ("/1a2b/b" : Str), [9])], []⟩ =
        some (.error (.mk .IOException ("File exists '/b'." : Str)), w1) ∧
      w1.st = [(some ("/1a2b/a" : Str), [1, 2]), (some ("/1a2b/b" : Str), [9])] ∧
      w1.log = [.ext4_fopen (some ("/1a2b/a" : Str)) "rb", .ext4_fclose 1,
         .ext4_fopen (some ("/1a2b/b" : Str)) "rb", .ext4_fclose 1] :=
  match CopyFile_existing_destination fileEngine (sessionOf "1a2b") 1 "/a" "/b"
      ⟨[(some ("/1a2b/a" : Str), [1, 2]), (some ("/1a2b/b" : Str), [9])], []⟩
      (by decide) (by decide)
      (by
        intro s p
        simp only [fileEngine]
        split <;> rfl)
      (by decide) (by decide) with
  | ⟨w1, h1, h2, h3⟩ => ⟨w1, h1, h2, h3.trans (by decide)⟩

/-! ## The lifecycle of a session -/

/-- C11: a second `Close` is a no-op.  `Close` raises nothing (it has no failing path),
and for every session, engine and world, closing the closed session returns the very
session and world the first `Close` left: the state is unchanged and the log of engine
calls gains nothing, so no device is unregistered again. -/
theorem Close_twice {σ : Type} (E : Engine σ) (fs : ExtFileSystem) (w : World σ) :
    ExtFileSystem.Close E (ExtFileSystem.Close E fs w).1 (ExtFileSystem.Close E fs w).2 =
      ExtFileSystem.Close E fs w ∧
    (ExtFileSystem.Close E fs w).1.disposed = true ∧
    (ExtFileSystem.Close E (ExtFileSystem.Close E fs w).1 (ExtFileSystem.Close E fs w).2).2.log =
      (ExtFileSystem.Close E fs w).2.log := by
  have hd : (ExtFileSystem.Close E fs w).1.disposed = true := by
    unfold ExtFileSystem.Close ExtFileSystem.CleanUp
    by_cases h : fs.disposed = true
    · simp [h]
    · simp [h]
  have h2 : ExtFileSystem.Close E (ExtFileSystem.Close E fs w).1 (ExtFileSystem.Close E fs w).2 =
      ExtFileSystem.Close E fs w := by
    generalize ExtFileSystem.Close E fs w = r at hd
    unfold ExtFileSystem.Close ExtFileSystem.CleanUp
    simp [hd]
  exact ⟨h2, hd, by rw [h2]⟩

theorem Open_openedSession :
    ExtFileSystem.Open (registryEngine EOK) 0x1a2b (some scannedDisk)
        (some ⟨1048576, 536870912⟩) ⟨[], []⟩ =
      (.ok (some openedSession),
        ⟨["1a2b"], [.ext4_block_init, .ext4_device_register "1a2b",
          .ext4_mount "1a2b" (some "/1a2b/") false]⟩) := by
  rfl

/-- C12 (the code diverges from the claim): for an open session over a bound disk,
`Close` issues no unmount and no unregister, only the `ext4_block_fini` of the disk it
deletes; disposal issues the unmount, the unregister and the finalize, in that order, but
every time it is invoked, so a second disposal repeats all three; and disposal after
`Close` unmounts, unregisters a null device name and then faults on the null disk. -/
theorem teardown_calls {σ : Type} (E : Engine σ) (fs : ExtFileSystem) (disk : ExtDisk)
    (bd : ext4_blockdev) (w : World σ)
    (hd : fs.disposed = false) (hdisk : fs.disk = some disk) (hbd : disk.bd = some bd) :
    (ExtFileSystem.Close E fs w).2.log = w.log ++ [.ext4_block_fini] ∧
    (ExtFileSystem.Dispose E fs w).1 = .ok () ∧
    (ExtFileSystem.Dispose E fs w).2.log =
      w.log ++ [.ext4_umount (some fs.mountPoint), .ext4_device_unregister fs.devName,
        .ext4_block_fini] ∧
    (ExtFileSystem.Dispose E fs (ExtFileSystem.Dispose E fs w).2).2.log =
      w.log ++ [.ext4_umount (some fs.mountPoint), .ext4_device_unregister fs.devName,
        .ext4_block_fini, .ext4_umount (some fs.mountPoint),
        .ext4_device_unregister fs.devName, .ext4_block_fini] ∧
    (ExtFileSystem.Dispose E (ExtFileSystem.Close E fs w).1 (ExtFileSystem.Close E fs w).2).1 =
      .error (.mk .NullReferenceException "") ∧
    (ExtFileSystem.Dispose E (ExtFileSystem.Close E fs w).1
        (ExtFileSystem.Close E fs w).2).2.log =
      w.log ++ [.ext4_block_fini, .ext4_umount (some fs.mountPoint),
        .ext4_device_unregister none] := by
  have hc : ExtFileSystem.Close E fs w =
      ({ fs with disk := none, devName := none, disposed := true },
        (call E .ext4_block_fini w).2) := by
    simp [ExtFileSystem.Close, ExtFileSystem.CleanUp, ExtFileSystem.finalizer, hd, hdisk,
      ExtDisk.destroy, hbd]
  refine ⟨?_, ?_, ?_, ?_, ?_, ?_⟩
  · rw [hc]; rfl
  · simp [ExtFileSystem.Dispose, hdisk]
  · simp [ExtFileSystem.Dispose, hdisk, call]
  · simp [ExtFileSystem.Dispose, hdisk, call]
  · rw [hc]; simp [ExtFileSystem.Dispose]
  · rw [hc]; simp [ExtFileSystem.Dispose, call]

/-- C12 at the session opened on the reference engine: `Close` leaves the device name
`1a2b` registered and issues only `ext4_block_fini`. -/
theorem teardown_calls_witness :
    (ExtFileSystem.Close (registryEngine EOK) openedSession ⟨["1a2b"], []⟩).2.log =
      [.ext4_block_fini] ∧
    (ExtFileSystem.Close (registryEngine EOK) openedSession ⟨["1a2b"], []⟩).2.st = ["1a2b"] ∧
    (ExtFileSystem.Dispose (registryEngine EOK) openedSession
      (ExtFileSystem.Dispose (registryEngine EOK) openedSession ⟨["1a2b"], []⟩).2).2.log =
      [.ext4_umount (some "/1a2b/"), .ext4_device_unregister (some "1a2b"), .ext4_block_fini,
       .ext4_umount (some "/1a2b/"), .ext4_device_unregister (some "1a2b"),
       .ext4_block_fini] :=
  ⟨(teardown_calls (registryEngine EOK) openedSession _ _ ⟨["1a2b"], []⟩ rfl rfl rfl).1,
    by decide,
    (teardown_calls (registryEngine EOK) openedSession _ _ ⟨["1a2b"], []⟩ rfl rfl rfl).2.2.2.1⟩

/-- C13: over an engine whose registry of device names obeys the contract (a failed
registration, `ext4_block_init` and `ext4_mount` leave it as it is, a successful
registration adds a name that was not registered, `ext4_device_unregister` removes the
name), for every disk and partition, when the registration or the mount fails, `Open`
raises an `IOException` and the registered names after the call are those before it. -/
theorem Open_failure_keeps_registry {σ : Type} (E : Engine σ) (registered : σ → Set Str)
    (rand : Nat) (disk : ExtDisk) (partition : Partition) (w : World σ)
    (hinit : ∀ s, registered (E s .ext4_block_init).2 = registered s)
    (hmount : ∀ s n mp ro, registered (E s (.ext4_mount n mp ro)).2 = registered s)
    (hfail : ∀ s n, (E s (.ext4_device_register n)).1.status ≠ EOK →
      registered (E s (.ext4_device_register n)).2 = registered s)
    (hreg : ∀ s n, (E s (.ext4_device_register n)).1.status = EOK →
      n ∉ registered s ∧ registered (E s (.ext4_device_register n)).2 = insert n (registered s))
    (hunreg : ∀ s n, registered (E s (.ext4_device_unregister (some n))).2 =
      registered s \ {n})
    (h : (E (E w.st .ext4_block_init).2 (.ext4_device_register (hex rand))).1.status ≠ EOK ∨
      (E (E (E w.st .ext4_block_init).2 (.ext4_device_register (hex rand))).2
        (.ext4_mount (hex rand) (some ("/" ++ hex rand ++ "/")) false)).1.status ≠ EOK) :
    ∃ e, (ExtFileSystem.Open E rand (some disk) (some partition) w).1 = .error e ∧
      e.kind = .IOException ∧
      registered (ExtFileSystem.Open E rand (some disk) (some partition) w).2.st =
        registered w.st := by
  unfold ExtFileSystem.Open
  simp only [call]
  cases hb : disk.bd with
  | none => exact ⟨_, rfl, rfl, hinit _⟩
  | some bd =>
    simp only []
    by_cases h1 : (E (E w.st .ext4_block_init).2 (.ext4_device_register (hex rand))).1.status = EOK
    · have h2 := h.resolve_left (not_not.mpr h1)
      simp only [h1, h2, if_true, if_false]
      refine ⟨_, rfl, rfl, ?_⟩
      obtain ⟨hn, hi⟩ := hreg _ _ h1
      show registered (E _ (.ext4_device_unregister (some (hex rand)))).2 = _
      rw [hunreg, hmount, hi, hinit] at *
      ext x
      simp only [Set.mem_diff, Set.mem_insert_iff, Set.mem_singleton_iff]
      constructor
      · rintro ⟨h3 | h3, h4⟩
        · exact absurd h3 h4
        · exact h3
      · intro h3
        exact ⟨Or.inr h3, fun h4 => hn (h4 ▸ h3)⟩
    · simp only [h1, if_false]
      exact ⟨_, rfl, rfl, (hfail _ _ h1).trans (hinit _)⟩

/-- C13 on the reference engine whose mount fails with `EIO`, with the name `beef`
registered before the call: `Open` raises an `IOException` and `beef` is again the only
registered name. -/
theorem Open_failure_keeps_registry_witness :
    ∃ e, (ExtFileSystem.Open (registryEngine EIO) 0x1a2b (some scannedDisk)
        (some ⟨1048576, 536870912⟩) ⟨["beef"], []⟩).1 = .error e ∧
      e.kind = .IOException ∧
      {n | n ∈ (ExtFileSystem.Open (registryEngine EIO) 0x1a2b (some scannedDisk)
        (some ⟨1048576, 536870912⟩) ⟨["beef"], []⟩).2.st} = {n | n ∈ (["beef"] : List Str)} :=
  Open_failure_keeps_registry (registryEngine EIO) (fun s => {n | n ∈ s}) 0x1a2b scannedDisk
    ⟨1048576, 536870912⟩ ⟨["beef"], []⟩
    (fun _ => rfl) (fun _ _ _ _ => rfl)
    (by
      intro s n h
      by_cases hn : n ∈ s
      · simp [registryEngine, hn]
      · simp [registryEngine, hn, EOK] at h)
    (by
      intro s n h
      by_cases hn : n ∈ s
      · simp [registryEngine, hn, EOK, EEXIST] at h
      · refine ⟨hn, ?_⟩
        simp only [registryEngine, hn, if_false]
        ext x
        simp)
    (by
      intro s n
      simp only [registryEngine]
      ext x
      simp)
    (Or.inr (by decide))

/-! ## Searching -/

theorem GetDirectory_failure {σ : Type} (E : Engine σ) (fs : ExtFileSystem) (path : Option Str)
    (w : World σ)
    (h : (E w.st (.ext4_dir_open (CombinePaths (some fs.mountPoint) path))).1.status ≠ EOK) :
    GetDirectory E fs path w =
      (.error (.mk .IOException "Failed to open directory"),
        (call E (.ext4_dir_open (CombinePaths (some fs.mountPoint) path)) w).2) := by
  simp only [GetDirectory, call, h, ne_eq, not_false_eq_true, if_true]

theorem DoSearch_root_failure {σ : Type} (E : Engine σ) (fs : ExtFileSystem) (regex : Regex)
    (subFolders dirs files : Bool) (fuel : Nat) (results : List (Option Str))
    (path : Option Str) (w : World σ) (hd : fs.disposed = false)
    (h : (E w.st (.ext4_dir_open (CombinePaths (some fs.mountPoint) path))).1.status ≠ EOK) :
    DoSearch E fs regex subFolders dirs files (fuel + 1) results path w =
      some (.error (.wrap .IOException "Failed to search directory"
          (.mk .IOException "Failed to open directory")), results,
        (call E (.ext4_dir_open (CombinePaths (some fs.mountPoint) path)) w).2) := by
  rw [DoSearch]
  simp only [hd, Bool.false_eq_true, if_false, GetDirectory_failure E fs path w h]

/-- C14 (the code diverges from the claim): on an open session, for every valid pattern,
either search option and every search root that the engine does not open as a directory,
`GetFiles` and `GetDirectories` raise a plain `IOException` ("Failed to get files",
"Failed to get directories") that wraps the `IOException` of `DoSearch`, which wraps the
`IOException` of `GetDirectory`: no exception of the chain is a
`DirectoryNotFoundException`. -/
theorem search_root_failure {σ : Type} (E : Engine σ) (fold : Char → Char)
    (fs : ExtFileSystem) (fuel : Nat) (path : Str) (searchPattern : Option Str)
    (regex : Regex) (searchOption : SearchOption) (w : World σ)
    (hd : fs.disposed = false)
    (hre : ConvertWildcardsToRegEx fold searchPattern = .ok regex)
    (h : (E w.st (.ext4_dir_open (CombinePaths (some fs.mountPoint)
      (some (if !StartsWith path "/" then "/" ++ path else path))))).1.status ≠ EOK) :
    (GetFiles E fold fs (fuel + 1) (some path) searchPattern searchOption w).map (·.1) =
      some (.error (.wrap .IOException "Failed to get files"
        (.wrap .IOException "Failed to search directory"
          (.mk .IOException "Failed to open directory")))) ∧
    (GetDirectories E fold fs (fuel + 1) (some path) searchPattern searchOption w).map (·.1) =
      some (.error (.wrap .IOException "Failed to get directories"
        (.wrap .IOException "Failed to search directory"
          (.mk .IOException "Failed to open directory")))) := by
  constructor
  · unfold GetFiles searchBody
    rw [hre]
    simp only [hd, Bool.false_eq_true, if_false, DoSearch_root_failure E fs regex _ _ _ fuel []
      _ w hd h]
    rfl
  · unfold GetDirectories searchBody
    rw [hre]
    simp only [hd, Bool.false_eq_true, if_false, DoSearch_root_failure E fs regex _ _ _ fuel []
      _ w hd h]
    rfl

/-- C14 at the root `/missing` of the scenario volume mounted at `/1a2b/`. -/
theorem search_root_failure_witness :
    (GetFiles (searchScenario "1a2b") Char.toLower (sessionOf "1a2b") 1 (some "/missing")
        (some "*") .TopDirectoryOnly ⟨(), []⟩).map (·.1) =
      some (.error (.wrap .IOException "Failed to get files"
        (.wrap .IOException "Failed to search directory"
          (.mk .IOException "Failed to open directory")))) ∧
    (GetDirectories (searchScenario "1a2b") Char.toLower (sessionOf "1a2b") 1 (some "/missing")
        (some "*") .TopDirectoryOnly ⟨(), []⟩).map (·.1) =
      some (.error (.wrap .IOException "Failed to get directories"
        (.wrap .IOException "Failed to search directory"
          (.mk .IOException "Failed to open directory")))) :=
  search_root_failure (searchScenario "1a2b") Char.toLower (sessionOf "1a2b") 0 "/missing"
    (some "*") ⟨Char.toLower, [.any true, .any true]⟩ .TopDirectoryOnly ⟨(), []⟩
    rfl rfl (by decide)

/-! ## Resolved paths -/

/-- C16: for a mount point `/<deviceName>/` with a non-empty device name without `/`, and
every path `p` of the caller (empty, relative, or with leading separators,
`p = "/"^j ++ p0` with `p0` not starting with `/`), `CombinePaths(mountPoint, p)` is the
mount point followed by `p0`, and so starts with the mount point. -/
theorem CombinePaths_mountPoint_prefix (deviceName p : Str) (h1 : deviceName ≠ [])
    (h2 : '/' ∉ deviceName) :
    ∃ (j : Nat) (p0 : Str), p = List.replicate j '/' ++ p0 ∧ p0.head? ≠ some '/' ∧
      CombinePaths (some ("/" ++ deviceName ++ "/")) (some p) =
        some ("/" ++ deviceName ++ "/" ++ p0) ∧
      ("/" ++ deviceName ++ "/" : Str) <+: ("/" ++ deviceName ++ "/" ++ p0 : Str) := by
  obtain ⟨j, hj1, hj2⟩ := TrimStart_decomp '/' p
  refine ⟨j, TrimStart '/' p, hj1, hj2, ?_, List.prefix_append _ _⟩
  have e : (("/" : Str) ++ deviceName ++ ("/" : Str)) = '/' :: (deviceName ++ ['/']) := rfl
  rw [e]
  cases p with
  | nil => simp [CombinePaths, IsNullOrEmpty, TrimStart]
  | cons x p =>
    rw [CombinePaths_mountPoint deviceName (x :: p) h1 h2 (by simp)]
    simp

/-- C16 at the mount point `/1a2b/` and the path `//etc/hosts`. -/
theorem CombinePaths_mountPoint_prefix_witness :
    ∃ (j : Nat) (p0 : Str), ("//etc/hosts" : Str) = List.replicate j '/' ++ p0 ∧
      p0.head? ≠ some '/' ∧
      CombinePaths (some ("/" ++ ("1a2b" : Str) ++ "/")) (some ("//etc/hosts" : Str)) =
        some ("/" ++ ("1a2b" : Str) ++ "/" ++ p0) ∧
      ("/" ++ ("1a2b" : Str) ++ "/" : Str) <+: ("/" ++ ("1a2b" : Str) ++ "/" ++ p0 : Str) :=
  CombinePaths_mountPoint_prefix "1a2b" "//etc/hosts" (by decide) (by decide)

/-! ## Truncation -/

theorem Truncate_handles_nonempty {σ : Type} (E : Engine σ) (fs : ExtFileSystem) (path : Str)
    (size : Nat) (w : World σ) (hp : path ≠ []) :
    ((FileExists E fs (some path) w).1 = .ok false →
      (Truncate E fs (some path) size w).1 =
        .error (.mk .FileNotFoundException ("Could not find file '" ++ path ++ "'.")) ∧
      (Truncate E fs (some path) size w).2.log =
        w.log ++ [.ext4_fopen (CombinePaths (some fs.mountPoint) (some path)) "rb"]) ∧
    ((FileExists E fs (some path) w).1 = .ok true →
      (E (FileExists E fs (some path) w).2.st
        (.ext4_fopen (CombinePaths (some fs.mountPoint) (some path)) "")).1.status ≠ EOK →
      (Truncate E fs (some path) size w).1 =
        .error (.mk .IOException ("Could not open file '" ++ path ++ "'.")) ∧
      (Truncate E fs (some path) size w).2.log =
        w.log ++ [.ext4_fopen (CombinePaths (some fs.mountPoint) (some path)) "rb",
          .ext4_fclose (E w.st
            (.ext4_fopen (CombinePaths (some fs.mountPoint) (some path)) "rb")).1.file,
          .ext4_fopen (CombinePaths (some fs.mountPoint) (some path)) ""]) ∧
    ((FileExists E fs (some path) w).1 = .ok true →
      (E (FileExists E fs (some path) w).2.st
        (.ext4_fopen (CombinePaths (some fs.mountPoint) (some path)) "")).1.status = EOK →
      (Truncate E fs (some path) size w).1 = .ok () ∧
      (Truncate E fs (some path) size w).2.log =
        w.log ++ [.ext4_fopen (CombinePaths (some fs.mountPoint) (some path)) "rb",
          .ext4_fclose (E w.st
            (.ext4_fopen (CombinePaths (some fs.mountPoint) (some path)) "rb")).1.file,
          .ext4_fopen (CombinePaths (some fs.mountPoint) (some path)) "",
          .ext4_ftruncate (E (FileExists E fs (some path) w).2.st
            (.ext4_fopen (CombinePaths (some fs.mountPoint) (some path)) "")).1.file size,
          .ext4_fclose (E (FileExists E fs (some path) w).2.st
            (.ext4_fopen (CombinePaths (some fs.mountPoint) (some path)) "")).1.file]) := by
  have n := IsNullOrEmpty_some path hp
  by_cases ho : (E w.st (.ext4_fopen (CombinePaths (some fs.mountPoint) (some path))
      "rb")).1.status = EOK
  · have fe := FileExists_of_open E fs path w hp ho
    refine ⟨?_, ?_, ?_⟩
    · intro h; rw [fe] at h; cases h
    · intro _ h2
      rw [fe] at h2
      simp only at h2
      unfold Truncate
      rw [fe]
      simp only [call, h2, if_false]
      exact ⟨rfl, by simp only [List.append_assoc, List.cons_append, List.nil_append]⟩
    · intro _ h2
      rw [fe] at h2 ⊢
      simp only at h2
      unfold Truncate
      rw [fe]
      simp only [call, h2, if_true]
      exact ⟨trivial, by simp only [List.append_assoc, List.cons_append, List.nil_append]⟩
  · have fe : FileExists E fs (some path) w =
        (.ok false, (call E (.ext4_fopen (CombinePaths (some fs.mountPoint) (some path))
          "rb") w).2) := by
      simp only [FileExists, n, call, ho, Bool.false_eq_true, if_false]
    refine ⟨?_, ?_, ?_⟩
    · intro _
      unfold Truncate
      rw [fe]
      exact ⟨rfl, rfl⟩
    · intro h; rw [fe] at h; cases h
    · intro h; rw [fe] at h; cases h


/-- C18: for every path and size, when the target is not an existing file (`FileExists`
answers false), `Truncate` raises `FileNotFoundException`, and its only engine call is the
failed open of the probe:
no truncate is issued and no handle is open.  When the target exists, the handle of the
probe is closed at once; if the second open fails, `Truncate` raises an `IOException` with
no further handle open; if it succeeds, `Truncate` issues the truncate and then closes that
handle, once, and returns, whatever status the truncate answers. -/
theorem Truncate_handles {σ : Type} (E : Engine σ) (fs : ExtFileSystem)
    (path : Option Str) (size : Nat) (w : World σ) :
    ((FileExists E fs path w).1 = .ok false →
      (Truncate E fs path size w).1 =
        .error (.mk .FileNotFoundException ("Could not find file '" ++ nstr path ++ "'.")) ∧
      (Truncate E fs path size w).2.log =
        w.log ++ [.ext4_fopen (CombinePaths (some fs.mountPoint) path) "rb"]) ∧
    ((FileExists E fs path w).1 = .ok true →
      (E (FileExists E fs path w).2.st
        (.ext4_fopen (CombinePaths (some fs.mountPoint) path) "")).1.status ≠ EOK →
      (Truncate E fs path size w).1 =
        .error (.mk .IOException ("Could not open file '" ++ nstr path ++ "'.")) ∧
      (Truncate E fs path size w).2.log =
        w.log ++ [.ext4_fopen (CombinePaths (some fs.mountPoint) path) "rb",
          .ext4_fclose (E w.st
            (.ext4_fopen (CombinePaths (some fs.mountPoint) path) "rb")).1.file,
          .ext4_fopen (CombinePaths (some fs.mountPoint) path) ""]) ∧
    ((FileExists E fs path w).1 = .ok true →
      (E (FileExists E fs path w).2.st
        (.ext4_fopen (CombinePaths (some fs.mountPoint) path) "")).1.status = EOK →
      (Truncate E fs path size w).1 = .ok () ∧
      (Truncate E fs path size w).2.log =
        w.log ++ [.ext4_fopen (CombinePaths (some fs.mountPoint) path) "rb",
          .ext4_fclose (E w.st
            (.ext4_fopen (CombinePaths (some fs.mountPoint) path) "rb")).1.file,
          .ext4_fopen (CombinePaths (some fs.mountPoint) path) "",
          .ext4_ftruncate (E (FileExists E fs path w).2.st
            (.ext4_fopen (CombinePaths (some fs.mountPoint) path) "")).1.file size,
          .ext4_fclose (E (FileExists E fs path w).2.st
            (.ext4_fopen (CombinePaths (some fs.mountPoint) path) "")).1.file]) := by
  by_cases hn : IsNullOrEmpty path = true
  · have fe : (FileExists E fs path w).1 = .error (argNull "path is null.") := by
      simp [FileExists, hn]
    refine ⟨?_, ?_, ?_⟩ <;> intro h <;> rw [fe] at h <;> cases h
  · cases path with
    | none => exact absurd rfl hn
    | some p =>
      have hp : p ≠ [] := by
        rintro rfl
        exact hn rfl
      exact Truncate_handles_nonempty E fs p size w hp

/-- C18 at the file `/f` over the engine on which truncation fails: both handles are
closed and `Truncate` returns. -/
theorem Truncate_handles_witness :
    (Truncate failingEngine (sessionOf "1a2b") (some "/f") 7 ⟨(), []⟩).1 = .ok () ∧
    (Truncate failingEngine (sessionOf "1a2b") (some "/f") 7 ⟨(), []⟩).2.log =
      [.ext4_fopen (some ("/1a2b/f" : Str)) "rb", .ext4_fclose 1,
       .ext4_fopen (some ("/1a2b/f" : Str)) "", .ext4_ftruncate 1 7, .ext4_fclose 1] :=
  match (Truncate_handles failingEngine (sessionOf "1a2b") (some "/f") 7 ⟨(), []⟩).2.2
      (by decide) (by decide) with
  | ⟨h1, h2⟩ => ⟨h1, h2.trans (by decide)⟩

/-! ## The scratch buffer of `GetDirectory` -/

/-- C19 (the code diverges from the claim): for an entry with a name length `n` from 1
to 255, the highest index `GetDirectory` writes is `n`, the index of the terminator, so
all written indices are at most 254 exactly when `n` is at most 254: for a name of 255
bytes the terminator is written at index 255, one past the end of the 255-byte buffer. -/
theorem sssWrites_bound (de : ext4_direntry) (h1 : 1 ≤ de.name_length)
    (h2 : de.name_length ≤ 255) :
    de.name_length ∈ sssWrites de ∧
    (∀ i ∈ sssWrites de, i ≤ de.name_length) ∧
    ((∀ i ∈ sssWrites de, i ≤ 254) ↔ de.name_length ≤ 254) ∧
    (de.name_length = 255 → ∃ i ∈ sssWrites de, ¬ i < sssSize) := by
  have hw : sssWrites de = List.range de.name_length ++ [de.name_length] := by
    simp only [sssWrites]
    rw [if_pos (by omega)]
  have hmem : ∀ i, i ∈ sssWrites de ↔ i ≤ de.name_length := by
    intro i
    rw [hw]
    simp only [List.mem_append, List.mem_range, List.mem_singleton]
    omega
  refine ⟨(hmem _).mpr le_rfl, fun i hi => (hmem i).mp hi, ?_, ?_⟩
  · constructor
    · intro h
      exact h _ ((hmem _).mpr le_rfl)
    · intro h i hi
      exact le_trans ((hmem i).mp hi) h
  · intro h
    exact ⟨de.name_length, (hmem _).mpr le_rfl, by simp [sssSize, h]⟩

/-- C19 at an entry whose name is 255 bytes long: index 255 is written. -/
theorem sssWrites_bound_witness :
    ∃ i ∈ sssWrites (ext4_direntry.mk 255 (List.replicate 255 'a') 1 264), ¬ i < sssSize :=
  (sssWrites_bound (ext4_direntry.mk 255 (List.replicate 255 'a') 1 264) (by decide)
    (by decide)).2.2.2 rfl

/-! ## The result paths of a search -/

theorem resultPrefix_ok (mountPoint path : Str) (h : mountPoint ≠ []) :
    resultPrefix mountPoint path =
      .ok (if mountPoint.length ≤ path.length then path.drop (mountPoint.length - 1)
        else "/") := by
  have hl : 0 < mountPoint.length := List.length_pos.mpr h
  unfold resultPrefix Substring
  by_cases hle : mountPoint.length ≤ path.length
  · simp only [hle, if_true]
    have e : (mountPoint.length : Int) - 1 = ((mountPoint.length - 1 : Nat) : Int) := by omega
    rw [e]
    have : ¬ (((mountPoint.length - 1 : Nat) : Int) < 0 ∨
        (path.length : Int) < ((mountPoint.length - 1 : Nat) : Int)) := by omega
    rw [if_neg this]
    simp
  · simp only [hle, if_false]

theorem emitted_eq_rule (mountPoint path name : Str) :
    emitted (if mountPoint.length ≤ path.length then path.drop (mountPoint.length - 1)
      else "/") name = emittedRule mountPoint path name := by
  unfold emitted emittedRule
  by_cases hle : mountPoint.length ≤ path.length
  · simp only [hle, if_true]
    by_cases h2 : path.drop (mountPoint.length - 1) = ("/" : Str)
    · simp only [h2, if_true]
    · simp only [h2, if_false]
  · simp only [hle, if_false, if_true]

theorem searchLoop_level {σ : Type}
    (recurse : List (Option Str) → Option Str → World σ →
      Option (Except Exn Unit × List (Option Str) × World σ))
    (regex : Regex) (subFolders dirs files : Bool) (path : Option Str) (pre : Str)
    (hrec : ∀ results p w x, recurse results p w = some x → results <+: x.2.1) :
    ∀ (entries : List ExtDirEntry) (results : List (Option Str)) (w : World σ)
      (rs : List (Option Str)) (w1 : World σ),
      searchLoop recurse regex subFolders dirs files path pre entries results w = some (rs, w1) →
        ∃ X, rs = results ++ X ∧
          List.Sublist
            ((entries.filter (selected regex dirs files)).map fun de => emitted pre de.Name)
            X := by
  intro entries
  induction entries with
  | nil =>
    intro results w rs w1 h
    simp only [searchLoop, Option.some.injEq, Prod.mk.injEq] at h
    exact ⟨[], by simp [h.1], by simp⟩
  | cons de rest ih =>
    intro results w rs w1 h
    rw [searchLoop] at h
    by_cases he : EndsWith de.Name "." = true
    · simp only [he, if_true] at h
      obtain ⟨X, h1, h2⟩ := ih results w rs w1 h
      refine ⟨X, h1, ?_⟩
      have hsel : selected regex dirs files de = false := by
        simp only [selected, he, Bool.not_true, Bool.false_and]
      simp only [List.filter_cons, hsel, Bool.false_eq_true, if_false]
      exact h2
    · have he' : EndsWith de.Name "." = false := by simpa using he
      simp only [he', Bool.false_eq_true, if_false] at h
      by_cases hm : ((((de.Typ == EntryType.DIR) && dirs) ||
          (!(de.Typ == EntryType.DIR) && files)) && regex.IsMatch de.Name) = true
      · have hsel : selected regex dirs files de = true := by
          simp only [selected, he', Bool.not_false, Bool.true_and]
          exact hm
        simp only [hm, if_true] at h
        by_cases hs : (subFolders && (de.Typ == EntryType.DIR)) = true
        · simp only [hs, if_true] at h
          cases hr : recurse (results ++ [emitted pre de.Name])
              (CombinePaths path (some de.Name)) w with
          | none => simp [hr] at h
          | some x =>
            obtain ⟨r, rs', w'⟩ := x
            simp only [hr] at h
            obtain ⟨Y, hY⟩ := hrec _ _ _ _ hr
            obtain ⟨X, h1, h2⟩ := ih rs' w' rs w1 h
            simp only at hY
            refine ⟨emitted pre de.Name :: (Y ++ X), ?_, ?_⟩
            · rw [h1, ← hY]; simp
            · simp only [List.filter_cons, hsel, if_true, List.map_cons]
              exact List.Sublist.cons₂ _ (List.Sublist.trans h2 (List.sublist_append_right _ _))
        · simp only [hs, Bool.false_eq_true, if_false] at h
          obtain ⟨X, h1, h2⟩ := ih _ w rs w1 h
          refine ⟨emitted pre de.Name :: X, ?_, ?_⟩
          · rw [h1]; simp
          · simp only [List.filter_cons, hsel, if_true, List.map_cons]
            exact List.Sublist.cons₂ _ h2
      · have hsel : selected regex dirs files de = false := by
          simp only [selected, he', Bool.not_false, Bool.true_and]
          exact Bool.eq_false_iff.mpr hm
        simp only [hm, Bool.false_eq_true, if_false] at h
        by_cases hs : (subFolders && (de.Typ == EntryType.DIR)) = true
        · simp only [hs, if_true] at h
          cases hr : recurse results (CombinePaths path (some de.Name)) w with
          | none => simp [hr] at h
          | some x =>
            obtain ⟨r, rs', w'⟩ := x
            simp only [hr] at h
            obtain ⟨Y, hY⟩ := hrec _ _ _ _ hr
            obtain ⟨X, h1, h2⟩ := ih rs' w' rs w1 h
            simp only at hY
            refine ⟨Y ++ X, ?_, ?_⟩
            · rw [h1, ← hY]; simp
            · simp only [List.filter_cons, hsel, Bool.false_eq_true, if_false]
              exact List.Sublist.trans h2 (List.sublist_append_right _ _)
        · simp only [hs, Bool.false_eq_true, if_false] at h
          obtain ⟨X, h1, h2⟩ := ih _ w rs w1 h
          refine ⟨X, h1, ?_⟩
          simp only [List.filter_cons, hsel, Bool.false_eq_true, if_false]
          exact h2

theorem searchLoop_top {σ : Type}
    (recurse : List (Option Str) → Option Str → World σ →
      Option (Except Exn Unit × List (Option Str) × World σ))
    (regex : Regex) (dirs files : Bool) (path : Option Str) (pre : Str) :
    ∀ (entries : List ExtDirEntry) (results : List (Option Str)) (w : World σ),
      searchLoop recurse regex false dirs files path pre entries results w =
        some (results ++
          ((entries.filter (selected regex dirs files)).map fun de => emitted pre de.Name),
          w) := by
  intro entries
  induction entries with
  | nil => intro results w; simp only [searchLoop, List.filter_nil, List.map_nil, List.append_nil]
  | cons de rest ih =>
    intro results w
    rw [searchLoop]
    cases he : EndsWith de.Name "."
    · cases hm : ((((de.Typ == EntryType.DIR) && dirs) ||
          (!(de.Typ == EntryType.DIR) && files)) && regex.IsMatch de.Name)
      · have hsel : selected regex dirs files de = false := by
          simp only [selected, he, Bool.not_false, Bool.true_and]
          exact hm
        simp only [Bool.false_eq_true, if_false, hm, Bool.false_and, ih, List.filter_cons, hsel]
      · have hsel : selected regex dirs files de = true := by
          simp only [selected, he, Bool.not_false, Bool.true_and]
          exact hm
        simp only [Bool.false_eq_true, if_false, hm, if_true, Bool.false_and, ih,
          List.filter_cons, hsel, List.map_cons, List.append_assoc, List.singleton_append]
    · have hsel : selected regex dirs files de = false := by
        simp only [selected, he, Bool.not_true, Bool.false_and]
      simp only [if_true, ih, List.filter_cons, hsel, Bool.false_eq_true, if_false]

theorem DoSearch_extends {σ : Type} (E : Engine σ) (fs : ExtFileSystem) (regex : Regex)
    (subFolders dirs files : Bool) :
    ∀ (fuel : Nat) (results : List (Option Str)) (path : Option Str) (w : World σ)
      (x : Except Exn Unit × List (Option Str) × World σ),
      DoSearch E fs regex subFolders dirs files fuel results path w = some x →
        results <+: x.2.1 := by
  intro fuel
  induction fuel with
  | zero => intro results path w x h; simp [DoSearch] at h
  | succ fuel ih =>
    intro results path w x h
    rw [DoSearch] at h
    split at h
    · cases h; exact List.prefix_refl _
    · split at h
      · cases h; exact List.prefix_refl _
      · split at h
        · cases h; exact List.prefix_refl _
        · split at h
          · cases h; exact List.prefix_refl _
          · split at h
            · cases h
            · rename_i rs w' hl
              cases h
              obtain ⟨X, h1, -⟩ := searchLoop_level _ regex subFolders dirs files _ _ ih _ _ _ _ _ hl
              exact ⟨X, h1.symm⟩

theorem GetDirectory_ok {σ : Type} (E : Engine σ) (fs : ExtFileSystem) (path : Option Str)
    (w : World σ)
    (hopen : (E w.st (.ext4_dir_open (CombinePaths (some fs.mountPoint) path))).1.status = EOK) :
    GetDirectory E fs path w =
      (.ok ((E w.st (.ext4_dir_open (CombinePaths (some fs.mountPoint)
          path))).1.entries.filterMap readEntry),
        (call E .ext4_dir_close (call E (.ext4_dir_open (CombinePaths (some fs.mountPoint)
          path)) w).2).2) := by
  simp only [GetDirectory, call, hopen, ne_eq, not_true_eq_false, if_false]

theorem DoSearch_open_ok {σ : Type} (E : Engine σ) (fs : ExtFileSystem) (regex : Regex)
    (subFolders dirs files : Bool) (fuel : Nat) (results : List (Option Str)) (path : Str)
    (w : World σ) (hd : fs.disposed = false) (hmp : fs.mountPoint ≠ [])
    (hopen : (E w.st (.ext4_dir_open
      (CombinePaths (some fs.mountPoint) (some path)))).1.status = EOK)
    (x : Except Exn Unit × List (Option Str) × World σ)
    (hx : DoSearch E fs regex subFolders dirs files fuel results (some path) w = some x) :
    x.1 = .ok () := by
  cases fuel with
  | zero => simp [DoSearch] at hx
  | succ fuel =>
    rw [DoSearch] at hx
    simp only [hd, Bool.false_eq_true, if_false, GetDirectory_ok E fs (some path) w hopen,
      resultPrefix_ok _ _ hmp] at hx
    split at hx
    · cases hx
    · cases hx; rfl

/-- C17 as stated fails: in the session mounted at `/1a2b/` the mount point is shorter
than the traversal path `/data/sub`, and the result the search emits for `c.txt` there is
`/sub/c.txt`, not `/` followed by the entry name. -/
theorem DoSearch_emitted_counterexample :
    ¬ ((sessionOf "1a2b").mountPoint.length ≥ ("/data/sub" : Str).length) ∧
    (DoSearch (searchScenario "1a2b") (sessionOf "1a2b") txtRegex true false true 1 []
        (some "/data/sub") ⟨(), []⟩).map (fun x => (x.1, x.2.1)) =
      some (.ok (), [some ("/sub/c.txt" : Str)]) ∧
    (some ("/sub/c.txt" : Str)) ≠ some ("/" ++ ("c.txt" : Str)) := by
  refine ⟨by decide, by decide, by decide⟩

/-- C17 as amended: on an open session with a non-empty mount point, at every traversal
path whose directory the engine opens, every entry that is selected (not ending in `.`, of
the requested class, matching) is emitted as the rule says: the traversal path without its
first `mountPoint.Length - 1` characters joined with the entry name when the mount point is
at most as long as the traversal path, `/` followed by the entry name when it is longer.
Without recursion these are exactly the results added, in the order of the listing; with
recursion they are among the results added, in that order, whenever the search returns. -/
theorem DoSearch_emitted {σ : Type} (E : Engine σ) (fs : ExtFileSystem) (regex : Regex)
    (subFolders dirs files : Bool) (fuel : Nat) (results : List (Option Str)) (path : Str)
    (w : World σ) (hd : fs.disposed = false) (hmp : fs.mountPoint ≠ [])
    (hopen : (E w.st (.ext4_dir_open
      (CombinePaths (some fs.mountPoint) (some path)))).1.status = EOK) :
    ((DoSearch E fs regex false dirs files (fuel + 1) results (some path) w).map
        (fun x => (x.1, x.2.1)) =
      some (.ok (), results ++
        ((((E w.st (.ext4_dir_open (CombinePaths (some fs.mountPoint)
            (some path)))).1.entries.filterMap readEntry).filter
          (selected regex dirs files)).map
          fun de => emittedRule fs.mountPoint path de.Name))) ∧
    (∀ x, DoSearch E fs regex subFolders dirs files (fuel + 1) results (some path) w = some x →
      x.1 = .ok () ∧ ∃ X, x.2.1 = results ++ X ∧
        List.Sublist
          ((((E w.st (.ext4_dir_open (CombinePaths (some fs.mountPoint)
              (some path)))).1.entries.filterMap readEntry).filter
            (selected regex dirs files)).map
            fun de => emittedRule fs.mountPoint path de.Name) X) := by
  have hg := GetDirectory_ok E fs (some path) w hopen
  have hr : ∀ name, emitted (if fs.mountPoint.length ≤ path.length
      then path.drop (fs.mountPoint.length - 1) else "/") name =
      emittedRule fs.mountPoint path name := emitted_eq_rule fs.mountPoint path
  constructor
  · rw [DoSearch]
    simp only [hd, Bool.false_eq_true, if_false, hg, resultPrefix_ok _ _ hmp, searchLoop_top,
      Option.map_some', hr]
  · intro x hx
    rw [DoSearch] at hx
    simp only [hd, Bool.false_eq_true, if_false, hg, resultPrefix_ok _ _ hmp] at hx
    split at hx
    · cases hx
    · rename_i rs w' hl
      cases hx
      obtain ⟨X, h1, h2⟩ := searchLoop_level _ regex subFolders dirs files _ _
        (DoSearch_extends E fs regex subFolders dirs files fuel) _ _ _ _ _ hl
      refine ⟨rfl, X, h1, ?_⟩
      simpa only [hr] using h2

/-- C17 as amended, at the traversal path `/data/sub` of the scenario volume mounted at
`/1a2b/`: the result for `c.txt` is `/sub/c.txt`. -/
theorem DoSearch_emitted_witness :
    (DoSearch (searchScenario "1a2b") (sessionOf "1a2b") txtRegex false false true 1 []
        (some "/data/sub") ⟨(), []⟩).map (fun x => (x.1, x.2.1)) =
      some (.ok (), [some ("/sub/c.txt" : Str)]) :=
  ((DoSearch_emitted (searchScenario "1a2b") (sessionOf "1a2b") txtRegex false false true 0 []
    "/data/sub" ⟨(), []⟩ rfl (by decide) (by decide)).1).trans (by decide)


/-! ## Unlistable subdirectories -/

theorem searchLoop_congr {σ : Type}
    (recurse1 recurse2 : List (Option Str) → Option Str → World σ →
      Option (Except Exn Unit × List (Option Str) × World σ))
    (regex : Regex) (subFolders dirs files : Bool) (path : Option Str) (pre : Str)
    (hrec : ∀ results p w1 w2,
      (recurse1 results p w1).map (fun x => x.2.1) = (recurse2 results p w2).map (fun x => x.2.1)) :
    ∀ (entries : List ExtDirEntry) (results : List (Option Str)) (w1 w2 : World σ),
      (searchLoop recurse1 regex subFolders dirs files path pre entries results w1).map
          (fun x => x.1) =
        (searchLoop recurse2 regex subFolders dirs files path pre entries results w2).map
          (fun x => x.1) := by
  intro entries
  induction entries with
  | nil => intro results w1 w2; simp only [searchLoop, Option.map_some']
  | cons de rest ih =>
    intro results w1 w2
    rw [searchLoop, searchLoop]
    cases he : EndsWith de.Name "."
    · simp only [Bool.false_eq_true, if_false]
      cases hs : (subFolders && (de.Typ == EntryType.DIR))
      · simp only [Bool.false_eq_true, if_false]
        exact ih _ w1 w2
      · simp only [if_true]
        have h := hrec
          (if ((((de.Typ == EntryType.DIR) && dirs) || (!(de.Typ == EntryType.DIR) && files)) &&
            regex.IsMatch de.Name) = true then results ++ [emitted pre de.Name] else results)
          (CombinePaths path (some de.Name)) w1 w2
        cases h1 : recurse1
          (if ((((de.Typ == EntryType.DIR) && dirs) || (!(de.Typ == EntryType.DIR) && files)) &&
            regex.IsMatch de.Name) = true then results ++ [emitted pre de.Name] else results)
          (CombinePaths path (some de.Name)) w1 with
        | none =>
          rw [h1] at h
          cases h2 : recurse2
            (if ((((de.Typ == EntryType.DIR) && dirs) ||
              (!(de.Typ == EntryType.DIR) && files)) &&
              regex.IsMatch de.Name) = true then results ++ [emitted pre de.Name] else results)
            (CombinePaths path (some de.Name)) w2 with
          | none => rfl
          | some y => rw [h2] at h; cases h
        | some x =>
          rw [h1] at h
          cases h2 : recurse2
            (if ((((de.Typ == EntryType.DIR) && dirs) ||
              (!(de.Typ == EntryType.DIR) && files)) &&
              regex.IsMatch de.Name) = true then results ++ [emitted pre de.Name] else results)
            (CombinePaths path (some de.Name)) w2 with
          | none => rw [h2] at h; cases h
          | some y =>
            rw [h2] at h
            obtain ⟨r1, rs1, v1⟩ := x
            obtain ⟨r2, rs2, v2⟩ := y
            simp only [Option.map_some', Option.some.injEq] at h
            subst h
            exact ih _ v1 v2
    · simp only [if_true]
      exact ih _ w1 w2

theorem GetDirectory_listing (L : Option Str → Option (List ext4_direntry))
    (fs : ExtFileSystem) (path : Option Str) (w : World Unit) :
    GetDirectory (listingEngine L) fs path w =
      match L (CombinePaths (some fs.mountPoint) path) with
      | some entries =>
        (.ok (entries.filterMap readEntry),
          ⟨(), w.log ++ [.ext4_dir_open (CombinePaths (some fs.mountPoint) path)] ++
            [.ext4_dir_close]⟩)
      | none =>
        (.error (.mk .IOException "Failed to open directory"),
          ⟨(), w.log ++ [.ext4_dir_open (CombinePaths (some fs.mountPoint) path)]⟩) := by
  unfold GetDirectory
  simp only [call, listingEngine]
  cases L (CombinePaths (some fs.mountPoint) path) with
  | none => simp only [ EIO, EOK]; rfl
  | some entries => simp only [EOK]; rfl

theorem DoSearch_blocked_emptied (L : Option Str → Option (List ext4_direntry))
    (blocked : Option Str → Bool) (fs : ExtFileSystem) (regex : Regex)
    (subFolders dirs files : Bool) :
    ∀ (fuel : Nat) (results : List (Option Str)) (path : Option Str) (w1 w2 : World Unit),
      (DoSearch (listingEngine (blockedListing L blocked)) fs regex subFolders dirs files fuel
          results path w1).map (fun x => x.2.1) =
        (DoSearch (listingEngine (emptiedListing L blocked)) fs regex subFolders dirs files fuel
          results path w2).map (fun x => x.2.1) ∧
      (blocked (CombinePaths (some fs.mountPoint) path) = false →
        (DoSearch (listingEngine (blockedListing L blocked)) fs regex subFolders dirs files fuel
            results path w1).map (fun x => (x.1, x.2.1)) =
          (DoSearch (listingEngine (emptiedListing L blocked)) fs regex subFolders dirs files
            fuel results path w2).map (fun x => (x.1, x.2.1))) := by
  intro fuel
  induction fuel with
  | zero => intro results path w1 w2; simp only [DoSearch, Option.map_none', implies_true, and_self]
  | succ fuel ih =>
    intro results path w1 w2
    rw [DoSearch, DoSearch]
    cases hd : fs.disposed
    · simp only [Bool.false_eq_true, if_false, GetDirectory_listing]
      cases hb : blocked (CombinePaths (some fs.mountPoint) path)
      · simp only [blockedListing, emptiedListing, hb, Bool.false_eq_true, if_false, true_implies]
        cases L (CombinePaths (some fs.mountPoint) path) with
        | none => simp only [Option.map_some', and_self]
        | some entries =>
          simp only []
          cases path with
          | none => simp only [Option.map_some', and_self]
          | some p =>
            simp only []
            cases resultPrefix fs.mountPoint p with
            | error ex => simp only [Option.map_some', and_self]
            | ok pre =>
              simp only []
              have hl := searchLoop_congr
                (DoSearch (listingEngine (blockedListing L blocked)) fs regex subFolders dirs
                  files fuel)
                (DoSearch (listingEngine (emptiedListing L blocked)) fs regex subFolders dirs
                  files fuel)
                regex subFolders dirs files (some p) pre
                (fun results p w1 w2 => (ih results p w1 w2).1)
                (entries.filterMap readEntry) results
                ⟨(), w1.log ++ [.ext4_dir_open (CombinePaths (some fs.mountPoint) (some p))] ++
                  [.ext4_dir_close]⟩
                ⟨(), w2.log ++ [.ext4_dir_open (CombinePaths (some fs.mountPoint) (some p))] ++
                  [.ext4_dir_close]⟩
              revert hl
              cases searchLoop
                (DoSearch (listingEngine (blockedListing L blocked)) fs regex subFolders dirs
                  files fuel) regex subFolders dirs files (some p) pre
                (entries.filterMap readEntry) results
                ⟨(), w1.log ++ [.ext4_dir_open (CombinePaths (some fs.mountPoint) (some p))] ++
                  [.ext4_dir_close]⟩ with
              | none =>
                cases searchLoop
                  (DoSearch (listingEngine (emptiedListing L blocked)) fs regex subFolders dirs
                    files fuel) regex subFolders dirs files (some p) pre
                  (entries.filterMap readEntry) results
                  ⟨(), w2.log ++ [.ext4_dir_open (CombinePaths (some fs.mountPoint) (some p))] ++
                    [.ext4_dir_close]⟩ with
                | none => intro _; simp only [Option.map_none', and_self]
                | some y => intro hl; cases hl
              | some x =>
                cases searchLoop
                  (DoSearch (listingEngine (emptiedListing L blocked)) fs regex subFolders dirs
                    files fuel) regex subFolders dirs files (some p) pre
                  (entries.filterMap readEntry) results
                  ⟨(), w2.log ++ [.ext4_dir_open (CombinePaths (some fs.mountPoint) (some p))] ++
                    [.ext4_dir_close]⟩ with
                | none => intro hl; cases hl
                | some y =>
                  intro hl
                  simp only [Option.map_some', Option.some.injEq] at hl
                  simp only [Option.map_some', hl, and_self]
      · simp only [blockedListing, emptiedListing, hb, if_true, Bool.true_eq_false,
          false_implies, and_true]
        cases path with
        | none => simp only [Option.map_some']
        | some p =>
          simp only []
          cases resultPrefix fs.mountPoint p with
          | error ex => simp only [Option.map_some']
          | ok pre => simp only [List.filterMap_nil, searchLoop, Option.map_some']
    · simp only [if_true, Option.map_some', implies_true, and_self]

theorem searchLoop_returns {σ : Type}
    (recurse : List (Option Str) → Option Str → World σ →
      Option (Except Exn Unit × List (Option Str) × World σ))
    (regex : Regex) (subFolders dirs files : Bool) (path : Option Str) (pre : Str) :
    ∀ (entries : List ExtDirEntry),
      (∀ de ∈ entries, de.Typ = EntryType.DIR → EndsWith de.Name "." = false →
        ∀ results w, (recurse results (CombinePaths path (some de.Name)) w).isSome = true) →
      ∀ (results : List (Option Str)) (w : World σ),
        (searchLoop recurse regex subFolders dirs files path pre entries results w).isSome
          = true := by
  intro entries
  induction entries with
  | nil => intro _ results w; simp only [searchLoop, Option.isSome_some]
  | cons de rest ih =>
    intro h results w
    have ih' := ih (fun d hd => h d (List.mem_cons_of_mem _ hd))
    rw [searchLoop]
    cases he : EndsWith de.Name "."
    · simp only [Bool.false_eq_true, if_false]
      cases hs : (subFolders && (de.Typ == EntryType.DIR))
      · simp only [Bool.false_eq_true, if_false]
        exact ih' _ w
      · simp only [if_true]
        have hdir : de.Typ = EntryType.DIR := by
          have := (Bool.and_eq_true _ _).mp hs
          exact of_decide_eq_true (by simpa using this.2)
        have hr := h de (List.mem_cons_self _ _) hdir he
          (if ((((de.Typ == EntryType.DIR) && dirs) || (!(de.Typ == EntryType.DIR) && files)) &&
            regex.IsMatch de.Name) = true then results ++ [emitted pre de.Name] else results) w
        cases h1 : recurse
          (if ((((de.Typ == EntryType.DIR) && dirs) || (!(de.Typ == EntryType.DIR) && files)) &&
            regex.IsMatch de.Name) = true then results ++ [emitted pre de.Name] else results)
          (CombinePaths path (some de.Name)) w with
        | none => rw [h1] at hr; cases hr
        | some x =>
          obtain ⟨r, rs, v⟩ := x
          exact ih' rs v
    · simp only [if_true]
      exact ih' _ w

theorem DoSearch_returns (L : Option Str → Option (List ext4_direntry)) (fs : ExtFileSystem)
    (regex : Regex) (subFolders dirs files : Bool) (rank : Option Str → Nat)
    (hrank : ∀ p entries, L (CombinePaths (some fs.mountPoint) p) = some entries →
      ∀ de ∈ entries.filterMap readEntry, de.Typ = EntryType.DIR →
        EndsWith de.Name "." = false → rank (CombinePaths p (some de.Name)) < rank p) :
    ∀ (fuel : Nat) (results : List (Option Str)) (path : Option Str) (w : World Unit),
      rank path < fuel →
        (DoSearch (listingEngine L) fs regex subFolders dirs files fuel results path w).isSome
          = true := by
  intro fuel
  induction fuel with
  | zero => intro results path w h; exact absurd h (Nat.not_lt_zero _)
  | succ fuel ih =>
    intro results path w h
    rw [DoSearch]
    cases hd : fs.disposed
    · simp only [Bool.false_eq_true, if_false, GetDirectory_listing]
      cases hl : L (CombinePaths (some fs.mountPoint) path) with
      | none => simp only [Option.isSome_some]
      | some entries =>
        simp only []
        cases path with
        | none => simp only [Option.isSome_some]
        | some p =>
          simp only []
          cases resultPrefix fs.mountPoint p with
          | error ex => simp only [Option.isSome_some]
          | ok pre =>
            simp only []
            have hs := searchLoop_returns
              (DoSearch (listingEngine L) fs regex subFolders dirs files fuel)
              regex subFolders dirs files (some p) pre (entries.filterMap readEntry)
              (fun de hde hdir hdot results w =>
                ih results _ w (by have := hrank (some p) entries hl de hde hdir hdot; omega))
              results
              ⟨(), w.log ++ [.ext4_dir_open (CombinePaths (some fs.mountPoint) (some p))] ++
                [.ext4_dir_close]⟩
            revert hs
            cases searchLoop
              (DoSearch (listingEngine L) fs regex subFolders dirs files fuel)
              regex subFolders dirs files (some p) pre (entries.filterMap readEntry) results
              ⟨(), w.log ++ [.ext4_dir_open (CombinePaths (some fs.mountPoint) (some p))] ++
                [.ext4_dir_close]⟩ with
            | none => intro hs; cases hs
            | some x => intro _; simp only [Option.isSome_some]
    · simp only [if_true, Option.isSome_some]

theorem searchBody_blocked_emptied (L : Option Str → Option (List ext4_direntry))
    (blocked : Option Str → Bool) (fold : Char → Char) (fs : ExtFileSystem) (fuel : Nat)
    (path : Str) (searchPattern : Option Str) (regex : Regex) (dirs files : Bool)
    (rank : Option Str → Nat) (w1 w2 : World Unit)
    (hd : fs.disposed = false) (hmp : fs.mountPoint ≠ [])
    (hre : ConvertWildcardsToRegEx fold searchPattern = .ok regex)
    (hroot : blocked (CombinePaths (some fs.mountPoint) (some (searchRoot path))) = false)
    (hlist : (L (CombinePaths (some fs.mountPoint) (some (searchRoot path)))).isSome = true)
    (hrank : ∀ p entries,
      emptiedListing L blocked (CombinePaths (some fs.mountPoint) p) = some entries →
      ∀ de ∈ entries.filterMap readEntry, de.Typ = EntryType.DIR →
        EndsWith de.Name "." = false → rank (CombinePaths p (some de.Name)) < rank p)
    (hfuel : rank (some (searchRoot path)) < fuel) :
    ∃ rs,
      (searchBody (listingEngine (blockedListing L blocked)) fold fs fuel (some path)
        searchPattern .AllDirectories dirs files w1).map (fun x => x.1) = some (.ok rs) ∧
      (searchBody (listingEngine (emptiedListing L blocked)) fold fs fuel (some path)
        searchPattern .AllDirectories dirs files w2).map (fun x => x.1) = some (.ok rs) := by
  have hret := DoSearch_returns (emptiedListing L blocked) fs regex true dirs files rank hrank
    fuel [] (some (searchRoot path)) w2 hfuel
  have hrel := (DoSearch_blocked_emptied L blocked fs regex true dirs files fuel []
    (some (searchRoot path)) w1 w2).2 hroot
  have hopen : ((listingEngine (emptiedListing L blocked)) w2.st (.ext4_dir_open
      (CombinePaths (some fs.mountPoint) (some (searchRoot path))))).1.status = EOK := by
    simp only [listingEngine, emptiedListing, hroot, Bool.false_eq_true, if_false]
    cases hL : L (CombinePaths (some fs.mountPoint) (some (searchRoot path))) with
    | none => rw [hL] at hlist; cases hlist
    | some entries => rfl
  cases h2 : DoSearch (listingEngine (emptiedListing L blocked)) fs regex true dirs files fuel
      [] (some (searchRoot path)) w2 with
  | none => rw [h2] at hret; cases hret
  | some y =>
    have hok := DoSearch_open_ok _ fs regex true dirs files fuel [] (searchRoot path) w2 hd hmp
      hopen y h2
    obtain ⟨r2, rs, v2⟩ := y
    simp only at hok
    subst hok
    rw [h2] at hrel
    cases h1 : DoSearch (listingEngine (blockedListing L blocked)) fs regex true dirs files fuel
        [] (some (searchRoot path)) w1 with
    | none => rw [h1] at hrel; cases hrel
    | some x =>
      rw [h1] at hrel
      obtain ⟨r1, rs1, v1⟩ := x
      simp only [Option.map_some', Option.some.injEq, Prod.mk.injEq] at hrel
      obtain ⟨hr, hrs⟩ := hrel
      subst hr hrs
      have o : (SearchOption.AllDirectories == SearchOption.AllDirectories) = true := by decide
      refine ⟨rs1, ?_, ?_⟩
      · unfold searchBody
        rw [hre]
        simp only [o]
        have h1' : DoSearch (listingEngine (blockedListing L blocked)) fs regex true dirs files
            fuel [] (some (if (!StartsWith path "/") = true then ("/" : Str) ++ path else path))
            w1 = some (.ok (), rs1, v1) := h1
        rw [h1']
        rfl
      · unfold searchBody
        rw [hre]
        simp only [o]
        have h2' : DoSearch (listingEngine (emptiedListing L blocked)) fs regex true dirs files
            fuel [] (some (if (!StartsWith path "/") = true then ("/" : Str) ++ path else path))
            w2 = some (.ok (), rs1, v2) := h2
        rw [h2']
        rfl

theorem CombinePaths_getLast (a : Option Str) (b : Str) (c : Char)
    (hb : b.getLast? = some c) (hc : c ≠ '/') :
    ∃ s, CombinePaths a (some b) = some s ∧ s.getLast? = some c := by
  have hne : b ≠ [] := by rintro rfl; cases hb
  by_cases ha : IsNullOrEmpty a = true
  · exact ⟨b, by simp only [CombinePaths, ha, if_true], hb⟩
  · refine ⟨TrimEnd '/' (nstr a) ++ "/" ++ TrimStart '/' b, ?_, ?_⟩
    · simp only [CombinePaths, ha, IsNullOrEmpty_some b hne, Bool.false_eq_true, if_false]
      rfl
    · obtain ⟨j, h1, h2⟩ := TrimStart_decomp '/' b
      have hne0 : TrimStart '/' b ≠ [] := by
        intro h0
        rw [h0, List.append_nil] at h1
        rw [h1] at hb
        cases j with
        | zero => cases hb
        | succ j =>
          rw [List.getLast?_eq_getLast _ (by simp), List.getLast_replicate] at hb
          exact hc (Option.some.inj hb).symm
      rw [List.getLast?_append_of_ne_nil _ hne0]
      rw [h1, List.getLast?_append_of_ne_nil _ hne0] at hb
      exact hb

/-- C15: over every table of directory listings `L` whose tree is finite (a rank
decreases from each listed directory to its subdirectories), for every set `blocked` of
directories that cannot be listed and does not hold the search root, every valid pattern
and enough fuel, the recursive `GetFiles` and `GetDirectories` on an open session return
without an error, and they return the very list that the same search returns when the
blocked directories are empty instead. -/
theorem search_skips_unlistable (L : Option Str → Option (List ext4_direntry))
    (blocked : Option Str → Bool) (fold : Char → Char) (fs : ExtFileSystem) (fuel : Nat)
    (path : Str) (searchPattern : Option Str) (regex : Regex)
    (rank : Option Str → Nat) (w1 w2 : World Unit)
    (hd : fs.disposed = false) (hmp : fs.mountPoint ≠ [])
    (hre : ConvertWildcardsToRegEx fold searchPattern = .ok regex)
    (hroot : blocked (CombinePaths (some fs.mountPoint) (some (searchRoot path))) = false)
    (hlist : (L (CombinePaths (some fs.mountPoint) (some (searchRoot path)))).isSome = true)
    (hrank : ∀ p entries,
      emptiedListing L blocked (CombinePaths (some fs.mountPoint) p) = some entries →
      ∀ de ∈ entries.filterMap readEntry, de.Typ = EntryType.DIR →
        EndsWith de.Name "." = false → rank (CombinePaths p (some de.Name)) < rank p)
    (hfuel : rank (some (searchRoot path)) < fuel) :
    (∃ rs,
      (GetFiles (listingEngine (blockedListing L blocked)) fold fs fuel (some path)
        searchPattern .AllDirectories w1).map (fun x => x.1) = some (.ok rs) ∧
      (GetFiles (listingEngine (emptiedListing L blocked)) fold fs fuel (some path)
        searchPattern .AllDirectories w2).map (fun x => x.1) = some (.ok rs)) ∧
    (∃ rs,
      (GetDirectories (listingEngine (blockedListing L blocked)) fold fs fuel (some path)
        searchPattern .AllDirectories w1).map (fun x => x.1) = some (.ok rs) ∧
      (GetDirectories (listingEngine (emptiedListing L blocked)) fold fs fuel (some path)
        searchPattern .AllDirectories w2).map (fun x => x.1) = some (.ok rs)) := by
  have lift : ∀ (r : Option (Res Unit (List (Option Str)))) (rs : List (Option Str)),
      r.map (fun x => x.1) = some (.ok rs) → ∃ v, r = some (.ok rs, v) := by
    intro r rs h
    obtain ⟨⟨e, v⟩, hs, he⟩ := Option.map_eq_some'.mp h
    simp only at he
    subst he
    exact ⟨v, hs⟩
  constructor
  · obtain ⟨rs, h1, h2⟩ := searchBody_blocked_emptied L blocked fold fs fuel path searchPattern
      regex false true rank w1 w2 hd hmp hre hroot hlist hrank hfuel
    refine ⟨rs, ?_, ?_⟩
    · obtain ⟨v, hv⟩ := lift _ rs h1
      unfold GetFiles
      simp only [hd, Bool.false_eq_true, if_false, hv]
      rfl
    · obtain ⟨v, hv⟩ := lift _ rs h2
      unfold GetFiles
      simp only [hd, Bool.false_eq_true, if_false, hv]
      rfl
  · obtain ⟨rs, h1, h2⟩ := searchBody_blocked_emptied L blocked fold fs fuel path searchPattern
      regex true false rank w1 w2 hd hmp hre hroot hlist hrank hfuel
    refine ⟨rs, ?_, ?_⟩
    · obtain ⟨v, hv⟩ := lift _ rs h1
      unfold GetDirectories
      simp only [hd, Bool.false_eq_true, if_false, hv]
      rfl
    · obtain ⟨v, hv⟩ := lift _ rs h2
      unfold GetDirectories
      simp only [hd, Bool.false_eq_true, if_false, hv]
      rfl

theorem scenarioRank_decreases (p : Option Str) (entries : List ext4_direntry)
    (h : emptiedListing scenarioListing scenarioBlocked
      (CombinePaths (some (sessionOf "1a2b").mountPoint) p) = some entries)
    (de : ExtDirEntry) (hde : de ∈ entries.filterMap readEntry)
    (hdir : de.Typ = EntryType.DIR) :
    scenarioRank (CombinePaths p (some de.Name)) < scenarioRank p := by
  have hm : (sessionOf "1a2b").mountPoint = ("/1a2b/" : Str) := rfl
  rw [hm] at h
  unfold emptiedListing scenarioBlocked scenarioListing at h
  by_cases h1 : CombinePaths (some ("/1a2b/" : Str)) p = some ("/1a2b/data/sub" : Str)
  · simp only [h1, decide_True, if_true, Option.some.injEq] at h
    subst h
    simp only [List.filterMap_nil, List.not_mem_nil] at hde
  · by_cases h2 : CombinePaths (some ("/1a2b/" : Str)) p = some ("/1a2b/data" : Str)
    · rw [h2] at h
      rw [if_neg (by decide), if_pos rfl] at h
      have h := Option.some.inj h
      subst h
      have hf : List.filterMap readEntry [rawEntry "." 2, rawEntry ".." 2, rawEntry "a.txt" 1,
          rawEntry "sub" 2, rawEntry "z.txt" 1] =
          [⟨"a.txt", 17, .REG_FILE⟩, ⟨"sub", 15, .DIR⟩, ⟨"z.txt", 17, .REG_FILE⟩] := by decide
      rw [hf] at hde
      have hsub : de = ⟨"sub", 15, .DIR⟩ := by
        simp only [List.mem_cons, List.mem_singleton, List.not_mem_nil, or_false] at hde
        rcases hde with rfl | rfl | rfl
        · cases hdir
        · rfl
        · cases hdir
      subst hsub
      obtain ⟨s1, hs1, hl1⟩ := CombinePaths_getLast p ("sub" : Str) 'b' (by decide) (by decide)
      obtain ⟨s2, hs2, hl2⟩ := CombinePaths_getLast (some ("/1a2b/" : Str)) s1 'b' hl1 (by decide)
      have hne : CombinePaths (some ("/1a2b/" : Str)) (CombinePaths p (some ("sub" : Str))) ≠
          some ("/1a2b/data" : Str) := by
        rw [hs1, hs2]
        intro hc
        rw [Option.some.inj hc] at hl2
        exact absurd hl2 (by decide)
      show scenarioRank (CombinePaths p (some ("sub" : Str))) < scenarioRank p
      simp only [scenarioRank, hne, if_false, h2, if_true]
      exact Nat.zero_lt_one
    · simp only [h1, decide_False, Bool.false_eq_true, if_false, h2] at h
      cases h

/-- C15 on the scenario volume mounted at `/1a2b/`, where `data` holds `a.txt`, the
subdirectory `sub` and `z.txt`, and `sub` cannot be listed: the searches return what they
return when `sub` is empty; the files found are `a.txt` and the later sibling `z.txt`, and
`sub` itself is reported among the directories. -/
theorem search_skips_unlistable_witness :
    ((∃ rs,
      (GetFiles (listingEngine (blockedListing scenarioListing scenarioBlocked)) Char.toLower
        (sessionOf "1a2b") 2 (some "/data") (some "*") .AllDirectories ⟨(), []⟩).map
          (fun x => x.1) = some (.ok rs) ∧
      (GetFiles (listingEngine (emptiedListing scenarioListing scenarioBlocked)) Char.toLower
        (sessionOf "1a2b") 2 (some "/data") (some "*") .AllDirectories ⟨(), []⟩).map
          (fun x => x.1) = some (.ok rs)) ∧
    (∃ rs,
      (GetDirectories (listingEngine (blockedListing scenarioListing scenarioBlocked))
        Char.toLower (sessionOf "1a2b") 2 (some "/data") (some "*") .AllDirectories
        ⟨(), []⟩).map (fun x => x.1) = some (.ok rs) ∧
      (GetDirectories (listingEngine (emptiedListing scenarioListing scenarioBlocked))
        Char.toLower (sessionOf "1a2b") 2 (some "/data") (some "*") .AllDirectories
        ⟨(), []⟩).map (fun x => x.1) = some (.ok rs))) ∧
    (GetFiles (listingEngine (blockedListing scenarioListing scenarioBlocked)) Char.toLower
        (sessionOf "1a2b") 2 (some "/data") (some "*") .AllDirectories ⟨(), []⟩).map
          (fun x => x.1) = some (.ok [some ("/a.txt" : Str), some ("/z.txt" : Str)]) ∧
    (GetDirectories (listingEngine (blockedListing scenarioListing scenarioBlocked))
        Char.toLower (sessionOf "1a2b") 2 (some "/data") (some "*") .AllDirectories
        ⟨(), []⟩).map (fun x => x.1) = some (.ok [some ("/sub" : Str)]) :=
  ⟨search_skips_unlistable scenarioListing scenarioBlocked Char.toLower (sessionOf "1a2b") 2
      "/data" (some "*") ⟨Char.toLower, [.any true, .any true]⟩ scenarioRank ⟨(), []⟩ ⟨(), []⟩
      rfl (by decide) rfl (by decide) (by decide)
      (fun p entries h de hde hdir _ => scenarioRank_decreases p entries h de hde hdir)
      (by decide),
    by decide, by decide⟩

end SharpExt4
